import Mathlib

/-!
# Iterator protocol of `iterator.js`

A shallow embedding of
`graal-js/src/com.oracle.truffle.js.runtime/src/com/oracle/truffle/js/runtime/resources/iterator.js`:
the array, set, map and string iterators, their creation functions and their
`next` operations.

* JavaScript values are the inductive type `Value`.
* Objects live in a `Heap`; only their hidden-key slots are stored there, since
  those are the only object state `iterator.js` reads or writes directly.
* Everything `iterator.js` obtains from the runtime (the `Internal` functions
  and ordinary property reads on the iterated target) is a field of `Host`.
  A `Host` is a snapshot of the world at the time of one call; code running
  between two calls is modelled by passing a different `Host` to the next call.
* A call returns the heap it leaves behind together with its completion:
  `Except.ok` for a normal return, `Except.error` for a thrown exception.
-/

namespace IteratorJS

/-! ## Values, errors, results -/

/-- JavaScript values, as far as `iterator.js` handles them.  `number` holds the
integral Numbers, `nan` is the Number NaN, `string` is a sequence of UTF-16 code
units, `object` is a reference into the heap, and `array2 a b` is the freshly
allocated array literal `[a, b]`. -/
inductive Value where
  | undefined
  | number (n : Int)
  | nan
  | string (units : List Nat)
  | object (ref : Nat)
  | array2 (first second : Value)
  deriving DecidableEq, Repr

/-- Exceptions a call can complete with.  `TypeError message` is thrown by a
`throw new TypeError(message)` statement of `iterator.js` itself;
`RequireObjectTypeError` is the TypeError of `Internal.RequireObject`;
`AssertionFailed` is a failing `Internal.Assert`; `hostThrow v` is a value thrown
inside a host function or property read and propagated unchanged. -/
inductive JSError where
  | TypeError (message : String)
  | RequireObjectTypeError
  | AssertionFailed
  | hostThrow (v : Value)
  deriving DecidableEq, Repr

/-- Whether the exception is a TypeError raised by `iterator.js` or by
`Internal.RequireObject`. -/
def JSError.isTypeError : JSError → Bool
  | .TypeError _ => true
  | .RequireObjectTypeError => true
  | _ => false

/-- The object `{ value, done }`. -/
structure IterResult where
  value : Value
  done : Bool
  deriving DecidableEq, Repr

/-- Source lines 40-42. -/
def CreateIterResultObject (value : Value) (done : Bool) : IterResult :=
  { value := value, done := done }

/-! ## Hidden keys and the heap -/

/-- The hidden keys of lines 10-12, 137, 211, 289-290. -/
inductive HiddenKey where
  | IteratedObject
  | IteratorNextIndex
  | ArrayIterationKind
  | SetIterationKind
  | MapIterationKind
  | IteratedString
  | StringIteratorNextIndex
  deriving DecidableEq, Repr

def ITERATED_OBJECT_ID : HiddenKey := .IteratedObject
def ITERATOR_NEXT_INDEX_ID : HiddenKey := .IteratorNextIndex
def ARRAY_ITERATION_KIND_ID : HiddenKey := .ArrayIterationKind
def SET_ITERATION_KIND_ID : HiddenKey := .SetIterationKind
def MAP_ITERATION_KIND_ID : HiddenKey := .MapIterationKind
def ITERATED_STRING_ID : HiddenKey := .IteratedString
def STRING_ITERATOR_NEXT_INDEX_ID : HiddenKey := .StringIteratorNextIndex

/-- Line 14: `1 << 0`. -/
def ITERATION_KIND_KEY : Nat := 1 <<< 0
/-- Line 15: `1 << 1`. -/
def ITERATION_KIND_VALUE : Nat := 1 <<< 1
/-- Line 16: `ITERATION_KIND_KEY | ITERATION_KIND_VALUE`. -/
def ITERATION_KIND_KEY_PLUS_VALUE : Nat := ITERATION_KIND_KEY ||| ITERATION_KIND_VALUE

/-- The hidden-key slots of one object: `none` when the object does not have the
key, `some v` when it has it with value `v` (possibly `undefined`). -/
structure JSObject where
  IteratedObject : Option Value
  IteratorNextIndex : Option Value
  ArrayIterationKind : Option Value
  SetIterationKind : Option Value
  MapIterationKind : Option Value
  IteratedString : Option Value
  StringIteratorNextIndex : Option Value
  deriving DecidableEq, Repr

/-- An object without hidden keys: the result of `new ArrayIterator()` and the
like, and every object not made by `iterator.js`. -/
def JSObject.empty : JSObject :=
  { IteratedObject := none, IteratorNextIndex := none, ArrayIterationKind := none,
    SetIterationKind := none, MapIterationKind := none, IteratedString := none,
    StringIteratorNextIndex := none }

def JSObject.get (o : JSObject) : HiddenKey → Option Value
  | .IteratedObject => o.IteratedObject
  | .IteratorNextIndex => o.IteratorNextIndex
  | .ArrayIterationKind => o.ArrayIterationKind
  | .SetIterationKind => o.SetIterationKind
  | .MapIterationKind => o.MapIterationKind
  | .IteratedString => o.IteratedString
  | .StringIteratorNextIndex => o.StringIteratorNextIndex

def JSObject.set (o : JSObject) (key : HiddenKey) (v : Value) : JSObject :=
  match key with
  | .IteratedObject => { o with IteratedObject := some v }
  | .IteratorNextIndex => { o with IteratorNextIndex := some v }
  | .ArrayIterationKind => { o with ArrayIterationKind := some v }
  | .SetIterationKind => { o with SetIterationKind := some v }
  | .MapIterationKind => { o with MapIterationKind := some v }
  | .IteratedString => { o with IteratedString := some v }
  | .StringIteratorNextIndex => { o with StringIteratorNextIndex := some v }

/-- The heap: object reference `r` denotes the `r`-th entry. -/
abbrev Heap := List JSObject

/-- The test `Internal.HasHiddenKey(obj, key)`; false for a value that is not an object
of the heap. -/
def Heap.HasHiddenKey (heap : Heap) (obj : Value) (key : HiddenKey) : Bool :=
  match obj with
  | .object r =>
    match heap[r]? with
    | some o => (o.get key).isSome
    | none => false
  | _ => false

/-- The read `obj[key]` of a hidden key; `undefined` when the key is missing. -/
def Heap.read (heap : Heap) (obj : Value) (key : HiddenKey) : Value :=
  match obj with
  | .object r =>
    match heap[r]? with
    | some o => (o.get key).getD .undefined
    | none => .undefined
  | _ => .undefined

/-- The write `obj[key] = v` of a hidden key.  It is only ever executed on an
object of the heap (a fresh iterator, or a receiver that passed its brand
check); on anything else the embedding leaves the heap as it is. -/
def Heap.write (heap : Heap) (obj : Value) (key : HiddenKey) (v : Value) : Heap :=
  match obj with
  | .object r =>
    match heap[r]? with
    | some o => heap.set r (o.set key v)
    | none => heap
  | _ => heap

/-- Allocation of a new object without hidden keys (`new ArrayIterator()`,
`new SetIterator()`, ...): returns the extended heap and the new reference. -/
def Heap.alloc (heap : Heap) : Heap × Value :=
  (heap ++ [JSObject.empty], .object heap.length)

/-! ## JavaScript operators

The operators below follow JavaScript on Number, NaN and `undefined` operands
(and `add` also on two strings).  Operands of other types would be coerced by
JavaScript; they never reach these operators from a cursor, position or code
unit handled by `iterator.js`, and the embedding treats them like NaN. -/

/-- The comparison `a >= b`. -/
def Value.ge : Value → Value → Bool
  | .number a, .number b => decide (b ≤ a)
  | _, _ => false

/-- The comparison `a < b`. -/
def Value.lt : Value → Value → Bool
  | .number a, .number b => decide (a < b)
  | _, _ => false

/-- The comparison `a > b`. -/
def Value.gt : Value → Value → Bool
  | .number a, .number b => decide (b < a)
  | _, _ => false

/-- The operator `a + b`. -/
def Value.add : Value → Value → Value
  | .number a, .number b => .number (a + b)
  | .string a, .string b => .string (a ++ b)
  | _, _ => .nan

/-- The loose equality `a == b`. -/
def Value.looseEq : Value → Value → Bool
  | .nan, _ => false
  | _, .nan => false
  | a, b => decide (a = b)

/-- The property read `v.length` of a string value. -/
def Value.length : Value → Value
  | .string s => .number s.length
  | _ => .undefined

/-! ## The host runtime -/

/-- What `iterator.js` obtains from the runtime.  A host function that can run
user code returns `Except.error v` when it throws the value `v`.

`AdvanceMapCursor(collection, cursor)` updates the cursor object in place and
returns whether it now stands on a live entry.  The cursor object is created by
`GetMapCursor` and referenced only from the iterator's `IteratorNextIndex`
slot, so the embedding keeps the cursor's state as the value of that slot:
`AdvanceMapCursor` returns the boolean together with the updated cursor. -/
structure Host where
  IsArrayBufferView : Value → Bool
  HasDetachedBuffer : Value → Bool
  /-- The property read `array.length`. -/
  GetLength : Value → Except Value Value
  ToLength : Value → Except Value Value
  /-- The property read `array[index]`. -/
  GetIndex : Value → Value → Except Value Value
  IsSet : Value → Bool
  IsMap : Value → Bool
  GetMapCursor : Value → Value
  AdvanceMapCursor : Value → Value → Bool × Value
  GetKeyFromMapCursor : Value → Value → Value
  GetValueFromMapCursor : Value → Value → Value
  ToObject : Value → Except Value Value
  IsValidTypedArray : Value → Bool

/-- Completion of a host call inside `iterator.js`: a thrown value propagates. -/
def liftHost (r : Except Value Value) : Except JSError Value :=
  match r with
  | .ok v => .ok v
  | .error v => .error (.hostThrow v)

/-! ## Array iterator (lines 27-92) -/

/-- Lines 31-38. -/
def CreateArrayIterator (heap : Heap) (array kind : Value) : Heap × Value :=
  let (heap0, iterator) := heap.alloc
  let heap1 := heap0.write iterator ITERATED_OBJECT_ID array
  let heap2 := heap1.write iterator ITERATOR_NEXT_INDEX_ID (.number 0)
  let heap3 := heap2.write iterator ARRAY_ITERATION_KIND_ID kind
  (heap3, iterator)

/-- Lines 44-53. -/
def IsArrayIterator (heap : Heap) (iterator : Value) : Except JSError Bool :=
  if heap.HasHiddenKey iterator ARRAY_ITERATION_KIND_ID then
    if !heap.HasHiddenKey iterator ITERATED_OBJECT_ID then .error .AssertionFailed
    else if !heap.HasHiddenKey iterator ITERATOR_NEXT_INDEX_ID then .error .AssertionFailed
    else .ok true
  else .ok false

/-- Lines 66-74: the length of the target as read by one step. -/
def arrayLength (host : Host) (array : Value) : Except JSError Value :=
  if host.IsArrayBufferView array then
    if host.HasDetachedBuffer array then
      .error (.TypeError "Cannot perform Array Iterator.prototype.next on a detached ArrayBuffer")
    else liftHost (host.GetLength array)
  else
    match host.GetLength array with
    | .error v => .error (.hostThrow v)
    | .ok l => liftHost (host.ToLength l)

/-- Lines 55-92. -/
def ArrayIteratorNext (host : Host) (heap : Heap) (this : Value) :
    Heap × Except JSError IterResult :=
  let iterator := this
  match IsArrayIterator heap iterator with
  | .error e => (heap, .error e)
  | .ok false => (heap, .error (.TypeError "not an Array Iterator"))
  | .ok true =>
    let array := heap.read iterator ITERATED_OBJECT_ID
    if array = .undefined then (heap, .ok (CreateIterResultObject .undefined true))
    else
      let index := heap.read iterator ITERATOR_NEXT_INDEX_ID
      let itemKind := heap.read iterator ARRAY_ITERATION_KIND_ID
      match arrayLength host array with
      | .error e => (heap, .error e)
      | .ok length =>
        if index.ge length then
          (heap.write iterator ITERATED_OBJECT_ID .undefined,
            .ok (CreateIterResultObject .undefined true))
        else
          let heap1 := heap.write iterator ITERATOR_NEXT_INDEX_ID (index.add (.number 1))
          if itemKind = .number ITERATION_KIND_KEY then
            (heap1, .ok (CreateIterResultObject index false))
          else
            match host.GetIndex array index with
            | .error v => (heap1, .error (.hostThrow v))
            | .ok elementValue =>
              if itemKind = .number ITERATION_KIND_VALUE then
                (heap1, .ok (CreateIterResultObject elementValue false))
              else if itemKind = .number ITERATION_KIND_KEY_PLUS_VALUE then
                (heap1, .ok (CreateIterResultObject (.array2 index elementValue) false))
              else (heap1, .error .AssertionFailed)

/-! ## Set iterator (lines 136-190) -/

/-- Whether a value is an object (arrays included). -/
def Value.isObject : Value → Bool
  | .object _ => true
  | .array2 _ _ => true
  | _ => false

/-- Modelled from the spec: `Internal.RequireObject` is a runtime function that is
not part of `iterator.js`; it throws a TypeError unless its argument is an
object, and has no other effect. -/
def RequireObject (v : Value) : Except JSError Unit :=
  if v.isObject then .ok () else .error .RequireObjectTypeError

/-- Lines 142-152. -/
def CreateSetIterator (host : Host) (heap : Heap) (set kind : Value) :
    Heap × Except JSError Value :=
  match RequireObject set with
  | .error e => (heap, .error e)
  | .ok _ =>
    if !host.IsSet set then (heap, .error (.TypeError "not a Set"))
    else
      let (heap0, iterator) := heap.alloc
      let heap1 := heap0.write iterator ITERATED_OBJECT_ID set
      let heap2 := heap1.write iterator ITERATOR_NEXT_INDEX_ID (host.GetMapCursor set)
      let heap3 := heap2.write iterator SET_ITERATION_KIND_ID kind
      (heap3, .ok iterator)

/-- Lines 154-163. -/
def IsSetIterator (heap : Heap) (iterator : Value) : Except JSError Bool :=
  if heap.HasHiddenKey iterator SET_ITERATION_KIND_ID then
    if !heap.HasHiddenKey iterator ITERATED_OBJECT_ID then .error .AssertionFailed
    else if !heap.HasHiddenKey iterator ITERATOR_NEXT_INDEX_ID then .error .AssertionFailed
    else .ok true
  else .ok false

/-- Lines 165-190.  `advanced.2` is the cursor after `Internal.AdvanceMapCursor`
has updated it in place; it is stored back into the slot that holds the cursor
(see `Host`). -/
def SetIteratorNext (host : Host) (heap : Heap) (this : Value) :
    Heap × Except JSError IterResult :=
  let iterator := this
  match IsSetIterator heap iterator with
  | .error e => (heap, .error e)
  | .ok false => (heap, .error (.TypeError "not a Set Iterator"))
  | .ok true =>
    let set := heap.read iterator ITERATED_OBJECT_ID
    if set = .undefined then (heap, .ok (CreateIterResultObject .undefined true))
    else
      let index := heap.read iterator ITERATOR_NEXT_INDEX_ID
      let itemKind := heap.read iterator SET_ITERATION_KIND_ID
      let advanced := host.AdvanceMapCursor set index
      let heap1 := heap.write iterator ITERATOR_NEXT_INDEX_ID advanced.2
      if !advanced.1 then
        (heap1.write iterator ITERATED_OBJECT_ID .undefined,
          .ok (CreateIterResultObject .undefined true))
      else
        let elementValue := host.GetKeyFromMapCursor set advanced.2
        if itemKind = .number ITERATION_KIND_VALUE then
          (heap1, .ok (CreateIterResultObject elementValue false))
        else if itemKind = .number ITERATION_KIND_KEY_PLUS_VALUE then
          (heap1, .ok (CreateIterResultObject (.array2 elementValue elementValue) false))
        else (heap1, .error .AssertionFailed)

/-! ## Map iterator (lines 210-266) -/

/-- Lines 216-226. -/
def CreateMapIterator (host : Host) (heap : Heap) (map kind : Value) :
    Heap × Except JSError Value :=
  match RequireObject map with
  | .error e => (heap, .error e)
  | .ok _ =>
    if !host.IsMap map then (heap, .error (.TypeError "not a Map"))
    else
      let (heap0, iterator) := heap.alloc
      let heap1 := heap0.write iterator ITERATED_OBJECT_ID map
      let heap2 := heap1.write iterator ITERATOR_NEXT_INDEX_ID (host.GetMapCursor map)
      let heap3 := heap2.write iterator MAP_ITERATION_KIND_ID kind
      (heap3, .ok iterator)

/-- Lines 228-237. -/
def IsMapIterator (heap : Heap) (iterator : Value) : Except JSError Bool :=
  if heap.HasHiddenKey iterator MAP_ITERATION_KIND_ID then
    if !heap.HasHiddenKey iterator ITERATED_OBJECT_ID then .error .AssertionFailed
    else if !heap.HasHiddenKey iterator ITERATOR_NEXT_INDEX_ID then .error .AssertionFailed
    else .ok true
  else .ok false

/-- Lines 239-266; the cursor is handled as in `SetIteratorNext`. -/
def MapIteratorNext (host : Host) (heap : Heap) (this : Value) :
    Heap × Except JSError IterResult :=
  let iterator := this
  match IsMapIterator heap iterator with
  | .error e => (heap, .error e)
  | .ok false => (heap, .error (.TypeError "not a Map Iterator"))
  | .ok true =>
    let map := heap.read iterator ITERATED_OBJECT_ID
    if map = .undefined then (heap, .ok (CreateIterResultObject .undefined true))
    else
      let index := heap.read iterator ITERATOR_NEXT_INDEX_ID
      let itemKind := heap.read iterator MAP_ITERATION_KIND_ID
      let advanced := host.AdvanceMapCursor map index
      let heap1 := heap.write iterator ITERATOR_NEXT_INDEX_ID advanced.2
      if !advanced.1 then
        (heap1.write iterator ITERATED_OBJECT_ID .undefined,
          .ok (CreateIterResultObject .undefined true))
      else
        let elementKey := host.GetKeyFromMapCursor map advanced.2
        let elementValue := host.GetValueFromMapCursor map advanced.2
        if itemKind = .number ITERATION_KIND_KEY then
          (heap1, .ok (CreateIterResultObject elementKey false))
        else if itemKind = .number ITERATION_KIND_VALUE then
          (heap1, .ok (CreateIterResultObject elementValue false))
        else if itemKind = .number ITERATION_KIND_KEY_PLUS_VALUE then
          (heap1, .ok (CreateIterResultObject (.array2 elementKey elementValue) false))
        else (heap1, .error .AssertionFailed)

/-! ## String iterator (lines 288-344) -/

/-- The test `typeof v === 'string'`. -/
def Value.isString : Value → Bool
  | .string _ => true
  | _ => false

/-- The call of `String.prototype.charCodeAt` on `string` at `position`: the code
unit there, NaN outside the string. -/
def charCodeAt (string position : Value) : Value :=
  match string, position with
  | .string s, .number p =>
    if 0 ≤ p then
      match s[p.toNat]? with
      | some u => .number u
      | none => .nan
    else .nan
  | _, _ => .nan

/-- The call of `String.fromCharCode` with one argument: the one-unit string of the argument
reduced modulo 2^16 (NaN gives unit 0). -/
def fromCharCode (code : Value) : Value :=
  match code with
  | .number n => .string [(n % 65536).toNat]
  | _ => .string [0]

/-- Lines 297-303. -/
def CreateStringIterator (heap : Heap) (string : Value) : Heap × Except JSError Value :=
  if !string.isString then (heap, .error .AssertionFailed)
  else
    let (heap0, iterator) := heap.alloc
    let heap1 := heap0.write iterator ITERATED_STRING_ID string
    let heap2 := heap1.write iterator STRING_ITERATOR_NEXT_INDEX_ID (.number 0)
    (heap2, .ok iterator)

/-- Lines 305-313. -/
def IsStringIterator (heap : Heap) (iterator : Value) : Except JSError Bool :=
  if heap.HasHiddenKey iterator ITERATED_STRING_ID then
    if !heap.HasHiddenKey iterator STRING_ITERATOR_NEXT_INDEX_ID then .error .AssertionFailed
    else .ok true
  else .ok false

/-- Lines 330-341: the string produced by one step at `position`. -/
def stringIteratorResult (string position length : Value) : Value :=
  let first := charCodeAt string position
  if first.lt (.number 0xD800) || first.gt (.number 0xDBFF)
      || (position.add (.number 1)).looseEq length then
    fromCharCode first
  else
    let second := charCodeAt string (position.add (.number 1))
    if second.lt (.number 0xDC00) || second.gt (.number 0xDFFF) then
      fromCharCode first
    else
      (fromCharCode first).add (fromCharCode second)

/-- Lines 315-344. -/
def StringIteratorNext (heap : Heap) (this : Value) : Heap × Except JSError IterResult :=
  let iterator := this
  match IsStringIterator heap iterator with
  | .error e => (heap, .error e)
  | .ok false => (heap, .error (.TypeError "not a String Iterator"))
  | .ok true =>
    let string := heap.read iterator ITERATED_STRING_ID
    if string = .undefined then (heap, .ok (CreateIterResultObject .undefined true))
    else
      let position := heap.read iterator STRING_ITERATOR_NEXT_INDEX_ID
      let length := string.length
      if position.ge length then
        (heap.write iterator ITERATED_STRING_ID .undefined,
          .ok (CreateIterResultObject .undefined true))
      else
        let resultString := stringIteratorResult string position length
        (heap.write iterator STRING_ITERATOR_NEXT_INDEX_ID (position.add resultString.length),
          .ok (CreateIterResultObject resultString false))

/-! ## Entry points (lines 20-25, 98-133, 196-207, 272-285) -/

/-- Lines 20-22: the function installed as `[Symbol.iterator]` of the iterator
prototype. -/
def getIteratorPrototype (heap : Heap) (this : Value) : Heap × Except JSError Value :=
  (heap, .ok this)

/-- The shape of a method of the prototypes below: called in a world, on a heap,
with a receiver. -/
abbrev EntryPoint := Host → Heap → Value → Heap × Except JSError Value

/-- The call `CreateArrayIterator(Internal.ToObject(this), kind)`, the body shared by
lines 98-106. -/
def arrayIteratorOf (kind : Value) : EntryPoint := fun host heap this =>
  match host.ToObject this with
  | .error v => (heap, .error (.hostThrow v))
  | .ok array => ((CreateArrayIterator heap array kind).1, .ok (CreateArrayIterator heap array kind).2)

/-- Lines 98-100. -/
def arrayKeys : EntryPoint := arrayIteratorOf (.number ITERATION_KIND_KEY)

/-- Lines 101-103. -/
def arrayValues : EntryPoint := arrayIteratorOf (.number ITERATION_KIND_VALUE)

/-- Lines 104-106. -/
def arrayEntries : EntryPoint := arrayIteratorOf (.number ITERATION_KIND_KEY_PLUS_VALUE)

/-- Lines 113-118. -/
def ValidateTypedArray (host : Host) (obj : Value) : Except JSError Value :=
  if !host.IsValidTypedArray obj then .error (.TypeError "not an valid TypedArray")
  else liftHost (host.ToObject obj)

/-- The call `CreateArrayIterator(ValidateTypedArray(this), kind)`, the body shared by
lines 120-128. -/
def typedArrayIteratorOf (kind : Value) : EntryPoint := fun host heap this =>
  match ValidateTypedArray host this with
  | .error e => (heap, .error e)
  | .ok array => ((CreateArrayIterator heap array kind).1, .ok (CreateArrayIterator heap array kind).2)

/-- Lines 120-122. -/
def typedArrayKeys : EntryPoint := typedArrayIteratorOf (.number ITERATION_KIND_KEY)

/-- Lines 123-125. -/
def typedArrayValues : EntryPoint := typedArrayIteratorOf (.number ITERATION_KIND_VALUE)

/-- Lines 126-128. -/
def typedArrayEntries : EntryPoint := typedArrayIteratorOf (.number ITERATION_KIND_KEY_PLUS_VALUE)

/-- Lines 196-198. -/
def setValues : EntryPoint := fun host heap this =>
  CreateSetIterator host heap this (.number ITERATION_KIND_VALUE)

/-- Lines 199-201. -/
def setEntries : EntryPoint := fun host heap this =>
  CreateSetIterator host heap this (.number ITERATION_KIND_KEY_PLUS_VALUE)

/-- Lines 272-274. -/
def mapKeys : EntryPoint := fun host heap this =>
  CreateMapIterator host heap this (.number ITERATION_KIND_KEY)

/-- Lines 275-277. -/
def mapValues : EntryPoint := fun host heap this =>
  CreateMapIterator host heap this (.number ITERATION_KIND_VALUE)

/-- Lines 278-280. -/
def mapEntries : EntryPoint := fun host heap this =>
  CreateMapIterator host heap this (.number ITERATION_KIND_KEY_PLUS_VALUE)

/-- The property names under which `iterator.js` installs entry points:
`"keys"`, `"values"`, `"entries"` and `Symbol.iterator`. -/
inductive MethodName where
  | keys
  | values
  | entries
  | symbolIterator
  deriving DecidableEq, Repr

/-- Lines 108-111: the methods installed on `Array.prototype`. -/
def ArrayPrototype : MethodName → EntryPoint
  | .keys => arrayKeys
  | .values => arrayValues
  | .symbolIterator => arrayValues
  | .entries => arrayEntries

/-- Lines 130-133: the methods installed on `TypedArray.prototype`. -/
def TypedArrayPrototype : MethodName → EntryPoint
  | .keys => typedArrayKeys
  | .values => typedArrayValues
  | .symbolIterator => typedArrayValues
  | .entries => typedArrayEntries

/-- Lines 204-207: the methods installed on `Set.prototype`. -/
def SetPrototype : MethodName → EntryPoint
  | .keys => setValues
  | .values => setValues
  | .symbolIterator => setValues
  | .entries => setEntries

/-- Lines 282-285: the methods installed on `Map.prototype`. -/
def MapPrototype : MethodName → EntryPoint
  | .keys => mapKeys
  | .values => mapValues
  | .symbolIterator => mapEntries
  | .entries => mapEntries

/-! ## Repeated stepping -/

/-- Successive calls of `next` on the same receiver, one per element of `hosts`
(the state of the world at each call); returns the final heap and the
completions in call order. -/
def stepsWith (next : Host → Heap → Value → Heap × Except JSError IterResult) :
    List Host → Heap → Value → Heap × List (Except JSError IterResult)
  | [], heap, _ => (heap, [])
  | host :: hosts, heap, this =>
    let r := next host heap this
    let rest := stepsWith next hosts r.1 this
    (rest.1, r.2 :: rest.2)

/-- The string `next` does not consult the host. -/
def StringIteratorNextIn (_host : Host) (heap : Heap) (this : Value) :
    Heap × Except JSError IterResult :=
  StringIteratorNext heap this

/-! ## Vocabulary of the properties -/

/-- The hidden-key slots of the object a value refers to, if it refers to one. -/
def Heap.deref (heap : Heap) : Value → Option JSObject
  | .object r => heap[r]?
  | _ => none

/-- The result `{value: undefined, done: true}`. -/
def terminalResult : IterResult := CreateIterResultObject .undefined true

/-- In the world `host`, the target `array` is a sequence whose elements are
`elems`: one step reads `elems.length` as its length (lines 66-74) and the
indexed read at every `i < elems.length` returns `elems[i]`. -/
def Host.Presents (host : Host) (array : Value) (elems : List Value) : Prop :=
  arrayLength host array = .ok (.number elems.length) ∧
    ∀ (i : Nat) (x : Value), elems[i]? = some x → host.GetIndex array (.number i) = .ok x

/-- The three iteration kinds. -/
def IsIterationKind (kind : Value) : Prop :=
  kind = .number ITERATION_KIND_KEY ∨ kind = .number ITERATION_KIND_VALUE ∨
    kind = .number ITERATION_KIND_KEY_PLUS_VALUE

/-- What a step is to produce at index `i` with element `x`: `i` for `KEY`, `x`
for `VALUE`, the pair `[i, x]` for `KEY_PLUS_VALUE`. -/
def arrayItem (kind : Value) (i : Nat) (x : Value) : Value :=
  if kind = .number ITERATION_KIND_KEY then .number i
  else if kind = .number ITERATION_KIND_VALUE then x
  else .array2 (.number i) x

/-- A world in which `array` is an ordinary (non-view) array holding `elems` and
there are no typed views, sets or maps; `ToLength` clamps an integral Number to
`0 .. 2^53 - 1` and sends everything else to `0`. -/
def arrayHost (array : Value) (elems : List Value) : Host :=
  { IsArrayBufferView := fun _ => false
    HasDetachedBuffer := fun _ => false
    GetLength := fun a => if a = array then .ok (.number elems.length) else .ok .undefined
    ToLength := fun v =>
      match v with
      | .number n => .ok (.number (max 0 (min n (2 ^ 53 - 1))))
      | _ => .ok (.number 0)
    GetIndex := fun a i =>
      match i with
      | .number n => if a = array ∧ 0 ≤ n then .ok (elems.getD n.toNat .undefined) else .ok .undefined
      | _ => .ok .undefined
    IsSet := fun _ => false
    IsMap := fun _ => false
    GetMapCursor := fun _ => .undefined
    AdvanceMapCursor := fun _ c => (false, c)
    GetKeyFromMapCursor := fun _ _ => .undefined
    GetValueFromMapCursor := fun _ _ => .undefined
    ToObject := fun v => .ok v
    IsValidTypedArray := fun _ => false }

/-- Stickiness of the terminal state of a step operation `next`: whenever a call
on any receiver has returned a result with `done = true`, leaving the heap
`heap1`, then (1) in every later heap `heap2` in which the receiver still has the
slots it had in `heap1`, and in every world `host2`, a call returns
`{value: undefined, done: true}` and leaves `heap2` untouched; and (2) any
sequence of further calls, each in a world of its own, returns only that result
and ends in the heap `heap1`. -/
def Sticky (next : Host → Heap → Value → Heap × Except JSError IterResult) : Prop :=
  ∀ (host : Host) (heap heap1 : Heap) (this : Value) (res : IterResult),
    next host heap this = (heap1, .ok res) → res.done = true →
      (∀ (host2 : Host) (heap2 : Heap), heap2.deref this = heap1.deref this →
          next host2 heap2 this = (heap2, .ok terminalResult)) ∧
      (∀ hosts : List Host,
          stepsWith next hosts heap1 this =
            (heap1, List.replicate hosts.length (.ok terminalResult)))

/-- A code unit in the lead-surrogate range `0xD800 .. 0xDBFF`. -/
def IsLeadSurrogate (u : Nat) : Prop := 0xD800 ≤ u ∧ u ≤ 0xDBFF

/-- A code unit in the trail-surrogate range `0xDC00 .. 0xDFFF`. -/
def IsTrailSurrogate (u : Nat) : Prop := 0xDC00 ≤ u ∧ u ≤ 0xDFFF

instance (u : Nat) : Decidable (IsLeadSurrogate u) := by
  unfold IsLeadSurrogate
  infer_instance

instance (u : Nat) : Decidable (IsTrailSurrogate u) := by
  unfold IsTrailSurrogate
  infer_instance

/-- Every element of a string is a 16-bit code unit. -/
def IsCodeUnits (s : List Nat) : Prop := ∀ u ∈ s, u < 65536

/-- The decomposition of a string into the chunks a code point iteration is to
produce: a lead surrogate directly followed by a trail surrogate forms one
two-unit chunk, every other unit is a chunk of its own. -/
def codePoints : List Nat → List (List Nat)
  | [] => []
  | [u] => [[u]]
  | u :: w :: rest =>
    if IsLeadSurrogate u ∧ IsTrailSurrogate w then [u, w] :: codePoints rest
    else [u] :: codePoints (w :: rest)

/-- How the completion of a step can look once the step is past its brand check
and (for an array iterator) past the detached-buffer check: a result, a value
thrown by the host, or a failed assertion. -/
def Benign (c : Except JSError IterResult) : Prop :=
  (∃ res, c = .ok res) ∨ (∃ v, c = .error (.hostThrow v)) ∨ c = .error .AssertionFailed

/-- The step operation `next` is brand-checked with the hidden key `marker`: a
call raises the TypeError with text `message` exactly when the receiver does not
carry the marker, and in that case it returns no result and leaves the heap as it
is. -/
def BrandChecked (next : Host → Heap → Value → Heap × Except JSError IterResult)
    (marker : HiddenKey) (message : String) : Prop :=
  ∀ (host : Host) (heap : Heap) (this : Value),
    ((next host heap this).2 = .error (.TypeError message) ↔
        heap.HasHiddenKey this marker = false) ∧
    (heap.HasHiddenKey this marker = false →
        next host heap this = (heap, .error (.TypeError message)))

/-- A world in which `view` is a typed view whose buffer has been detached. -/
def detachedViewHost (view : Value) : Host :=
  { arrayHost view [] with
    IsArrayBufferView := fun a => decide (a = view)
    HasDetachedBuffer := fun a => decide (a = view) }

/-- A world in which `map` is a map (and, for the set entry points, a set) with
the given entries, none of them deleted.  A cursor is the Number of the entry it
stands on, `-1` before the first one. -/
def mapHost (map : Value) (entries : List (Value × Value)) : Host :=
  { arrayHost .undefined [] with
    IsSet := fun a => decide (a = map)
    IsMap := fun a => decide (a = map)
    GetMapCursor := fun _ => .number (-1)
    AdvanceMapCursor := fun _ c =>
      match c with
      | .number i => if i + 1 < entries.length then (true, .number (i + 1)) else (false, c)
      | _ => (false, c)
    GetKeyFromMapCursor := fun _ c =>
      match c with
      | .number i => (entries.getD i.toNat (.undefined, .undefined)).1
      | _ => .undefined
    GetValueFromMapCursor := fun _ c =>
      match c with
      | .number i => (entries.getD i.toNat (.undefined, .undefined)).2
      | _ => .undefined }

/-- The kind an entry point of a sequence (array or typed array) or of a set is
to create: `KEY` for `keys`, `VALUE` for `values` and for the default entry
point, `KEY_PLUS_VALUE` for `entries`. -/
def sequenceKindOf : MethodName → Nat
  | .keys => ITERATION_KIND_KEY
  | .values => ITERATION_KIND_VALUE
  | .symbolIterator => ITERATION_KIND_VALUE
  | .entries => ITERATION_KIND_KEY_PLUS_VALUE

/-- The kind an entry point of a map is to create: `KEY` for `keys`, `VALUE` for
`values`, `KEY_PLUS_VALUE` for `entries` and for the default entry point. -/
def mapKindOf : MethodName → Nat
  | .keys => ITERATION_KIND_KEY
  | .values => ITERATION_KIND_VALUE
  | .symbolIterator => ITERATION_KIND_KEY_PLUS_VALUE
  | .entries => ITERATION_KIND_KEY_PLUS_VALUE

/-- Repeated application of an operation that maps a receiver to a value: each
application receives the value the previous one returned. -/
def applyTimes (f : Heap → Value → Heap × Except JSError Value) :
    Nat → Heap → Value → Heap × Except JSError Value
  | 0, heap, x => (heap, .ok x)
  | n + 1, heap, x =>
    match f heap x with
    | (heap1, .ok y) => applyTimes f n heap1 y
    | (heap1, .error e) => (heap1, .error e)

/-- The heap `heap1` arises from `heap` by overwriting slots of the object `this`:
each write goes to a key of `keys` that the object already has. -/
inductive Heap.Overwrites (this : Value) (keys : List HiddenKey) : Heap → Heap → Prop where
  | refl (heap : Heap) : Heap.Overwrites this keys heap heap
  | write {heap heap1 : Heap} (k : HiddenKey) (x : Value) :
      k ∈ keys → heap1.HasHiddenKey this k = true → Heap.Overwrites this keys heap heap1 →
      Heap.Overwrites this keys heap (heap1.write this k x)

/-- A world in which `array` is an ordinary array of length `n` whose every
indexed read throws the value `e`. -/
def throwingHost (array : Value) (n : Nat) (e : Value) : Host :=
  { arrayHost array (List.replicate n .undefined) with
    GetIndex := fun _ _ => .error e }

/-- Whether a completion is a normal return. -/
def isNormal (c : Except JSError IterResult) : Bool :=
  match c with
  | .ok _ => true
  | .error _ => false

/-- Whether a completion is a normal return of a result with `done = false`. -/
def isNonTerminal (c : Except JSError IterResult) : Bool :=
  match c with
  | .ok res => !res.done
  | .error _ => false

/-- The maximum safe integer `2^53 - 1`. -/
def MAX_SAFE_INTEGER : Int := 2 ^ 53 - 1

/-- Modelled from the spec: `Internal.ToLength` is a runtime function that is not
part of `iterator.js`.  It coerces a length-like value to a safe non-negative
integer count: a negative or non-numeric (unrepresentable) value gives 0, and a
value above the maximum safe integer is clamped to that maximum. -/
def ToLength (v : Value) : Value :=
  match v with
  | .number n =>
    if n < 0 then .number 0
    else if MAX_SAFE_INTEGER < n then .number MAX_SAFE_INTEGER
    else .number n
  | _ => .number 0

/-- The world's `Internal.ToLength` is the coercion modelled by `ToLength`. -/
def Host.CoercesLength (host : Host) : Prop :=
  ∀ v, host.ToLength v = .ok (IteratorJS.ToLength v)

/-- A world in which every object is an ordinary (non-view) object whose
`length` property reads as `l`, with the modelled `ToLength`. -/
def lengthHost (l : Value) : Host :=
  { arrayHost .undefined [] with
    GetLength := fun _ => .ok l
    ToLength := fun v => .ok (IteratorJS.ToLength v) }

/-- Every value that carries a family marker (`ArrayIterationKind`,
`SetIterationKind`, `MapIterationKind`, `IteratedString`) also carries the other
internal slots of that family. -/
def Heap.Complete (heap : Heap) : Prop :=
  ∀ v : Value,
    (heap.HasHiddenKey v ARRAY_ITERATION_KIND_ID = true →
      heap.HasHiddenKey v ITERATED_OBJECT_ID = true ∧
      heap.HasHiddenKey v ITERATOR_NEXT_INDEX_ID = true) ∧
    (heap.HasHiddenKey v SET_ITERATION_KIND_ID = true →
      heap.HasHiddenKey v ITERATED_OBJECT_ID = true ∧
      heap.HasHiddenKey v ITERATOR_NEXT_INDEX_ID = true) ∧
    (heap.HasHiddenKey v MAP_ITERATION_KIND_ID = true →
      heap.HasHiddenKey v ITERATED_OBJECT_ID = true ∧
      heap.HasHiddenKey v ITERATOR_NEXT_INDEX_ID = true) ∧
    (heap.HasHiddenKey v ITERATED_STRING_ID = true →
      heap.HasHiddenKey v STRING_ITERATOR_NEXT_INDEX_ID = true)

/-- The heaps reachable from the empty heap by allocating objects without hidden
keys (any object made by other code), by the four creation functions and by the
four step operations, each called with any arguments, on any receiver and in
any world. -/
inductive Reachable : Heap → Prop where
  | empty : Reachable []
  | alloc (heap : Heap) : Reachable heap → Reachable heap.alloc.1
  | createArray (heap : Heap) (array kind : Value) :
      Reachable heap → Reachable (CreateArrayIterator heap array kind).1
  | createSet (host : Host) (heap : Heap) (set kind : Value) :
      Reachable heap → Reachable (CreateSetIterator host heap set kind).1
  | createMap (host : Host) (heap : Heap) (map kind : Value) :
      Reachable heap → Reachable (CreateMapIterator host heap map kind).1
  | createString (heap : Heap) (string : Value) :
      Reachable heap → Reachable (CreateStringIterator heap string).1
  | arrayNext (host : Host) (heap : Heap) (this : Value) :
      Reachable heap → Reachable (ArrayIteratorNext host heap this).1
  | setNext (host : Host) (heap : Heap) (this : Value) :
      Reachable heap → Reachable (SetIteratorNext host heap this).1
  | mapNext (host : Host) (heap : Heap) (this : Value) :
      Reachable heap → Reachable (MapIteratorNext host heap this).1
  | stringNext (heap : Heap) (this : Value) :
      Reachable heap → Reachable (StringIteratorNext heap this).1

/-- One slot of the entry log of a keyed collection: an entry and its liveness
tag. -/
structure Slot where
  key : Value
  value : Value
  live : Bool
  deriving DecidableEq, Repr

/-- Modelled from the spec: the ordered, tombstone-tolerant store of a map-like or
set-like collection is runtime code that is not part of `iterator.js`.  Following
the realization the spec recommends, it is an append-only log of entry slots,
each tagged live or tombstoned. -/
abbrev Log := List Slot

/-- Modelled from the spec: inserting an entry with a new key appends a live slot
to the log ("new entries append to the order"). -/
def Log.insert (log : Log) (key value : Value) : Log :=
  log ++ [{ key := key, value := value, live := true }]

/-- Modelled from the spec: deleting a key tombstones its slot in place; no slot
is moved or removed. -/
def Log.delete (log : Log) (key : Value) : Log :=
  log.map (fun s => if s.key = key then { s with live := false } else s)

/-- Modelled from the spec: the forward scan of an advance: the index of the first
live slot of `slots`, whose first slot has index `start`. -/
def nextLive : List Slot → Nat → Option Nat
  | [], _ => none
  | s :: rest, start => if s.live then some start else nextLive rest (start + 1)

/-- Modelled from the spec: `advance(position)`.  A cursor is the log index of the
slot it stands on, `-1` for the head position before the first slot; advancing
scans forward from the slot after it, skipping tombstoned slots, and moves the
cursor onto the first live slot found; it reports whether there was one. -/
def Log.advance (log : Log) (cursor : Value) : Bool × Value :=
  match cursor with
  | .number c =>
    match nextLive (log.drop (c + 1).toNat) (c + 1).toNat with
    | some j => (true, .number j)
    | none => (false, cursor)
  | _ => (false, cursor)

/-- The slot a cursor stands on. -/
def Log.slotAt (log : Log) (cursor : Value) : Option Slot :=
  match cursor with
  | .number c => if 0 ≤ c then log[c.toNat]? else none
  | _ => none

/-- Modelled from the spec: `keyAt(position)`. -/
def Log.keyAt (log : Log) (cursor : Value) : Value :=
  match log.slotAt cursor with
  | some s => s.key
  | none => .undefined

/-- Modelled from the spec: `valueAt(position)`. -/
def Log.valueAt (log : Log) (cursor : Value) : Value :=
  match log.slotAt cursor with
  | some s => s.value
  | none => .undefined

/-- Modelled from the spec: a world in which `coll` is a keyed collection with
entry log `log`, brand-verified as set-like when `setLike` holds and as map-like
otherwise; its head position token is the cursor `-1`. -/
def logHost (coll : Value) (log : Log) (setLike : Bool) : Host :=
  { arrayHost .undefined [] with
    IsSet := fun a => decide (a = coll) && setLike
    IsMap := fun a => decide (a = coll) && !setLike
    GetMapCursor := fun _ => .number (-1)
    AdvanceMapCursor := fun _ c => log.advance c
    GetKeyFromMapCursor := fun _ c => log.keyAt c
    GetValueFromMapCursor := fun _ c => log.valueAt c }

/-- The slots a cursor standing on slot `c` has still to visit: the live slots
after `c`, in log order. -/
def Log.liveAfter (log : Log) (c : Int) : List Slot :=
  (log.drop (c + 1).toNat).filter (fun s => s.live)

/-- The step operation `next` behaves as a keyed iterator step for iterators
whose kind slot `kindKey` holds `kind`: on an exhausted receiver it returns the
terminal result; otherwise it advances the cursor and either produces
`item key value` read at the advanced cursor or clears the target. -/
def KeyedStep (next : Host → Heap → Value → Heap × Except JSError IterResult)
    (kindKey : HiddenKey) (kind : Value) (item : Value → Value → Value) : Prop :=
  ∀ (host : Host) (heap : Heap) (r : Nat) (o : JSObject) (target idx : Value),
    heap[r]? = some o → o.get kindKey = some kind →
    o.IteratedObject = some target → o.IteratorNextIndex = some idx →
      next host heap (.object r) =
        if target = .undefined then (heap, .ok terminalResult)
        else if (host.AdvanceMapCursor target idx).1 then
          (heap.set r (o.set .IteratorNextIndex (host.AdvanceMapCursor target idx).2),
            .ok (CreateIterResultObject
              (item (host.GetKeyFromMapCursor target (host.AdvanceMapCursor target idx).2)
                (host.GetValueFromMapCursor target (host.AdvanceMapCursor target idx).2))
              false))
        else
          (heap.set r ((o.set .IteratorNextIndex (host.AdvanceMapCursor target idx).2).set
              .IteratedObject .undefined), .ok terminalResult)

/-- The completion that carries `item key value` of a slot as a non-terminal
result. -/
def slotResult (item : Value → Value → Value) (s : Slot) : Except JSError IterResult :=
  .ok (CreateIterResultObject (item s.key s.value) false)

/-- The log of a set built by inserting the given keys, in order, into the empty
set. -/
def Log.ofKeys (keys : List Value) : Log :=
  keys.foldl (fun log k => Log.insert log k k) []

/-- The log of a map built by inserting the given entries, in order, into the
empty map. -/
def Log.ofEntries (entries : List (Value × Value)) : Log :=
  entries.foldl (fun log e => Log.insert log e.1 e.2) []

/-- Tolerance of deletion for a keyed step operation: when the key `key` is
deleted from the collection while the cursor stands on slot `c`, the iteration
continued to exhaustion produces exactly the live slots after `c` whose key is
not `key`, in log order, and then only terminal results; and when no live slot
after `c` has that key (its entry was already visited, or never there), the
continuation is the same as without the deletion. -/
def MutationTolerant (next : Host → Heap → Value → Heap × Except JSError IterResult)
    (kindKey : HiddenKey) (kind : Value) (item : Value → Value → Value) (setLike : Bool) :
    Prop :=
  ∀ (coll : Value) (log : Log) (key : Value) (n : Nat) (c : Int) (heap : Heap) (r : Nat)
    (o : JSObject),
    coll ≠ .undefined → -1 ≤ c →
    ((log.liveAfter c).filter (fun s => decide (s.key ≠ key))).length ≤ n →
    heap[r]? = some o → o.get kindKey = some kind →
    o.IteratedObject = some coll → o.IteratorNextIndex = some (.number c) →
      (stepsWith next (List.replicate (n + 1) (logHost coll (log.delete key) setLike)) heap
          (.object r)).2 =
        ((log.liveAfter c).filter (fun s => decide (s.key ≠ key))).map (slotResult item)
          ++ List.replicate
            (n + 1 - ((log.liveAfter c).filter (fun s => decide (s.key ≠ key))).length)
            (.ok terminalResult) ∧
      ((∀ s ∈ log.liveAfter c, s.key ≠ key) →
        (stepsWith next (List.replicate (n + 1) (logHost coll (log.delete key) setLike)) heap
            (.object r)).2 =
          (stepsWith next (List.replicate (n + 1) (logHost coll log setLike)) heap
            (.object r)).2)

/-- Visibility of a late insertion for a keyed step operation: when an entry is
appended to the collection while the cursor stands on slot `c` of the log (or on
the head position), the iteration continued to exhaustion produces the live
slots after `c`, then the new entry, once, and then only terminal results. -/
def LateInsertionVisible (next : Host → Heap → Value → Heap × Except JSError IterResult)
    (kindKey : HiddenKey) (kind : Value) (item : Value → Value → Value) (setLike : Bool) :
    Prop :=
  ∀ (coll : Value) (log : Log) (key value : Value) (n : Nat) (c : Int) (heap : Heap) (r : Nat)
    (o : JSObject),
    coll ≠ .undefined → -1 ≤ c → (c + 1).toNat ≤ log.length →
    (log.liveAfter c).length + 1 ≤ n →
    heap[r]? = some o → o.get kindKey = some kind →
    o.IteratedObject = some coll → o.IteratorNextIndex = some (.number c) →
      (stepsWith next (List.replicate (n + 1) (logHost coll (log.insert key value) setLike))
          heap (.object r)).2 =
        (log.liveAfter c).map (slotResult item)
          ++ [slotResult item { key := key, value := value, live := true }]
          ++ List.replicate (n + 1 - ((log.liveAfter c).length + 1)) (.ok terminalResult)

/-- The kind an entry point of a set creates: `VALUE` for `keys`, for `values`
and for the default entry point (all three are `setValues`), `KEY_PLUS_VALUE`
for `entries`. -/
def setKindOf : MethodName → Nat
  | .keys => ITERATION_KIND_VALUE
  | .values => ITERATION_KIND_VALUE
  | .symbolIterator => ITERATION_KIND_VALUE
  | .entries => ITERATION_KIND_KEY_PLUS_VALUE

/-- The two kinds a step of a set iterator handles (lines 183-188). -/
def IsSetIterationKind (kind : Value) : Prop :=
  kind = .number ITERATION_KIND_VALUE ∨ kind = .number ITERATION_KIND_KEY_PLUS_VALUE

/-- Every kind slot of the heap holds a kind its step operation handles: one of
the three kinds in an `ArrayIterationKind` or `MapIterationKind` slot, `VALUE`
or `KEY_PLUS_VALUE` in a `SetIterationKind` slot. -/
def Heap.KindsValid (heap : Heap) : Prop :=
  ∀ v : Value,
    (heap.HasHiddenKey v ARRAY_ITERATION_KIND_ID = true →
      IsIterationKind (heap.read v ARRAY_ITERATION_KIND_ID)) ∧
    (heap.HasHiddenKey v SET_ITERATION_KIND_ID = true →
      IsSetIterationKind (heap.read v SET_ITERATION_KIND_ID)) ∧
    (heap.HasHiddenKey v MAP_ITERATION_KIND_ID = true →
      IsIterationKind (heap.read v MAP_ITERATION_KIND_ID))

/-- The heaps reachable from the empty heap when iterators are created through
the public entry points only: by allocating objects without hidden keys (any
object made by other code), by the methods installed on `Array.prototype`,
`TypedArray.prototype`, `Set.prototype` and `Map.prototype`, by the creation of a
string iterator (lines 350-353 call `CreateStringIterator` on the result of
`Internal.ToString`), and by the four step operations, each called on any
receiver and in any world. -/
inductive PublicReachable : Heap → Prop where
  | empty : PublicReachable []
  | alloc (heap : Heap) : PublicReachable heap → PublicReachable heap.alloc.1
  | array (m : MethodName) (host : Host) (heap : Heap) (this : Value) :
      PublicReachable heap → PublicReachable (ArrayPrototype m host heap this).1
  | typedArray (m : MethodName) (host : Host) (heap : Heap) (this : Value) :
      PublicReachable heap → PublicReachable (TypedArrayPrototype m host heap this).1
  | set (m : MethodName) (host : Host) (heap : Heap) (this : Value) :
      PublicReachable heap → PublicReachable (SetPrototype m host heap this).1
  | map (m : MethodName) (host : Host) (heap : Heap) (this : Value) :
      PublicReachable heap → PublicReachable (MapPrototype m host heap this).1
  | string (heap : Heap) (string : Value) :
      PublicReachable heap → PublicReachable (CreateStringIterator heap string).1
  | arrayNext (host : Host) (heap : Heap) (this : Value) :
      PublicReachable heap → PublicReachable (ArrayIteratorNext host heap this).1
  | setNext (host : Host) (heap : Heap) (this : Value) :
      PublicReachable heap → PublicReachable (SetIteratorNext host heap this).1
  | mapNext (host : Host) (heap : Heap) (this : Value) :
      PublicReachable heap → PublicReachable (MapIteratorNext host heap this).1
  | stringNext (heap : Heap) (this : Value) :
      PublicReachable heap → PublicReachable (StringIteratorNext heap this).1

/-- The values of the non-terminal results of a run, in call order. -/
def nonTerminalValues (cs : List (Except JSError IterResult)) : List Value :=
  cs.filterMap (fun c =>
    match c with
    | .ok res => if res.done then none else some res.value
    | .error _ => none)

/-- The concatenation `"" + v1 + v2 + ...` of a list of values. -/
def concatValues (vs : List Value) : Value :=
  vs.foldl Value.add (.string [])

/-- Lines 330-335: the positions at which one step calls `charCodeAt`: at
`position` (line 330), and also at `position + 1` (line 335) when the test of
line 332 fails. -/
def charCodeAtCalls (string position length : Value) : List Value :=
  let first := charCodeAt string position
  if first.lt (.number 0xD800) || first.gt (.number 0xDBFF)
      || (position.add (.number 1)).looseEq length then
    [position]
  else
    [position, position.add (.number 1)]

/-- The slots of a string iterator over `s` are in bounds: the target is `s` or
absent, and the cursor is a Number `p` with `0 ≤ p ≤ length(s)`. -/
def StringInBounds (s : List Nat) (o : JSObject) : Prop :=
  (o.IteratedString = some (.string s) ∨ o.IteratedString = some .undefined) ∧
  ∃ p : Int, o.StringIteratorNextIndex = some (.number p) ∧ 0 ≤ p ∧ p ≤ s.length

/-- Lines 315-335: the positions at which one call of `StringIteratorNext` calls
`charCodeAt`: none when the call raises at the brand check or returns at line
322 or 328, and those of `charCodeAtCalls` otherwise. -/
def StringIteratorNextCalls (heap : Heap) (this : Value) : List Value :=
  let iterator := this
  match IsStringIterator heap iterator with
  | .error _ => []
  | .ok false => []
  | .ok true =>
    let string := heap.read iterator ITERATED_STRING_ID
    if string = .undefined then []
    else
      let position := heap.read iterator STRING_ITERATOR_NEXT_INDEX_ID
      let length := string.length
      if position.ge length then []
      else charCodeAtCalls string position length

/-- The test `kind & ITERATION_KIND_KEY` is non-zero: the key is requested. -/
def keyRequested (kind : Nat) : Bool := kind &&& ITERATION_KIND_KEY != 0

/-- The test `kind & ITERATION_KIND_VALUE` is non-zero: the value is requested. -/
def valueRequested (kind : Nat) : Bool := kind &&& ITERATION_KIND_VALUE != 0

/-! ## Reads of the target that run user code (lines 55-92)

The property reads `array.length` and `array[index]`, the coercion
`Internal.ToLength` and the comparison `index >= length` with a length that is
not a Number can run user code: a getter, a proxy trap, a `valueOf`.  Such code
can call `next` on any iterator, the receiver of the running step included.
`Host` leaves this out: its reads return or throw and do nothing else, and its
comparison is false on every operand that is not a Number.  `ReentrantHost` and
`ArrayIteratorNextRe` are the same lines 55-92 with every such operation
receiving the heap and returning the heap it leaves behind. -/

/-- What `ArrayIteratorNext` obtains from the runtime, with reads that can change
the heap: a read returns the heap it leaves behind and its completion. -/
structure ReentrantHost where
  IsArrayBufferView : Value → Bool
  HasDetachedBuffer : Value → Bool
  /-- The property read `array.length`. -/
  GetLength : Heap → Value → Heap × Except Value Value
  ToLength : Heap → Value → Heap × Except Value Value
  /-- The property read `array[index]`. -/
  GetIndex : Heap → Value → Value → Heap × Except Value Value
  /-- The comparison `a >= b` when an operand is not a Number: JavaScript converts
  the operands first, which can run user code and can throw. -/
  Ge : Heap → Value → Value → Heap × Except Value Bool

/-- The comparison `a >= b` of line 75: on two Numbers it compares them and runs
no code; on other operands it is the world's conversion and comparison. -/
def geRe (host : ReentrantHost) (heap : Heap) (a b : Value) : Heap × Except Value Bool :=
  match a, b with
  | .number x, .number y => (heap, .ok (decide (y ≤ x)))
  | _, _ => host.Ge heap a b

/-- Lines 66-74 with reads that can change the heap. -/
def arrayLengthRe (host : ReentrantHost) (heap : Heap) (array : Value) :
    Heap × Except JSError Value :=
  if host.IsArrayBufferView array then
    if host.HasDetachedBuffer array then
      (heap, .error (.TypeError
        "Cannot perform Array Iterator.prototype.next on a detached ArrayBuffer"))
    else ((host.GetLength heap array).1, liftHost (host.GetLength heap array).2)
  else
    match (host.GetLength heap array).2 with
    | .error v => ((host.GetLength heap array).1, .error (.hostThrow v))
    | .ok l =>
      ((host.ToLength (host.GetLength heap array).1 l).1,
        liftHost (host.ToLength (host.GetLength heap array).1 l).2)

/-- Lines 55-92 with reads that can change the heap.  The cursor and the kind
are read from the heap on entry (lines 64-65), before the length is read; the
writes of lines 76 and 79 go to the heap that the length read and the comparison
have left. -/
def ArrayIteratorNextRe (host : ReentrantHost) (heap : Heap) (this : Value) :
    Heap × Except JSError IterResult :=
  let iterator := this
  match IsArrayIterator heap iterator with
  | .error e => (heap, .error e)
  | .ok false => (heap, .error (.TypeError "not an Array Iterator"))
  | .ok true =>
    let array := heap.read iterator ITERATED_OBJECT_ID
    if array = .undefined then (heap, .ok (CreateIterResultObject .undefined true))
    else
      let index := heap.read iterator ITERATOR_NEXT_INDEX_ID
      let itemKind := heap.read iterator ARRAY_ITERATION_KIND_ID
      let lengthRead := arrayLengthRe host heap array
      match lengthRead.2 with
      | .error e => (lengthRead.1, .error e)
      | .ok length =>
        let compared := geRe host lengthRead.1 index length
        match compared.2 with
        | .error v => (compared.1, .error (.hostThrow v))
        | .ok true =>
          (compared.1.write iterator ITERATED_OBJECT_ID .undefined,
            .ok (CreateIterResultObject .undefined true))
        | .ok false =>
          let heap1 := compared.1.write iterator ITERATOR_NEXT_INDEX_ID
            (index.add (.number 1))
          if itemKind = .number ITERATION_KIND_KEY then
            (heap1, .ok (CreateIterResultObject index false))
          else
            let elementRead := host.GetIndex heap1 array index
            match elementRead.2 with
            | .error v => (elementRead.1, .error (.hostThrow v))
            | .ok elementValue =>
              if itemKind = .number ITERATION_KIND_VALUE then
                (elementRead.1, .ok (CreateIterResultObject elementValue false))
              else if itemKind = .number ITERATION_KIND_KEY_PLUS_VALUE then
                (elementRead.1,
                  .ok (CreateIterResultObject (.array2 index elementValue) false))
              else (elementRead.1, .error .AssertionFailed)

/-- A world whose reads run no user code: they leave the heap as it is, and a
comparison with an operand that is not a Number is `Value.ge`. -/
def Host.toReentrant (host : Host) : ReentrantHost :=
  { IsArrayBufferView := host.IsArrayBufferView
    HasDetachedBuffer := host.HasDetachedBuffer
    GetLength := fun heap a => (heap, host.GetLength a)
    ToLength := fun heap v => (heap, host.ToLength v)
    GetIndex := fun heap a i => (heap, host.GetIndex a i)
    Ge := fun heap a b => (heap, .ok (a.ge b)) }

/-- The reads and comparisons of the world leave the slots of the object `this`
as they are: no code run by them steps the iterator `this`. -/
def ReentrantHost.LeavesAlone (host : ReentrantHost) (this : Value) : Prop :=
  ∀ (heap : Heap) (a i : Value),
    (host.GetLength heap a).1.deref this = heap.deref this ∧
    (host.ToLength heap a).1.deref this = heap.deref this ∧
    (host.GetIndex heap a i).1.deref this = heap.deref this ∧
    (host.Ge heap a i).1.deref this = heap.deref this

/-- The reads and comparisons of the world keep every kind slot that is present:
code run by them writes no kind slot and removes none. -/
def ReentrantHost.KeepsKinds (host : ReentrantHost) : Prop :=
  ∀ (heap : Heap) (a i v : Value) (k : HiddenKey),
    k = ARRAY_ITERATION_KIND_ID ∨ k = SET_ITERATION_KIND_ID ∨ k = MAP_ITERATION_KIND_ID →
    heap.HasHiddenKey v k = true →
      ((host.GetLength heap a).1.HasHiddenKey v k = true ∧
        (host.GetLength heap a).1.read v k = heap.read v k) ∧
      ((host.ToLength heap a).1.HasHiddenKey v k = true ∧
        (host.ToLength heap a).1.read v k = heap.read v k) ∧
      ((host.GetIndex heap a i).1.HasHiddenKey v k = true ∧
        (host.GetIndex heap a i).1.read v k = heap.read v k) ∧
      ((host.Ge heap a i).1.HasHiddenKey v k = true ∧
        (host.Ge heap a i).1.read v k = heap.read v k)

/-- Successive calls of `ArrayIteratorNextRe` on the same receiver, one per
element of `hosts`; returns the final heap and the completions in call order. -/
def stepsWithRe : List ReentrantHost → Heap → Value →
    Heap × List (Except JSError IterResult)
  | [], heap, _ => (heap, [])
  | host :: hosts, heap, this =>
    let r := ArrayIteratorNextRe host heap this
    let rest := stepsWithRe hosts r.1 this
    (rest.1, r.2 :: rest.2)

/-- A world in which `array` is an ordinary array holding `elems` and whose
`length` getter first calls `next` on the iterator `it`, `n` times, and then
returns the length; the calls made by the getter run in `arrayHost array elems`,
the world in which the getter only returns the length. -/
def steppingHost (array : Value) (elems : List Value) (it : Value) (n : Nat) :
    ReentrantHost :=
  { (arrayHost array elems).toReentrant with
    GetLength := fun heap a =>
      if a = array then
        ((stepsWith ArrayIteratorNext (List.replicate n (arrayHost array elems)) heap it).1,
          .ok (.number elems.length))
      else (heap, .ok .undefined) }

/-! ## Basic facts about objects and the heap -/

theorem JSObject.get_set (o : JSObject) (k k' : HiddenKey) (v : Value) :
    (o.set k v).get k' = if k' = k then some v else o.get k' := by
  cases k <;> cases k' <;> simp [JSObject.set, JSObject.get]

theorem Heap.HasHiddenKey_iff (heap : Heap) (v : Value) (k : HiddenKey) :
    heap.HasHiddenKey v k = true ↔
      ∃ r o x, v = .object r ∧ heap[r]? = some o ∧ o.get k = some x := by
  unfold Heap.HasHiddenKey
  constructor
  · intro h
    cases v with
    | object r =>
      cases hr : heap[r]? with
      | none => simp [hr] at h
      | some o =>
        simp only [hr] at h
        obtain ⟨x, hx⟩ := Option.isSome_iff_exists.mp h
        exact ⟨r, o, x, rfl, hr, hx⟩
    | _ => simp at h
  · rintro ⟨r, o, x, rfl, hr, hx⟩
    simp [hr, hx]

theorem Heap.read_object {heap : Heap} {r : Nat} {o : JSObject} (k : HiddenKey)
    (hr : heap[r]? = some o) : heap.read (.object r) k = (o.get k).getD .undefined := by
  simp [Heap.read, hr]

theorem Heap.write_object {heap : Heap} {r : Nat} {o : JSObject} (k : HiddenKey) (x : Value)
    (hr : heap[r]? = some o) : heap.write (.object r) k x = heap.set r (o.set k x) := by
  simp [Heap.write, hr]

theorem Heap.HasHiddenKey_object {heap : Heap} {r : Nat} {o : JSObject} (k : HiddenKey)
    (hr : heap[r]? = some o) : heap.HasHiddenKey (.object r) k = (o.get k).isSome := by
  simp [Heap.HasHiddenKey, hr]

theorem Heap.getElem?_set_same (heap : Heap) (r : Nat) (o o' : JSObject)
    (hr : heap[r]? = some o) : (heap.set r o')[r]? = some o' := by
  have hlt : r < heap.length := (List.getElem?_eq_some_iff.mp hr).1
  simp [List.getElem?_set, hlt]

theorem Heap.set_set_same (heap : Heap) (r : Nat) (o o' : JSObject) :
    (heap.set r o).set r o' = heap.set r o' := by
  simp [List.set_set]

/-! ## The array iterator on an object of the heap -/

theorem IsArrayIterator_ok_true {heap : Heap} {v : Value}
    (h : IsArrayIterator heap v = .ok true) :
    ∃ r o kind target idx, v = .object r ∧ heap[r]? = some o ∧
      o.ArrayIterationKind = some kind ∧ o.IteratedObject = some target ∧
      o.IteratorNextIndex = some idx := by
  unfold IsArrayIterator at h
  split at h
  · rename_i h1
    split at h
    · cases h
    · rename_i h2
      split at h
      · cases h
      · rename_i h3
        simp only [Bool.not_eq_true, Bool.not_eq_eq_eq_not, Bool.not_true, Bool.not_false, Bool.not_eq_false] at h2 h3
        obtain ⟨r, o, kind, rfl, hr, hk⟩ := (Heap.HasHiddenKey_iff _ _ _).mp h1
        rw [Heap.HasHiddenKey_object _ hr] at h2 h3
        obtain ⟨target, ht⟩ := Option.isSome_iff_exists.mp h2
        obtain ⟨idx, hi⟩ := Option.isSome_iff_exists.mp h3
        exact ⟨r, o, kind, target, idx, rfl, hr, hk, ht, hi⟩
  · cases h

theorem IsArrayIterator_object {heap : Heap} {r : Nat} {o : JSObject} {kind target idx : Value}
    (hr : heap[r]? = some o) (hk : o.ArrayIterationKind = some kind)
    (ht : o.IteratedObject = some target) (hi : o.IteratorNextIndex = some idx) :
    IsArrayIterator heap (.object r) = .ok true := by
  simp [IsArrayIterator, Heap.HasHiddenKey_object _ hr, JSObject.get, hk, ht, hi,
    ARRAY_ITERATION_KIND_ID, ITERATED_OBJECT_ID, ITERATOR_NEXT_INDEX_ID]

/-- One step of the array iterator, written out for a receiver with all three
slots. -/
theorem ArrayIteratorNext_object (host : Host) {heap : Heap} {r : Nat} {o : JSObject}
    {kind target idx : Value}
    (hr : heap[r]? = some o) (hk : o.ArrayIterationKind = some kind)
    (ht : o.IteratedObject = some target) (hi : o.IteratorNextIndex = some idx) :
    ArrayIteratorNext host heap (.object r) =
      if target = .undefined then (heap, .ok (CreateIterResultObject .undefined true))
      else
        match arrayLength host target with
        | .error e => (heap, .error e)
        | .ok length =>
          if idx.ge length then
            (heap.set r (o.set .IteratedObject .undefined),
              .ok (CreateIterResultObject .undefined true))
          else
            let heap1 := heap.set r (o.set .IteratorNextIndex (idx.add (.number 1)))
            if kind = .number ITERATION_KIND_KEY then
              (heap1, .ok (CreateIterResultObject idx false))
            else
              match host.GetIndex target idx with
              | .error v => (heap1, .error (.hostThrow v))
              | .ok elementValue =>
                if kind = .number ITERATION_KIND_VALUE then
                  (heap1, .ok (CreateIterResultObject elementValue false))
                else if kind = .number ITERATION_KIND_KEY_PLUS_VALUE then
                  (heap1, .ok (CreateIterResultObject (.array2 idx elementValue) false))
                else (heap1, .error .AssertionFailed) := by
  unfold ArrayIteratorNext
  simp only [IsArrayIterator_object hr hk ht hi, Heap.read_object _ hr,
    Heap.write_object _ _ hr, JSObject.get, hk, ht, hi,
    ARRAY_ITERATION_KIND_ID, ITERATED_OBJECT_ID, ITERATOR_NEXT_INDEX_ID, Option.getD_some]

/-! ## The set, map and string iterators on an object of the heap -/

theorem IsSetIterator_ok_true {heap : Heap} {v : Value}
    (h : IsSetIterator heap v = .ok true) :
    ∃ r o kind target idx, v = .object r ∧ heap[r]? = some o ∧
      o.SetIterationKind = some kind ∧ o.IteratedObject = some target ∧
      o.IteratorNextIndex = some idx := by
  unfold IsSetIterator at h
  split at h
  · rename_i h1
    split at h
    · cases h
    · rename_i h2
      split at h
      · cases h
      · rename_i h3
        simp only [Bool.not_eq_true, Bool.not_eq_eq_eq_not, Bool.not_true, Bool.not_false,
          Bool.not_eq_false] at h2 h3
        obtain ⟨r, o, kind, rfl, hr, hk⟩ := (Heap.HasHiddenKey_iff _ _ _).mp h1
        rw [Heap.HasHiddenKey_object _ hr] at h2 h3
        obtain ⟨target, ht⟩ := Option.isSome_iff_exists.mp h2
        obtain ⟨idx, hi⟩ := Option.isSome_iff_exists.mp h3
        exact ⟨r, o, kind, target, idx, rfl, hr, hk, ht, hi⟩
  · cases h

theorem IsSetIterator_object {heap : Heap} {r : Nat} {o : JSObject} {kind target idx : Value}
    (hr : heap[r]? = some o) (hk : o.SetIterationKind = some kind)
    (ht : o.IteratedObject = some target) (hi : o.IteratorNextIndex = some idx) :
    IsSetIterator heap (.object r) = .ok true := by
  simp [IsSetIterator, Heap.HasHiddenKey_object _ hr, JSObject.get, hk, ht, hi,
    SET_ITERATION_KIND_ID, ITERATED_OBJECT_ID, ITERATOR_NEXT_INDEX_ID]

/-- One step of the set iterator, written out for a receiver with all three
slots. -/
theorem SetIteratorNext_object (host : Host) {heap : Heap} {r : Nat} {o : JSObject}
    {kind target idx : Value}
    (hr : heap[r]? = some o) (hk : o.SetIterationKind = some kind)
    (ht : o.IteratedObject = some target) (hi : o.IteratorNextIndex = some idx) :
    SetIteratorNext host heap (.object r) =
      if target = .undefined then (heap, .ok (CreateIterResultObject .undefined true))
      else
        let advanced := host.AdvanceMapCursor target idx
        if !advanced.1 then
          (heap.set r ((o.set .IteratorNextIndex advanced.2).set .IteratedObject .undefined),
            .ok (CreateIterResultObject .undefined true))
        else
          let heap1 := heap.set r (o.set .IteratorNextIndex advanced.2)
          let elementValue := host.GetKeyFromMapCursor target advanced.2
          if kind = .number ITERATION_KIND_VALUE then
            (heap1, .ok (CreateIterResultObject elementValue false))
          else if kind = .number ITERATION_KIND_KEY_PLUS_VALUE then
            (heap1, .ok (CreateIterResultObject (.array2 elementValue elementValue) false))
          else (heap1, .error .AssertionFailed) := by
  unfold SetIteratorNext
  simp only [IsSetIterator_object hr hk ht hi, Heap.read_object _ hr,
    Heap.write_object _ _ hr, Heap.write_object _ _ (Heap.getElem?_set_same _ _ _ _ hr),
    Heap.set_set_same, JSObject.get, hk, ht, hi,
    SET_ITERATION_KIND_ID, ITERATED_OBJECT_ID, ITERATOR_NEXT_INDEX_ID, Option.getD_some]

theorem IsMapIterator_ok_true {heap : Heap} {v : Value}
    (h : IsMapIterator heap v = .ok true) :
    ∃ r o kind target idx, v = .object r ∧ heap[r]? = some o ∧
      o.MapIterationKind = some kind ∧ o.IteratedObject = some target ∧
      o.IteratorNextIndex = some idx := by
  unfold IsMapIterator at h
  split at h
  · rename_i h1
    split at h
    · cases h
    · rename_i h2
      split at h
      · cases h
      · rename_i h3
        simp only [Bool.not_eq_true, Bool.not_eq_eq_eq_not, Bool.not_true, Bool.not_false,
          Bool.not_eq_false] at h2 h3
        obtain ⟨r, o, kind, rfl, hr, hk⟩ := (Heap.HasHiddenKey_iff _ _ _).mp h1
        rw [Heap.HasHiddenKey_object _ hr] at h2 h3
        obtain ⟨target, ht⟩ := Option.isSome_iff_exists.mp h2
        obtain ⟨idx, hi⟩ := Option.isSome_iff_exists.mp h3
        exact ⟨r, o, kind, target, idx, rfl, hr, hk, ht, hi⟩
  · cases h

theorem IsMapIterator_object {heap : Heap} {r : Nat} {o : JSObject} {kind target idx : Value}
    (hr : heap[r]? = some o) (hk : o.MapIterationKind = some kind)
    (ht : o.IteratedObject = some target) (hi : o.IteratorNextIndex = some idx) :
    IsMapIterator heap (.object r) = .ok true := by
  simp [IsMapIterator, Heap.HasHiddenKey_object _ hr, JSObject.get, hk, ht, hi,
    MAP_ITERATION_KIND_ID, ITERATED_OBJECT_ID, ITERATOR_NEXT_INDEX_ID]

/-- One step of the map iterator, written out for a receiver with all three
slots. -/
theorem MapIteratorNext_object (host : Host) {heap : Heap} {r : Nat} {o : JSObject}
    {kind target idx : Value}
    (hr : heap[r]? = some o) (hk : o.MapIterationKind = some kind)
    (ht : o.IteratedObject = some target) (hi : o.IteratorNextIndex = some idx) :
    MapIteratorNext host heap (.object r) =
      if target = .undefined then (heap, .ok (CreateIterResultObject .undefined true))
      else
        let advanced := host.AdvanceMapCursor target idx
        if !advanced.1 then
          (heap.set r ((o.set .IteratorNextIndex advanced.2).set .IteratedObject .undefined),
            .ok (CreateIterResultObject .undefined true))
        else
          let heap1 := heap.set r (o.set .IteratorNextIndex advanced.2)
          let elementKey := host.GetKeyFromMapCursor target advanced.2
          let elementValue := host.GetValueFromMapCursor target advanced.2
          if kind = .number ITERATION_KIND_KEY then
            (heap1, .ok (CreateIterResultObject elementKey false))
          else if kind = .number ITERATION_KIND_VALUE then
            (heap1, .ok (CreateIterResultObject elementValue false))
          else if kind = .number ITERATION_KIND_KEY_PLUS_VALUE then
            (heap1, .ok (CreateIterResultObject (.array2 elementKey elementValue) false))
          else (heap1, .error .AssertionFailed) := by
  unfold MapIteratorNext
  simp only [IsMapIterator_object hr hk ht hi, Heap.read_object _ hr,
    Heap.write_object _ _ hr, Heap.write_object _ _ (Heap.getElem?_set_same _ _ _ _ hr),
    Heap.set_set_same, JSObject.get, hk, ht, hi,
    MAP_ITERATION_KIND_ID, ITERATED_OBJECT_ID, ITERATOR_NEXT_INDEX_ID, Option.getD_some]

theorem IsStringIterator_ok_true {heap : Heap} {v : Value}
    (h : IsStringIterator heap v = .ok true) :
    ∃ r o target idx, v = .object r ∧ heap[r]? = some o ∧
      o.IteratedString = some target ∧ o.StringIteratorNextIndex = some idx := by
  unfold IsStringIterator at h
  split at h
  · rename_i h1
    split at h
    · cases h
    · rename_i h2
      simp only [Bool.not_eq_true, Bool.not_eq_eq_eq_not, Bool.not_true, Bool.not_false,
        Bool.not_eq_false] at h2
      obtain ⟨r, o, target, rfl, hr, ht⟩ := (Heap.HasHiddenKey_iff _ _ _).mp h1
      rw [Heap.HasHiddenKey_object _ hr] at h2
      obtain ⟨idx, hi⟩ := Option.isSome_iff_exists.mp h2
      exact ⟨r, o, target, idx, rfl, hr, ht, hi⟩
  · cases h

theorem IsStringIterator_object {heap : Heap} {r : Nat} {o : JSObject} {target idx : Value}
    (hr : heap[r]? = some o)
    (ht : o.IteratedString = some target) (hi : o.StringIteratorNextIndex = some idx) :
    IsStringIterator heap (.object r) = .ok true := by
  simp [IsStringIterator, Heap.HasHiddenKey_object _ hr, JSObject.get, ht, hi,
    ITERATED_STRING_ID, STRING_ITERATOR_NEXT_INDEX_ID]

/-- One step of the string iterator, written out for a receiver with both
slots. -/
theorem StringIteratorNext_object {heap : Heap} {r : Nat} {o : JSObject}
    {target idx : Value}
    (hr : heap[r]? = some o)
    (ht : o.IteratedString = some target) (hi : o.StringIteratorNextIndex = some idx) :
    StringIteratorNext heap (.object r) =
      if target = .undefined then (heap, .ok (CreateIterResultObject .undefined true))
      else if idx.ge target.length then
        (heap.set r (o.set .IteratedString .undefined),
          .ok (CreateIterResultObject .undefined true))
      else
        (heap.set r (o.set .StringIteratorNextIndex
            (idx.add (stringIteratorResult target idx target.length).length)),
          .ok (CreateIterResultObject (stringIteratorResult target idx target.length) false)) := by
  unfold StringIteratorNext
  simp only [IsStringIterator_object hr ht hi, Heap.read_object _ hr,
    Heap.write_object _ _ hr, JSObject.get, ht, hi,
    ITERATED_STRING_ID, STRING_ITERATOR_NEXT_INDEX_ID, Option.getD_some]

/-! ## Exhaustion -/

theorem stepsWith_const (next : Host → Heap → Value → Heap × Except JSError IterResult)
    (heap : Heap) (this : Value) (c : Except JSError IterResult)
    (h : ∀ host, next host heap this = (heap, c)) (hosts : List Host) :
    stepsWith next hosts heap this = (heap, List.replicate hosts.length c) := by
  induction hosts with
  | nil => rfl
  | cons host hosts ih => simp [stepsWith, h host, ih, List.replicate_succ]

theorem stepsWith_cons (next : Host → Heap → Value → Heap × Except JSError IterResult)
    (host : Host) (hosts : List Host) (heap : Heap) (this : Value) :
    stepsWith next (host :: hosts) heap this =
      ((stepsWith next hosts (next host heap this).1 this).1,
        (next host heap this).2 :: (stepsWith next hosts (next host heap this).1 this).2) := rfl

theorem stepsWith_append (next : Host → Heap → Value → Heap × Except JSError IterResult)
    (hs1 hs2 : List Host) (heap : Heap) (this : Value) :
    stepsWith next (hs1 ++ hs2) heap this =
      ((stepsWith next hs2 (stepsWith next hs1 heap this).1 this).1,
        (stepsWith next hs1 heap this).2 ++
          (stepsWith next hs2 (stepsWith next hs1 heap this).1 this).2) := by
  induction hs1 generalizing heap with
  | nil => simp [stepsWith]
  | cons host hs1 ih => simp [stepsWith, ih]

theorem ArrayIteratorNext_ok_inv {host : Host} {heap heap' : Heap} {this : Value}
    {r : IterResult} (h : ArrayIteratorNext host heap this = (heap', .ok r)) :
    IsArrayIterator heap this = .ok true := by
  cases hI : IsArrayIterator heap this with
  | error e => simp [ArrayIteratorNext, hI] at h
  | ok b =>
    cases b with
    | false => simp [ArrayIteratorNext, hI] at h
    | true => rfl

theorem SetIteratorNext_ok_inv {host : Host} {heap heap' : Heap} {this : Value}
    {r : IterResult} (h : SetIteratorNext host heap this = (heap', .ok r)) :
    IsSetIterator heap this = .ok true := by
  cases hI : IsSetIterator heap this with
  | error e => simp [SetIteratorNext, hI] at h
  | ok b =>
    cases b with
    | false => simp [SetIteratorNext, hI] at h
    | true => rfl

theorem MapIteratorNext_ok_inv {host : Host} {heap heap' : Heap} {this : Value}
    {r : IterResult} (h : MapIteratorNext host heap this = (heap', .ok r)) :
    IsMapIterator heap this = .ok true := by
  cases hI : IsMapIterator heap this with
  | error e => simp [MapIteratorNext, hI] at h
  | ok b =>
    cases b with
    | false => simp [MapIteratorNext, hI] at h
    | true => rfl

theorem StringIteratorNext_ok_inv {heap heap' : Heap} {this : Value}
    {r : IterResult} (h : StringIteratorNext heap this = (heap', .ok r)) :
    IsStringIterator heap this = .ok true := by
  cases hI : IsStringIterator heap this with
  | error e => simp [StringIteratorNext, hI] at h
  | ok b =>
    cases b with
    | false => simp [StringIteratorNext, hI] at h
    | true => rfl

/-- After a step that returned `done = true`, the receiver is an object whose
target slot holds `undefined` and whose other slots are still present. -/
theorem ArrayIteratorNext_done {host : Host} {heap heap' : Heap} {this : Value}
    {res : IterResult} (h : ArrayIteratorNext host heap this = (heap', .ok res))
    (hd : res.done = true) :
    ∃ r o kind idx, this = .object r ∧ heap'[r]? = some o ∧
      o.ArrayIterationKind = some kind ∧ o.IteratedObject = some .undefined ∧
      o.IteratorNextIndex = some idx := by
  obtain ⟨r, o, kind, target, idx, rfl, hr, hk, ht, hi⟩ :=
    IsArrayIterator_ok_true (ArrayIteratorNext_ok_inv h)
  rw [ArrayIteratorNext_object host hr hk ht hi] at h
  split at h
  · rename_i hu
    simp only [Prod.mk.injEq] at h
    obtain ⟨rfl, -⟩ := h
    exact ⟨r, o, kind, idx, rfl, hr, hk, hu ▸ ht, hi⟩
  · split at h
    · simp at h
    · split at h
      · simp only [Prod.mk.injEq] at h
        obtain ⟨rfl, -⟩ := h
        refine ⟨r, _, kind, idx, rfl, Heap.getElem?_set_same _ _ _ _ hr, ?_, ?_, ?_⟩
        · simpa [JSObject.set] using hk
        · simp [JSObject.set]
        · simpa [JSObject.set] using hi
      · exfalso
        revert h
        simp only []
        intro h
        split at h
        · simp only [Prod.mk.injEq, Except.ok.injEq] at h
          rw [← h.2] at hd
          simp [CreateIterResultObject] at hd
        · split at h
          · simp at h
          · split at h
            · simp only [Prod.mk.injEq, Except.ok.injEq] at h
              rw [← h.2] at hd
              simp [CreateIterResultObject] at hd
            · split at h
              · simp only [Prod.mk.injEq, Except.ok.injEq] at h
                rw [← h.2] at hd
                simp [CreateIterResultObject] at hd
              · simp at h

theorem not_done_of_eq {heap1 heap' : Heap} {v : Value} {res : IterResult}
    (h : (heap1, (Except.ok (CreateIterResultObject v false) : Except JSError IterResult))
      = (heap', .ok res)) (hd : res.done = true) : False := by
  simp only [Prod.mk.injEq, Except.ok.injEq] at h
  rw [← h.2] at hd
  simp [CreateIterResultObject] at hd

/-- After a step that returned `done = true`, the receiver is an object whose
target slot holds `undefined` and whose other slots are still present. -/
theorem SetIteratorNext_done {host : Host} {heap heap' : Heap} {this : Value}
    {res : IterResult} (h : SetIteratorNext host heap this = (heap', .ok res))
    (hd : res.done = true) :
    ∃ r o kind idx, this = .object r ∧ heap'[r]? = some o ∧
      o.SetIterationKind = some kind ∧ o.IteratedObject = some .undefined ∧
      o.IteratorNextIndex = some idx := by
  obtain ⟨r, o, kind, target, idx, rfl, hr, hk, ht, hi⟩ :=
    IsSetIterator_ok_true (SetIteratorNext_ok_inv h)
  rw [SetIteratorNext_object host hr hk ht hi] at h
  split at h
  · rename_i hu
    simp only [Prod.mk.injEq] at h
    obtain ⟨rfl, -⟩ := h
    exact ⟨r, o, kind, idx, rfl, hr, hk, hu ▸ ht, hi⟩
  · simp only [] at h
    split at h
    · simp only [Prod.mk.injEq] at h
      obtain ⟨rfl, -⟩ := h
      refine ⟨r, _, kind, (host.AdvanceMapCursor target idx).2, rfl,
        Heap.getElem?_set_same _ _ _ _ hr, ?_, ?_, ?_⟩
      · simpa [JSObject.set] using hk
      · simp [JSObject.set]
      · simp [JSObject.set]
    · exfalso
      split at h
      · exact not_done_of_eq h hd
      · split at h
        · exact not_done_of_eq h hd
        · simp at h

/-- After a step that returned `done = true`, the receiver is an object whose
target slot holds `undefined` and whose other slots are still present. -/
theorem MapIteratorNext_done {host : Host} {heap heap' : Heap} {this : Value}
    {res : IterResult} (h : MapIteratorNext host heap this = (heap', .ok res))
    (hd : res.done = true) :
    ∃ r o kind idx, this = .object r ∧ heap'[r]? = some o ∧
      o.MapIterationKind = some kind ∧ o.IteratedObject = some .undefined ∧
      o.IteratorNextIndex = some idx := by
  obtain ⟨r, o, kind, target, idx, rfl, hr, hk, ht, hi⟩ :=
    IsMapIterator_ok_true (MapIteratorNext_ok_inv h)
  rw [MapIteratorNext_object host hr hk ht hi] at h
  split at h
  · rename_i hu
    simp only [Prod.mk.injEq] at h
    obtain ⟨rfl, -⟩ := h
    exact ⟨r, o, kind, idx, rfl, hr, hk, hu ▸ ht, hi⟩
  · simp only [] at h
    split at h
    · simp only [Prod.mk.injEq] at h
      obtain ⟨rfl, -⟩ := h
      refine ⟨r, _, kind, (host.AdvanceMapCursor target idx).2, rfl,
        Heap.getElem?_set_same _ _ _ _ hr, ?_, ?_, ?_⟩
      · simpa [JSObject.set] using hk
      · simp [JSObject.set]
      · simp [JSObject.set]
    · exfalso
      split at h
      · exact not_done_of_eq h hd
      · split at h
        · exact not_done_of_eq h hd
        · split at h
          · exact not_done_of_eq h hd
          · simp at h

/-- After a step that returned `done = true`, the receiver is an object whose
string slot holds `undefined` and whose position slot is still present. -/
theorem StringIteratorNext_done {heap heap' : Heap} {this : Value}
    {res : IterResult} (h : StringIteratorNext heap this = (heap', .ok res))
    (hd : res.done = true) :
    ∃ r o idx, this = .object r ∧ heap'[r]? = some o ∧
      o.IteratedString = some .undefined ∧ o.StringIteratorNextIndex = some idx := by
  obtain ⟨r, o, target, idx, rfl, hr, ht, hi⟩ :=
    IsStringIterator_ok_true (StringIteratorNext_ok_inv h)
  rw [StringIteratorNext_object hr ht hi] at h
  split at h
  · rename_i hu
    simp only [Prod.mk.injEq] at h
    obtain ⟨rfl, -⟩ := h
    exact ⟨r, o, idx, rfl, hr, hu ▸ ht, hi⟩
  · split at h
    · simp only [Prod.mk.injEq] at h
      obtain ⟨rfl, -⟩ := h
      refine ⟨r, _, idx, rfl, Heap.getElem?_set_same _ _ _ _ hr, ?_, ?_⟩
      · simp [JSObject.set]
      · simpa [JSObject.set] using hi
    · exact (not_done_of_eq h hd).elim

/-- A step on a receiver whose target slot holds `undefined` returns the terminal
result and leaves the heap as it is. -/
theorem ArrayIteratorNext_exhausted (host : Host) {heap : Heap} {r : Nat} {o : JSObject}
    {kind idx : Value} (hr : heap[r]? = some o) (hk : o.ArrayIterationKind = some kind)
    (ht : o.IteratedObject = some .undefined) (hi : o.IteratorNextIndex = some idx) :
    ArrayIteratorNext host heap (.object r) = (heap, .ok terminalResult) := by
  rw [ArrayIteratorNext_object host hr hk ht hi]
  simp [terminalResult]

theorem SetIteratorNext_exhausted (host : Host) {heap : Heap} {r : Nat} {o : JSObject}
    {kind idx : Value} (hr : heap[r]? = some o) (hk : o.SetIterationKind = some kind)
    (ht : o.IteratedObject = some .undefined) (hi : o.IteratorNextIndex = some idx) :
    SetIteratorNext host heap (.object r) = (heap, .ok terminalResult) := by
  rw [SetIteratorNext_object host hr hk ht hi]
  simp [terminalResult]

theorem MapIteratorNext_exhausted (host : Host) {heap : Heap} {r : Nat} {o : JSObject}
    {kind idx : Value} (hr : heap[r]? = some o) (hk : o.MapIterationKind = some kind)
    (ht : o.IteratedObject = some .undefined) (hi : o.IteratorNextIndex = some idx) :
    MapIteratorNext host heap (.object r) = (heap, .ok terminalResult) := by
  rw [MapIteratorNext_object host hr hk ht hi]
  simp [terminalResult]

theorem StringIteratorNext_exhausted {heap : Heap} {r : Nat} {o : JSObject}
    {idx : Value} (hr : heap[r]? = some o)
    (ht : o.IteratedString = some .undefined) (hi : o.StringIteratorNextIndex = some idx) :
    StringIteratorNext heap (.object r) = (heap, .ok terminalResult) := by
  rw [StringIteratorNext_object hr ht hi]
  simp [terminalResult]

/-! ## Running an array iterator over a sequence -/

theorem ITERATION_KIND_KEY_eq : ITERATION_KIND_KEY = 1 := by decide

theorem ITERATION_KIND_VALUE_eq : ITERATION_KIND_VALUE = 2 := by decide

theorem ITERATION_KIND_KEY_PLUS_VALUE_eq : ITERATION_KIND_KEY_PLUS_VALUE = 3 := by decide

/-- A step at a cursor `c` below the length produces the item at `c` and moves
the cursor to `c + 1`. -/
theorem ArrayIteratorNext_advance (host : Host) {heap : Heap} {r : Nat} {o : JSObject}
    {kind array : Value} {elems : List Value} {c : Nat} {x : Value}
    (hkind : IsIterationKind kind) (hp : host.Presents array elems)
    (hne : array ≠ .undefined)
    (hr : heap[r]? = some o) (hk : o.ArrayIterationKind = some kind)
    (ht : o.IteratedObject = some array) (hi : o.IteratorNextIndex = some (.number c))
    (hx : elems[c]? = some x) :
    ArrayIteratorNext host heap (.object r) =
      (heap.set r (o.set .IteratorNextIndex (.number ((c + 1 : Nat) : Int))),
        .ok (CreateIterResultObject (arrayItem kind c x) false)) := by
  have hc : c < elems.length := (List.getElem?_eq_some_iff.mp hx).1
  rw [ArrayIteratorNext_object host hr hk ht hi]
  rcases hkind with rfl | rfl | rfl <;>
    simp [hne, hp.1, hp.2 c x hx, Value.ge, Value.add, arrayItem, hc,
      ITERATION_KIND_KEY_eq, ITERATION_KIND_VALUE_eq, ITERATION_KIND_KEY_PLUS_VALUE_eq]

/-- A step at a cursor at or beyond the length clears the target and returns the
terminal result. -/
theorem ArrayIteratorNext_finish (host : Host) {heap : Heap} {r : Nat} {o : JSObject}
    {kind array : Value} {elems : List Value} {c : Nat}
    (hp : host.Presents array elems) (hne : array ≠ .undefined)
    (hr : heap[r]? = some o) (hk : o.ArrayIterationKind = some kind)
    (ht : o.IteratedObject = some array) (hi : o.IteratorNextIndex = some (.number c))
    (hc : elems.length ≤ c) :
    ArrayIteratorNext host heap (.object r) =
      (heap.set r (o.set .IteratedObject .undefined), .ok terminalResult) := by
  rw [ArrayIteratorNext_object host hr hk ht hi]
  simp [hne, hp.1, Value.ge, hc, terminalResult]

/-- From cursor `pre.length` over the sequence `pre ++ rest`, `rest.length` steps
produce the items of `rest` at their indices and leave the cursor at the end. -/
theorem array_run (host : Host) {kind array : Value} (hkind : IsIterationKind kind)
    (hne : array ≠ .undefined) (r : Nat) :
    ∀ (rest pre : List Value) (heap : Heap) (o : JSObject),
      host.Presents array (pre ++ rest) →
      heap[r]? = some o → o.ArrayIterationKind = some kind →
      o.IteratedObject = some array → o.IteratorNextIndex = some (.number pre.length) →
      ∃ heap' o',
        stepsWith ArrayIteratorNext (List.replicate rest.length host) heap (.object r) =
          (heap', (rest.enumFrom pre.length).map
            (fun p => .ok (CreateIterResultObject (arrayItem kind p.1 p.2) false))) ∧
        heap'[r]? = some o' ∧ o'.ArrayIterationKind = some kind ∧
        o'.IteratedObject = some array ∧
        o'.IteratorNextIndex = some (.number (pre ++ rest).length) := by
  intro rest
  induction rest with
  | nil =>
    intro pre heap o _ hr hk ht hi
    exact ⟨heap, o, by simp [stepsWith], hr, hk, ht, by simpa using hi⟩
  | cons x rest ih =>
    intro pre heap o hp hr hk ht hi
    have hx : (pre ++ x :: rest)[pre.length]? = some x := by
      rw [List.getElem?_append_right (le_refl _)]
      simp
    have hstep := ArrayIteratorNext_advance host hkind hp hne hr hk ht hi hx
    have hp' : host.Presents array ((pre ++ [x]) ++ rest) := by simpa using hp
    obtain ⟨heap', o', hrun, hr', hk', ht', hi'⟩ :=
      ih (pre ++ [x]) (heap.set r (o.set .IteratorNextIndex (.number ((pre.length + 1 : Nat) : Int))))
        (o.set .IteratorNextIndex (.number ((pre.length + 1 : Nat) : Int))) hp'
        (Heap.getElem?_set_same _ _ _ _ hr) (by simpa [JSObject.set] using hk)
        (by simpa [JSObject.set] using ht) (by simp [JSObject.set])
    refine ⟨heap', o', ?_, hr', hk', ht', by simpa using hi'⟩
    simp only [List.length_cons, List.replicate_succ, stepsWith, hstep, hrun, List.enumFrom_cons,
      List.map_cons, List.length_append, List.length_singleton, List.length_nil, Nat.zero_add]

theorem CreateArrayIterator_eq (heap : Heap) (array kind : Value) :
    CreateArrayIterator heap array kind =
      (heap ++ [((JSObject.empty.set .IteratedObject array).set .IteratorNextIndex
          (.number 0)).set .ArrayIterationKind kind], .object heap.length) := by
  simp [CreateArrayIterator, Heap.alloc, Heap.write, ITERATED_OBJECT_ID, ITERATOR_NEXT_INDEX_ID,
    ARRAY_ITERATION_KIND_ID]

/-- A fresh array iterator over a sequence of `elems.length` elements, stepped
`elems.length + m` times in an unchanged world: the items in index order, then
`m` terminal results. -/
theorem array_fresh_run (host : Host) {kind array : Value} (hkind : IsIterationKind kind)
    (hne : array ≠ .undefined) (elems : List Value) (hp : host.Presents array elems)
    (heap : Heap) (m : Nat) :
    (stepsWith ArrayIteratorNext (List.replicate (elems.length + m) host)
        (CreateArrayIterator heap array kind).1 (CreateArrayIterator heap array kind).2).2 =
      elems.enum.map (fun p => .ok (CreateIterResultObject (arrayItem kind p.1 p.2) false))
        ++ List.replicate m (.ok terminalResult) := by
  rw [CreateArrayIterator_eq]
  have hr : (heap ++ [((JSObject.empty.set .IteratedObject array).set .IteratorNextIndex
      (.number 0)).set .ArrayIterationKind kind])[heap.length]? = some
        (((JSObject.empty.set .IteratedObject array).set .IteratorNextIndex
          (.number 0)).set .ArrayIterationKind kind) := by simp
  obtain ⟨heap1, o1, hrun, hr1, hk1, ht1, hi1⟩ :=
    array_run host hkind hne heap.length elems [] _ _ (by simpa using hp) hr
      (by simp [JSObject.set]) (by simp [JSObject.set]) (by simp [JSObject.set])
  simp only [List.nil_append, List.length_nil] at hrun hi1
  rw [List.replicate_add, stepsWith_append, hrun]
  simp only [List.enum]
  congr 1
  cases m with
  | zero => simp [stepsWith]
  | succ m =>
    have hfin := ArrayIteratorNext_finish host hp hne hr1 hk1 ht1 hi1 (le_refl _)
    have hex : ∀ host2, ArrayIteratorNext host2 (heap1.set heap.length (o1.set .IteratedObject .undefined))
        (.object heap.length) = (heap1.set heap.length (o1.set .IteratedObject .undefined),
          .ok terminalResult) := fun host2 =>
      ArrayIteratorNext_exhausted host2 (Heap.getElem?_set_same _ _ _ _ hr1)
        (by simpa [JSObject.set] using hk1) (by simp [JSObject.set])
        (by simpa [JSObject.set] using hi1)
    simp only [List.replicate_succ, stepsWith, hfin, stepsWith_const _ _ _ _ hex,
      List.length_replicate]

theorem arrayHost_presents (array : Value) (elems : List Value)
    (hlen : elems.length ≤ 2 ^ 53 - 1) :
    (arrayHost array elems).Presents array elems := by
  constructor
  · simp [arrayLength, arrayHost, liftHost]
    omega
  · intro i x hx
    have hi : i < elems.length := (List.getElem?_eq_some_iff.mp hx).1
    have hget : elems[i] = x := (List.getElem?_eq_some_iff.mp hx).2
    simp [arrayHost, List.getD, hx]

/-! ## One step of the string iterator -/

theorem charCodeAt_nat (s : List Nat) (p : Nat) :
    charCodeAt (.string s) (.number p) =
      match s[p]? with
      | some u => .number u
      | none => .nan := by
  simp [charCodeAt]

theorem charCodeAt_succ (s : List Nat) (p : Nat) :
    charCodeAt (.string s) (.number ((p : Int) + 1)) =
      match s[p + 1]? with
      | some u => .number u
      | none => .nan := by
  have h := charCodeAt_nat s (p + 1)
  simpa using h

theorem add_number_one (p : Nat) :
    (Value.number p).add (.number 1) = .number ((p + 1 : Nat) : Int) := by
  simp [Value.add]

theorem fromCharCode_unit {u : Nat} (hu : u < 65536) :
    fromCharCode (.number u) = .string [u] := by
  have h : ((u : Int) % 65536).toNat = u := by omega
  simp [fromCharCode, h]

/-- A lead surrogate followed by a trail surrogate gives both units. -/
theorem stringIteratorResult_pair {s : List Nat} {p u w : Nat}
    (hu : s[p]? = some u) (hw : s[p + 1]? = some w)
    (hlead : IsLeadSurrogate u) (htrail : IsTrailSurrogate w) (hw16 : w < 65536) :
    stringIteratorResult (.string s) (.number p) (.number s.length) = .string [u, w] := by
  have hlt : p + 1 < s.length := (List.getElem?_eq_some_iff.mp hw).1
  have hne : ¬ ((p : Int) + 1 = s.length) := by omega
  obtain ⟨h1, h2⟩ := hlead
  obtain ⟨h3, h4⟩ := htrail
  have hu16 : u < 65536 := by omega
  have a1 : ¬ ((u : Int) < 55296) := by omega
  have a2 : ¬ ((56319 : Int) < u) := by omega
  have a3 : ¬ ((w : Int) < 56320) := by omega
  have a4 : ¬ ((57343 : Int) < w) := by omega
  simp [stringIteratorResult, charCodeAt_nat, charCodeAt_succ, add_number_one, hu, hw, Value.lt,
    Value.gt,
    Value.looseEq, Value.add, fromCharCode_unit hu16, fromCharCode_unit hw16, a1, a2, a3, a4, hne]

/-- In every other case the result is the single unit at the position. -/
theorem stringIteratorResult_single {s : List Nat} {p u : Nat}
    (hu : s[p]? = some u) (hu16 : u < 65536)
    (h : ¬ (IsLeadSurrogate u ∧ ∃ w, s[p + 1]? = some w ∧ IsTrailSurrogate w)) :
    stringIteratorResult (.string s) (.number p) (.number s.length) = .string [u] := by
  have hp : p < s.length := (List.getElem?_eq_some_iff.mp hu).1
  unfold stringIteratorResult
  simp only [charCodeAt_nat, add_number_one, hu]
  split
  · exact fromCharCode_unit hu16
  · rename_i hc
    simp only [Value.lt, Value.gt, Value.looseEq, Bool.or_eq_true, decide_eq_true_eq,
      not_or, Value.number.injEq] at hc
    obtain ⟨⟨h1, h2⟩, h3⟩ := hc
    have hlt : p + 1 < s.length := by omega
    obtain ⟨w, hw⟩ : ∃ w, s[p + 1]? = some w := ⟨s[p + 1], List.getElem?_eq_getElem hlt⟩
    simp only [hw]
    split
    · exact fromCharCode_unit hu16
    · rename_i hc2
      exfalso
      simp only [Value.lt, Value.gt, Bool.or_eq_true, decide_eq_true_eq, not_or] at hc2
      apply h
      refine ⟨⟨by omega, by omega⟩, w, hw, ⟨by omega, by omega⟩⟩

theorem mem_of_getElem?_some {s : List Nat} {i u : Nat} (h : s[i]? = some u) : u ∈ s := by
  obtain ⟨hi, rfl⟩ := List.getElem?_eq_some_iff.mp h
  exact List.getElem_mem hi

theorem StringIteratorNext_pair {heap : Heap} {r : Nat} {o : JSObject} {s : List Nat}
    {p u w : Nat} (hr : heap[r]? = some o) (ht : o.IteratedString = some (.string s))
    (hi : o.StringIteratorNextIndex = some (.number p))
    (hu : s[p]? = some u) (hw : s[p + 1]? = some w)
    (hlead : IsLeadSurrogate u) (htrail : IsTrailSurrogate w) (hw16 : w < 65536) :
    StringIteratorNext heap (.object r) =
      (heap.set r (o.set .StringIteratorNextIndex (.number ((p + 2 : Nat) : Int))),
        .ok (CreateIterResultObject (.string [u, w]) false)) := by
  have hp : p < s.length := (List.getElem?_eq_some_iff.mp hu).1
  rw [StringIteratorNext_object hr ht hi]
  simp [Value.length, Value.ge, hp, stringIteratorResult_pair hu hw hlead htrail hw16, Value.add]

theorem StringIteratorNext_single {heap : Heap} {r : Nat} {o : JSObject} {s : List Nat}
    {p u : Nat} (hr : heap[r]? = some o) (ht : o.IteratedString = some (.string s))
    (hi : o.StringIteratorNextIndex = some (.number p))
    (hu : s[p]? = some u) (hu16 : u < 65536)
    (h : ¬ (IsLeadSurrogate u ∧ ∃ w, s[p + 1]? = some w ∧ IsTrailSurrogate w)) :
    StringIteratorNext heap (.object r) =
      (heap.set r (o.set .StringIteratorNextIndex (.number ((p + 1 : Nat) : Int))),
        .ok (CreateIterResultObject (.string [u]) false)) := by
  have hp : p < s.length := (List.getElem?_eq_some_iff.mp hu).1
  rw [StringIteratorNext_object hr ht hi]
  simp [Value.length, Value.ge, hp, stringIteratorResult_single hu hu16 h, Value.add]

theorem StringIteratorNext_end {heap : Heap} {r : Nat} {o : JSObject} {s : List Nat}
    {p : Nat} (hr : heap[r]? = some o) (ht : o.IteratedString = some (.string s))
    (hi : o.StringIteratorNextIndex = some (.number p)) (hp : s.length ≤ p) :
    StringIteratorNext heap (.object r) =
      (heap.set r (o.set .IteratedString .undefined), .ok terminalResult) := by
  rw [StringIteratorNext_object hr ht hi]
  simp [Value.length, Value.ge, hp, terminalResult]

/-! ## Running a string iterator over a string -/

theorem codePoints_length_le : ∀ (n : Nat) (s : List Nat), s.length ≤ n →
    (codePoints s).length ≤ s.length := by
  intro n
  induction n with
  | zero =>
    intro s hs
    have : s = [] := List.length_eq_zero.mp (Nat.le_zero.mp hs)
    subst this
    simp [codePoints]
  | succ n ih =>
    intro s hs
    match s, hs with
    | [], _ => simp [codePoints]
    | [u], _ => simp [codePoints]
    | u :: w :: rest, hs =>
      simp only [List.length_cons] at hs
      unfold codePoints
      split
      · have := ih rest (by omega)
        simp only [List.length_cons]
        omega
      · have := ih (w :: rest) (by simp only [List.length_cons]; omega)
        simp only [List.length_cons] at this ⊢
        omega

theorem getLast?_cons_of_some {α : Type} {a x : α} {l : List α} (h : l.getLast? = some x) :
    (a :: l).getLast? = some x := by
  cases l with
  | nil => simp at h
  | cons b l => simpa [List.getLast?_cons_cons] using h

theorem not_trail_of_lead {h : Nat} (hl : IsLeadSurrogate h) : ¬ IsTrailSurrogate h := by
  unfold IsLeadSurrogate at hl
  unfold IsTrailSurrogate
  omega

/-- The last chunk of a string ending in a lead surrogate is that unit alone. -/
theorem codePoints_getLast_lead {h : Nat} (hl : IsLeadSurrogate h) :
    ∀ (n : Nat) (pre : List Nat), pre.length ≤ n →
      (codePoints (pre ++ [h])).getLast? = some [h] := by
  intro n
  induction n with
  | zero =>
    intro pre hp
    have : pre = [] := List.length_eq_zero.mp (Nat.le_zero.mp hp)
    subst this
    simp [codePoints]
  | succ n ih =>
    intro pre hp
    match pre, hp with
    | [], _ => simp [codePoints]
    | [u], _ =>
      have hnt := not_trail_of_lead hl
      simp [codePoints, hnt]
    | u :: w :: rest, hp =>
      simp only [List.length_cons] at hp
      simp only [List.cons_append]
      unfold codePoints
      split
      · exact getLast?_cons_of_some (ih rest (by omega))
      · exact getLast?_cons_of_some (ih (w :: rest) (by simp only [List.length_cons]; omega))

theorem CreateStringIterator_eq (heap : Heap) (s : List Nat) :
    CreateStringIterator heap (.string s) =
      (heap ++ [(JSObject.empty.set .IteratedString (.string s)).set .StringIteratorNextIndex
          (.number 0)], .ok (.object heap.length)) := by
  simp [CreateStringIterator, Value.isString, Heap.alloc, Heap.write, ITERATED_STRING_ID,
    STRING_ITERATOR_NEXT_INDEX_ID]

/-- From cursor `pre.length` over the string `pre ++ rest`, `n + 1` steps with
`n >= rest.length` produce the chunks of `rest` and then only terminal results. -/
theorem string_run (host : Host) (r : Nat) (s : List Nat) (hs : IsCodeUnits s) :
    ∀ (n : Nat) (rest pre : List Nat) (heap : Heap) (o : JSObject),
      s = pre ++ rest → rest.length ≤ n →
      heap[r]? = some o → o.IteratedString = some (.string s) →
      o.StringIteratorNextIndex = some (.number pre.length) →
      (stepsWith StringIteratorNextIn (List.replicate (n + 1) host) heap (.object r)).2 =
        (codePoints rest).map (fun c => .ok (CreateIterResultObject (.string c) false))
          ++ List.replicate (n + 1 - (codePoints rest).length) (.ok terminalResult) := by
  intro n
  induction n with
  | zero =>
    intro rest pre heap o hsplit hn hr ht hi
    have hrest : rest = [] := List.length_eq_zero.mp (Nat.le_zero.mp hn)
    subst hrest
    have hend : StringIteratorNextIn host heap (.object r) = _ :=
      StringIteratorNext_end hr ht hi (by simp [hsplit])
    simp [stepsWith, hend, codePoints]
  | succ n ih =>
    intro rest pre heap o hsplit hn hr ht hi
    match rest, hn with
    | [], _ =>
      have hend : StringIteratorNextIn host heap (.object r) = _ :=
        StringIteratorNext_end hr ht hi (by simp [hsplit])
      have hex : ∀ host2, StringIteratorNextIn host2
          (heap.set r (o.set .IteratedString .undefined)) (.object r) =
            (heap.set r (o.set .IteratedString .undefined), .ok terminalResult) := fun _ =>
        StringIteratorNext_exhausted (Heap.getElem?_set_same _ _ _ _ hr)
          (by simp [JSObject.set]) (by simpa [JSObject.set] using hi)
      rw [List.replicate_succ, stepsWith_cons, hend]
      simp only []
      rw [stepsWith_const StringIteratorNextIn _ (.object r) _ hex]
      simp [codePoints, List.replicate_succ]
    | [u], _ =>
      have hu : s[pre.length]? = some u := by simp [hsplit]
      have hnone : s[pre.length + 1]? = none := by simp [hsplit]
      have hstep : StringIteratorNextIn host heap (.object r) = _ :=
        StringIteratorNext_single hr ht hi hu (hs u (mem_of_getElem?_some hu)) (by simp [hnone])
      have hrec := ih [] (pre ++ [u])
        (heap.set r (o.set .StringIteratorNextIndex (.number ((pre.length + 1 : Nat) : Int))))
        (o.set .StringIteratorNextIndex (.number ((pre.length + 1 : Nat) : Int)))
        (by simp [hsplit]) (by simp)
        (Heap.getElem?_set_same _ _ _ _ hr) (by simpa [JSObject.set] using ht)
        (by simp [JSObject.set])
      rw [List.replicate_succ, stepsWith_cons, hstep]
      simp only []
      rw [hrec]
      simp [codePoints]
    | u :: w :: rest, hn =>
      simp only [List.length_cons] at hn
      have hu : s[pre.length]? = some u := by
        rw [hsplit, List.getElem?_append_right (le_refl _)]
        simp
      have hw : s[pre.length + 1]? = some w := by
        rw [hsplit, List.getElem?_append_right (by omega)]
        simp
      by_cases hpair : IsLeadSurrogate u ∧ IsTrailSurrogate w
      · have hstep : StringIteratorNextIn host heap (.object r) = _ :=
          StringIteratorNext_pair hr ht hi hu hw hpair.1 hpair.2 (hs w (mem_of_getElem?_some hw))
        have hrec := ih rest (pre ++ [u, w])
          (heap.set r (o.set .StringIteratorNextIndex (.number ((pre.length + 2 : Nat) : Int))))
          (o.set .StringIteratorNextIndex (.number ((pre.length + 2 : Nat) : Int)))
          (by simp [hsplit]) (by omega)
          (Heap.getElem?_set_same _ _ _ _ hr) (by simpa [JSObject.set] using ht)
          (by simp [JSObject.set])
        rw [List.replicate_succ, stepsWith_cons, hstep]
        simp only []
        rw [hrec]
        simp [codePoints, hpair]
      · have hstep : StringIteratorNextIn host heap (.object r) = _ :=
          StringIteratorNext_single hr ht hi hu (hs u (mem_of_getElem?_some hu))
            (by
              rintro ⟨h1, w2, hw2, h2⟩
              rw [hw] at hw2
              cases hw2
              exact hpair ⟨h1, h2⟩)
        have hrec := ih (w :: rest) (pre ++ [u])
          (heap.set r (o.set .StringIteratorNextIndex (.number ((pre.length + 1 : Nat) : Int))))
          (o.set .StringIteratorNextIndex (.number ((pre.length + 1 : Nat) : Int)))
          (by simp [hsplit])
          (by simp only [List.length_cons]; omega)
          (Heap.getElem?_set_same _ _ _ _ hr) (by simpa [JSObject.set] using ht)
          (by simp [JSObject.set])
        rw [List.replicate_succ, stepsWith_cons, hstep]
        simp only []
        rw [hrec]
        simp [codePoints, hpair]

/-! ## How a step can complete -/

theorem arrayLength_cases (host : Host) (a : Value) :
    (host.IsArrayBufferView a = true ∧ host.HasDetachedBuffer a = true ∧
      arrayLength host a = .error (.TypeError
        "Cannot perform Array Iterator.prototype.next on a detached ArrayBuffer")) ∨
    (¬ (host.IsArrayBufferView a = true ∧ host.HasDetachedBuffer a = true) ∧
      ((∃ v, arrayLength host a = .error (.hostThrow v)) ∨ ∃ l, arrayLength host a = .ok l)) := by
  unfold arrayLength liftHost
  by_cases hv : host.IsArrayBufferView a = true
  · by_cases hd : host.HasDetachedBuffer a = true
    · left
      simp [hv, hd]
    · right
      refine ⟨by simp [hd], ?_⟩
      simp only [hv, hd, if_true, if_false]
      cases host.GetLength a with
      | error v => exact Or.inl ⟨v, rfl⟩
      | ok l => exact Or.inr ⟨l, rfl⟩
  · right
    refine ⟨by simp [hv], ?_⟩
    simp only [hv, if_false]
    cases host.GetLength a with
    | error v => exact Or.inl ⟨v, rfl⟩
    | ok l =>
      simp only []
      cases host.ToLength l with
      | error v => exact Or.inl ⟨v, rfl⟩
      | ok l2 => exact Or.inr ⟨l2, rfl⟩

theorem ArrayIteratorNext_cases (host : Host) (heap : Heap) (this : Value) :
    (heap.HasHiddenKey this ARRAY_ITERATION_KIND_ID = false ∧
      ArrayIteratorNext host heap this =
        (heap, .error (.TypeError "not an Array Iterator"))) ∨
    (heap.HasHiddenKey this ARRAY_ITERATION_KIND_ID = true ∧
      IsArrayIterator heap this = .error .AssertionFailed ∧
      ArrayIteratorNext host heap this = (heap, .error .AssertionFailed)) ∨
    (IsArrayIterator heap this = .ok true ∧
      heap.read this ITERATED_OBJECT_ID ≠ .undefined ∧
      host.IsArrayBufferView (heap.read this ITERATED_OBJECT_ID) = true ∧
      host.HasDetachedBuffer (heap.read this ITERATED_OBJECT_ID) = true ∧
      ArrayIteratorNext host heap this = (heap, .error (.TypeError
        "Cannot perform Array Iterator.prototype.next on a detached ArrayBuffer"))) ∨
    (IsArrayIterator heap this = .ok true ∧
      ¬ (heap.read this ITERATED_OBJECT_ID ≠ .undefined ∧
        host.IsArrayBufferView (heap.read this ITERATED_OBJECT_ID) = true ∧
        host.HasDetachedBuffer (heap.read this ITERATED_OBJECT_ID) = true) ∧
      Benign (ArrayIteratorNext host heap this).2) := by
  cases hI : IsArrayIterator heap this with
  | error e =>
    right; left
    have hI0 := hI
    unfold IsArrayIterator at hI
    split at hI
    · rename_i hm
      have he : e = .AssertionFailed := by
        split at hI
        · cases hI; rfl
        · split at hI
          · cases hI; rfl
          · cases hI
      subst he
      exact ⟨hm, rfl, by simp [ArrayIteratorNext, hI0]⟩
    · cases hI
  | ok b =>
    cases b with
    | false =>
      left
      have hm : heap.HasHiddenKey this ARRAY_ITERATION_KIND_ID = false := by
        unfold IsArrayIterator at hI
        split at hI
        · split at hI
          · cases hI
          · split at hI <;> cases hI
        · rename_i h
          simpa using h
      exact ⟨hm, by simp [ArrayIteratorNext, hI]⟩
    | true =>
      right; right
      obtain ⟨r, o, kind, target, idx, rfl, hr, hk, ht, hi⟩ := IsArrayIterator_ok_true hI
      have hread : heap.read (.object r) ITERATED_OBJECT_ID = target := by
        simp [Heap.read_object _ hr, JSObject.get, ITERATED_OBJECT_ID, ht]
      rw [hread, ArrayIteratorNext_object host hr hk ht hi]
      by_cases hu : target = .undefined
      · right
        refine ⟨rfl, by simp [hu], ?_⟩
        simp [hu, Benign]
      · rcases arrayLength_cases host target with ⟨hv, hd, hl⟩ | ⟨hnd, ⟨v, hl⟩ | ⟨l, hl⟩⟩
        · left
          exact ⟨rfl, hu, hv, hd, by simp [hu, hl]⟩
        · right
          refine ⟨rfl, fun h => hnd ⟨h.2.1, h.2.2⟩, ?_⟩
          simp [hu, hl, Benign]
        · right
          refine ⟨rfl, fun h => hnd ⟨h.2.1, h.2.2⟩, ?_⟩
          simp only [hu, hl, if_false, Benign]
          split_ifs
          · simp
          · simp
          · cases host.GetIndex target idx <;> simp
          · cases host.GetIndex target idx <;> simp
          · cases host.GetIndex target idx <;> simp


theorem IsArrayIterator_marker {heap : Heap} {this : Value}
    (h : IsArrayIterator heap this = .ok true) :
    heap.HasHiddenKey this ARRAY_ITERATION_KIND_ID = true := by
  obtain ⟨r, o, kind, target, idx, rfl, hr, hk, ht, hi⟩ := IsArrayIterator_ok_true h
  simp [Heap.HasHiddenKey_object _ hr, JSObject.get, ARRAY_ITERATION_KIND_ID, hk]

theorem SetIteratorNext_cases (host : Host) (heap : Heap) (this : Value) :
    (heap.HasHiddenKey this SET_ITERATION_KIND_ID = false ∧
      SetIteratorNext host heap this = (heap, .error (.TypeError "not a Set Iterator"))) ∨
    (heap.HasHiddenKey this SET_ITERATION_KIND_ID = true ∧
      Benign (SetIteratorNext host heap this).2) := by
  by_cases hm : heap.HasHiddenKey this SET_ITERATION_KIND_ID = true
  · right
    refine ⟨hm, ?_⟩
    unfold SetIteratorNext IsSetIterator Benign
    simp only [hm, if_true]
    split_ifs <;> simp
  · left
    simp only [Bool.not_eq_true] at hm
    exact ⟨hm, by simp [SetIteratorNext, IsSetIterator, hm]⟩

theorem MapIteratorNext_cases (host : Host) (heap : Heap) (this : Value) :
    (heap.HasHiddenKey this MAP_ITERATION_KIND_ID = false ∧
      MapIteratorNext host heap this = (heap, .error (.TypeError "not a Map Iterator"))) ∨
    (heap.HasHiddenKey this MAP_ITERATION_KIND_ID = true ∧
      Benign (MapIteratorNext host heap this).2) := by
  by_cases hm : heap.HasHiddenKey this MAP_ITERATION_KIND_ID = true
  · right
    refine ⟨hm, ?_⟩
    unfold MapIteratorNext IsMapIterator Benign
    simp only [hm, if_true]
    split_ifs <;> simp
  · left
    simp only [Bool.not_eq_true] at hm
    exact ⟨hm, by simp [MapIteratorNext, IsMapIterator, hm]⟩

theorem StringIteratorNext_cases (heap : Heap) (this : Value) :
    (heap.HasHiddenKey this ITERATED_STRING_ID = false ∧
      StringIteratorNext heap this = (heap, .error (.TypeError "not a String Iterator"))) ∨
    (heap.HasHiddenKey this ITERATED_STRING_ID = true ∧
      Benign (StringIteratorNext heap this).2) := by
  by_cases hm : heap.HasHiddenKey this ITERATED_STRING_ID = true
  · right
    refine ⟨hm, ?_⟩
    unfold StringIteratorNext IsStringIterator Benign
    simp only [hm, if_true]
    split_ifs <;> simp
  · left
    simp only [Bool.not_eq_true] at hm
    exact ⟨hm, by simp [StringIteratorNext, IsStringIterator, hm]⟩

theorem Benign.ne_typeError {c : Except JSError IterResult} (h : Benign c) (message : String) :
    c ≠ .error (.TypeError message) := by
  rcases h with ⟨res, rfl⟩ | ⟨v, rfl⟩ | rfl <;> simp

/-! ## Creation of set, map and string iterators -/

theorem CreateSetIterator_eq (host : Host) (heap : Heap) (t kind : Value)
    (ho : t.isObject = true) (hs : host.IsSet t = true) :
    CreateSetIterator host heap t kind =
      (heap ++ [((JSObject.empty.set .IteratedObject t).set .IteratorNextIndex
          (host.GetMapCursor t)).set .SetIterationKind kind], .ok (.object heap.length)) := by
  simp [CreateSetIterator, RequireObject, ho, hs, Heap.alloc, Heap.write, ITERATED_OBJECT_ID,
    ITERATOR_NEXT_INDEX_ID, SET_ITERATION_KIND_ID]

theorem CreateMapIterator_eq (host : Host) (heap : Heap) (t kind : Value)
    (ho : t.isObject = true) (hs : host.IsMap t = true) :
    CreateMapIterator host heap t kind =
      (heap ++ [((JSObject.empty.set .IteratedObject t).set .IteratorNextIndex
          (host.GetMapCursor t)).set .MapIterationKind kind], .ok (.object heap.length)) := by
  simp [CreateMapIterator, RequireObject, ho, hs, Heap.alloc, Heap.write, ITERATED_OBJECT_ID,
    ITERATOR_NEXT_INDEX_ID, MAP_ITERATION_KIND_ID]

theorem CreateSetIterator_ok_inv {host : Host} {heap heap1 : Heap} {t kind it : Value}
    (h : CreateSetIterator host heap t kind = (heap1, .ok it)) :
    t.isObject = true ∧ host.IsSet t = true := by
  cases ho : t.isObject with
  | false => simp [CreateSetIterator, RequireObject, ho] at h
  | true =>
    cases hs : host.IsSet t with
    | false => simp [CreateSetIterator, RequireObject, ho, hs] at h
    | true => exact ⟨rfl, rfl⟩

theorem CreateMapIterator_ok_inv {host : Host} {heap heap1 : Heap} {t kind it : Value}
    (h : CreateMapIterator host heap t kind = (heap1, .ok it)) :
    t.isObject = true ∧ host.IsMap t = true := by
  cases ho : t.isObject with
  | false => simp [CreateMapIterator, RequireObject, ho] at h
  | true =>
    cases hs : host.IsMap t with
    | false => simp [CreateMapIterator, RequireObject, ho, hs] at h
    | true => exact ⟨rfl, rfl⟩

theorem CreateStringIterator_ok_inv {heap heap1 : Heap} {t it : Value}
    (h : CreateStringIterator heap t = (heap1, .ok it)) : ∃ s, t = .string s := by
  cases t with
  | string s => exact ⟨s, rfl⟩
  | _ => simp [CreateStringIterator, Value.isString] at h

theorem Heap.HasHiddenKey_fresh (heap : Heap) (o : JSObject) (k : HiddenKey) :
    Heap.HasHiddenKey (heap ++ [o]) (.object heap.length) k = (o.get k).isSome := by
  simp [Heap.HasHiddenKey]

theorem Heap.read_fresh (heap : Heap) (o : JSObject) (k : HiddenKey) :
    Heap.read (heap ++ [o]) (.object heap.length) k = (o.get k).getD .undefined := by
  simp [Heap.read]

/-! ## Shape of the results -/

theorem not_done_B {v : Value} {d : Bool} {res : IterResult}
    (hv : d = true → v = .undefined) (h : CreateIterResultObject v d = res) :
    res = terminalResult ∨ res.done = false := by
  subst h
  cases d with
  | true => left; simp [hv rfl, terminalResult]
  | false => right; rfl

theorem not_done_A {v : Value} {d : Bool} {res : IterResult}
    (hv : d = true → v = .undefined)
    (h : (Except.ok (CreateIterResultObject v d) : Except JSError IterResult) = .ok res) :
    res = terminalResult ∨ res.done = false :=
  not_done_B hv (Except.ok.inj h)

theorem not_done_C {heap1 : Heap} {v : Value} {d : Bool} {res : IterResult}
    (hv : d = true → v = .undefined)
    (h : (heap1, (Except.ok (CreateIterResultObject v d) : Except JSError IterResult)).2
      = .ok res) : res = terminalResult ∨ res.done = false :=
  not_done_A hv h

theorem ArrayIteratorNext_ok_cases {host : Host} {heap : Heap} {this : Value} {res : IterResult}
    (h : (ArrayIteratorNext host heap this).2 = .ok res) :
    res = terminalResult ∨ res.done = false := by
  have hI : IsArrayIterator heap this = .ok true :=
    ArrayIteratorNext_ok_inv (show ArrayIteratorNext host heap this =
      ((ArrayIteratorNext host heap this).1, .ok res) from by rw [← h])
  obtain ⟨r, o, kind, target, idx, rfl, hr, hk, ht, hi⟩ := IsArrayIterator_ok_true hI
  rw [ArrayIteratorNext_object host hr hk ht hi] at h
  by_cases hu : target = .undefined
  · rw [if_pos hu] at h
    exact not_done_C (fun _ => rfl) h
  · rw [if_neg hu] at h
    cases hl : arrayLength host target with
    | error e => simp [hl] at h
    | ok length =>
      rw [hl] at h
      simp only [] at h
      by_cases hge : idx.ge length = true
      · rw [if_pos hge] at h
        exact not_done_C (fun _ => rfl) h
      · rw [if_neg hge] at h
        cases hg : host.GetIndex target idx with
        | error v =>
          rw [hg] at h
          simp only [] at h
          split_ifs at h
          exact not_done_A (by simp) h
        | ok x =>
          rw [hg] at h
          simp only [] at h
          split_ifs at h <;> exact not_done_A (by simp) h

theorem SetIteratorNext_ok_cases {host : Host} {heap : Heap} {this : Value} {res : IterResult}
    (h : (SetIteratorNext host heap this).2 = .ok res) :
    res = terminalResult ∨ res.done = false := by
  have hI : IsSetIterator heap this = .ok true :=
    SetIteratorNext_ok_inv (show SetIteratorNext host heap this =
      ((SetIteratorNext host heap this).1, .ok res) from by rw [← h])
  obtain ⟨r, o, kind, target, idx, rfl, hr, hk, ht, hi⟩ := IsSetIterator_ok_true hI
  rw [SetIteratorNext_object host hr hk ht hi] at h
  simp only [] at h
  split_ifs at h <;> exact not_done_A (by simp) h

theorem MapIteratorNext_ok_cases {host : Host} {heap : Heap} {this : Value} {res : IterResult}
    (h : (MapIteratorNext host heap this).2 = .ok res) :
    res = terminalResult ∨ res.done = false := by
  have hI : IsMapIterator heap this = .ok true :=
    MapIteratorNext_ok_inv (show MapIteratorNext host heap this =
      ((MapIteratorNext host heap this).1, .ok res) from by rw [← h])
  obtain ⟨r, o, kind, target, idx, rfl, hr, hk, ht, hi⟩ := IsMapIterator_ok_true hI
  rw [MapIteratorNext_object host hr hk ht hi] at h
  simp only [] at h
  split_ifs at h <;> exact not_done_A (by simp) h

theorem StringIteratorNext_ok_cases {heap : Heap} {this : Value} {res : IterResult}
    (h : (StringIteratorNext heap this).2 = .ok res) :
    res = terminalResult ∨ res.done = false := by
  have hI : IsStringIterator heap this = .ok true :=
    StringIteratorNext_ok_inv (show StringIteratorNext heap this =
      ((StringIteratorNext heap this).1, .ok res) from by rw [← h])
  obtain ⟨r, o, target, idx, rfl, hr, ht, hi⟩ := IsStringIterator_ok_true hI
  rw [StringIteratorNext_object hr ht hi] at h
  split_ifs at h <;> exact not_done_A (by simp) h

/-! ## What a step reads and writes -/

theorem Heap.HasHiddenKey_eq_deref (heap : Heap) (v : Value) (k : HiddenKey) :
    heap.HasHiddenKey v k =
      match heap.deref v with
      | some o => (o.get k).isSome
      | none => false := by
  cases v <;> rfl

theorem Heap.read_eq_deref (heap : Heap) (v : Value) (k : HiddenKey) :
    heap.read v k =
      match heap.deref v with
      | some o => (o.get k).getD .undefined
      | none => .undefined := by
  cases v <;> rfl

theorem Heap.deref_write_ne (heap : Heap) {this other : Value} (k : HiddenKey) (x : Value)
    (hne : other ≠ this) : (heap.write this k x).deref other = heap.deref other := by
  cases this with
  | object r =>
    cases other with
    | object r2 =>
      have hr : r ≠ r2 := fun h => hne (by rw [h])
      cases hr0 : heap[r]? with
      | none => simp [Heap.write, hr0]
      | some o => simp [Heap.write, hr0, Heap.deref, List.getElem?_set, hr]
    | _ => rfl
  | _ => rfl

theorem Heap.deref_write_same (heap : Heap) (this : Value) (k : HiddenKey) (x : Value) :
    (heap.write this k x).deref this = (heap.deref this).map (fun o => o.set k x) := by
  cases this with
  | object r =>
    unfold Heap.write
    cases hr : heap[r]? with
    | none => simp [Heap.deref, hr]
    | some o =>
      have hlt : r < heap.length := (List.getElem?_eq_some_iff.mp hr).1
      simp [Heap.deref, hr, List.getElem?_set, hlt]
  | _ => rfl

theorem IsArrayIterator_congr {heap1 heap2 : Heap} {this : Value}
    (h : heap1.deref this = heap2.deref this) :
    IsArrayIterator heap1 this = IsArrayIterator heap2 this := by
  simp only [IsArrayIterator, Heap.HasHiddenKey_eq_deref, h]

/-- The completion of a step depends on the heap only through the slots of the
receiver. -/
theorem ArrayIteratorNext_congr (host : Host) {heap1 heap2 : Heap} {this : Value}
    (h : heap1.deref this = heap2.deref this) :
    (ArrayIteratorNext host heap1 this).2 = (ArrayIteratorNext host heap2 this).2 := by
  have hI12 := IsArrayIterator_congr h
  cases hI : IsArrayIterator heap2 this with
  | error e => simp [ArrayIteratorNext, hI12, hI]
  | ok b =>
    cases b with
    | false => simp [ArrayIteratorNext, hI12, hI]
    | true =>
      obtain ⟨r, o, kind, target, idx, rfl, hr, hk, ht, hi⟩ := IsArrayIterator_ok_true hI
      have hr1 : heap1[r]? = some o := by
        have : heap1[r]? = heap2[r]? := h
        rw [this, hr]
      rw [ArrayIteratorNext_object host hr hk ht hi, ArrayIteratorNext_object host hr1 hk ht hi]
      by_cases hu : target = .undefined
      · rw [if_pos hu, if_pos hu]
      · rw [if_neg hu, if_neg hu]
        cases arrayLength host target with
        | error e => rfl
        | ok length =>
          simp only []
          by_cases hge : idx.ge length = true
          · rw [if_pos hge, if_pos hge]
          · rw [if_neg hge, if_neg hge]
            cases host.GetIndex target idx with
            | error v =>
              simp only []
              split_ifs <;> rfl
            | ok x =>
              simp only []
              split_ifs <;> rfl

/-- A step writes no slot of any object other than the receiver. -/
theorem ArrayIteratorNext_frame (host : Host) (heap : Heap) {this other : Value}
    (hne : other ≠ this) :
    (ArrayIteratorNext host heap this).1.deref other = heap.deref other := by
  cases hI : IsArrayIterator heap this with
  | error e => simp [ArrayIteratorNext, hI]
  | ok b =>
    cases b with
    | false => simp [ArrayIteratorNext, hI]
    | true =>
      obtain ⟨r, o, kind, target, idx, rfl, hr, hk, ht, hi⟩ := IsArrayIterator_ok_true hI
      have hw : ∀ (k : HiddenKey) (x : Value),
          Heap.deref (heap.set r (o.set k x)) other = heap.deref other := by
        intro k x
        rw [← Heap.write_object k x hr]
        exact Heap.deref_write_ne heap k x hne
      rw [ArrayIteratorNext_object host hr hk ht hi]
      by_cases hu : target = .undefined
      · rw [if_pos hu]
      · rw [if_neg hu]
        cases arrayLength host target with
        | error e => rfl
        | ok length =>
          simp only []
          by_cases hge : idx.ge length = true
          · rw [if_pos hge]
            exact hw _ _
          · rw [if_neg hge]
            cases host.GetIndex target idx with
            | error v =>
              simp only []
              split_ifs <;> exact hw _ _
            | ok x =>
              simp only []
              split_ifs <;> exact hw _ _

/-! ## Steps only overwrite slots of their receiver -/

theorem Heap.HasHiddenKey_write_present (heap : Heap) {this : Value} {k : HiddenKey}
    (x : Value) (hp : heap.HasHiddenKey this k = true) (v : Value) (k2 : HiddenKey) :
    (heap.write this k x).HasHiddenKey v k2 = heap.HasHiddenKey v k2 := by
  obtain ⟨r, o, y, rfl, hr, hy⟩ := (Heap.HasHiddenKey_iff _ _ _).mp hp
  rw [Heap.write_object k x hr]
  cases v with
  | object r2 =>
    by_cases h : r2 = r
    · subst h
      rw [Heap.HasHiddenKey_object k2 (Heap.getElem?_set_same _ _ _ _ hr),
        Heap.HasHiddenKey_object k2 hr, JSObject.get_set]
      by_cases hk : k2 = k
      · subst hk
        simp [hy]
      · simp [hk]
    · have hlt : r < heap.length := (List.getElem?_eq_some_iff.mp hr).1
      simp [Heap.HasHiddenKey, List.getElem?_set, Ne.symm h]
  | _ => rfl

theorem Heap.read_write_ne_key (heap : Heap) (this : Value) {k k2 : HiddenKey} (x : Value)
    (hne : k2 ≠ k) (v : Value) : (heap.write this k x).read v k2 = heap.read v k2 := by
  cases this with
  | object r =>
    cases hr : heap[r]? with
    | none => simp [Heap.write, hr]
    | some o =>
      rw [Heap.write_object k x hr]
      cases v with
      | object r2 =>
        by_cases h : r2 = r
        · subst h
          rw [Heap.read_object k2 (Heap.getElem?_set_same _ _ _ _ hr), Heap.read_object k2 hr,
            JSObject.get_set]
          simp [hne]
        · simp [Heap.read, List.getElem?_set, Ne.symm h]
      | _ => rfl
  | _ => rfl

theorem Heap.Overwrites.hasKey {this : Value} {keys : List HiddenKey} {heap heap1 : Heap}
    (h : Heap.Overwrites this keys heap heap1) (v : Value) (k : HiddenKey) :
    heap1.HasHiddenKey v k = heap.HasHiddenKey v k := by
  induction h with
  | refl => rfl
  | write k1 x _ hp _ ih => rw [Heap.HasHiddenKey_write_present _ x hp, ih]

theorem Heap.Overwrites.read_of_not_mem {this : Value} {keys : List HiddenKey}
    {heap heap1 : Heap} (h : Heap.Overwrites this keys heap heap1) (v : Value)
    {k : HiddenKey} (hk : k ∉ keys) : heap1.read v k = heap.read v k := by
  induction h with
  | refl => rfl
  | write k1 x hmem _ _ ih =>
    have hne : k ≠ k1 := fun h => hk (by rw [h]; exact hmem)
    rw [Heap.read_write_ne_key _ _ x hne, ih]

theorem ArrayIteratorNext_overwrites (host : Host) (heap : Heap) (this : Value) :
    Heap.Overwrites this [ITERATED_OBJECT_ID, ITERATOR_NEXT_INDEX_ID] heap
      (ArrayIteratorNext host heap this).1 := by
  cases hI : IsArrayIterator heap this with
  | error e =>
    simp only [ArrayIteratorNext, hI]
    exact .refl _
  | ok b =>
    cases b with
    | false =>
      simp only [ArrayIteratorNext, hI]
      exact .refl _
    | true =>
      obtain ⟨r, o, kind, target, idx, rfl, hr, hk, ht, hi⟩ := IsArrayIterator_ok_true hI
      have h1 : Heap.HasHiddenKey heap (.object r) ITERATED_OBJECT_ID = true := by
        simp [Heap.HasHiddenKey_object _ hr, JSObject.get, ITERATED_OBJECT_ID, ht]
      have h2 : Heap.HasHiddenKey heap (.object r) ITERATOR_NEXT_INDEX_ID = true := by
        simp [Heap.HasHiddenKey_object _ hr, JSObject.get, ITERATOR_NEXT_INDEX_ID, hi]
      have w1 : ∀ x, Heap.Overwrites (.object r) [ITERATED_OBJECT_ID, ITERATOR_NEXT_INDEX_ID]
          heap (heap.set r (o.set .IteratedObject x)) := by
        intro x
        rw [← Heap.write_object .IteratedObject x hr]
        exact .write _ _ (by simp [ITERATED_OBJECT_ID]) h1 (.refl _)
      have w2 : ∀ x, Heap.Overwrites (.object r) [ITERATED_OBJECT_ID, ITERATOR_NEXT_INDEX_ID]
          heap (heap.set r (o.set .IteratorNextIndex x)) := by
        intro x
        rw [← Heap.write_object .IteratorNextIndex x hr]
        exact .write _ _ (by simp [ITERATOR_NEXT_INDEX_ID]) h2 (.refl _)
      rw [ArrayIteratorNext_object host hr hk ht hi]
      by_cases hu : target = .undefined
      · rw [if_pos hu]
        exact .refl _
      · rw [if_neg hu]
        cases arrayLength host target with
        | error e => exact .refl _
        | ok length =>
          simp only []
          by_cases hge : idx.ge length = true
          · rw [if_pos hge]
            exact w1 _
          · rw [if_neg hge]
            cases host.GetIndex target idx with
            | error v =>
              simp only []
              split_ifs <;> exact w2 _
            | ok x =>
              simp only []
              split_ifs <;> exact w2 _

theorem SetIteratorNext_overwrites (host : Host) (heap : Heap) (this : Value) :
    Heap.Overwrites this [ITERATED_OBJECT_ID, ITERATOR_NEXT_INDEX_ID] heap
      (SetIteratorNext host heap this).1 := by
  cases hI : IsSetIterator heap this with
  | error e =>
    simp only [SetIteratorNext, hI]
    exact .refl _
  | ok b =>
    cases b with
    | false =>
      simp only [SetIteratorNext, hI]
      exact .refl _
    | true =>
      obtain ⟨r, o, kind, target, idx, rfl, hr, hk, ht, hi⟩ := IsSetIterator_ok_true hI
      have h1 : Heap.HasHiddenKey heap (.object r) ITERATED_OBJECT_ID = true := by
        simp [Heap.HasHiddenKey_object _ hr, JSObject.get, ITERATED_OBJECT_ID, ht]
      have h2 : Heap.HasHiddenKey heap (.object r) ITERATOR_NEXT_INDEX_ID = true := by
        simp [Heap.HasHiddenKey_object _ hr, JSObject.get, ITERATOR_NEXT_INDEX_ID, hi]
      have w2 : ∀ x, Heap.Overwrites (.object r) [ITERATED_OBJECT_ID, ITERATOR_NEXT_INDEX_ID]
          heap (heap.set r (o.set .IteratorNextIndex x)) := by
        intro x
        rw [← Heap.write_object .IteratorNextIndex x hr]
        exact .write _ _ (by simp [ITERATOR_NEXT_INDEX_ID]) h2 (.refl _)
      have w3 : ∀ a x, Heap.Overwrites (.object r) [ITERATED_OBJECT_ID, ITERATOR_NEXT_INDEX_ID]
          heap (heap.set r ((o.set .IteratorNextIndex a).set .IteratedObject x)) := by
        intro a x
        rw [← Heap.set_set_same heap r (o.set .IteratorNextIndex a),
          ← Heap.write_object .IteratedObject x (Heap.getElem?_set_same _ _ _ _ hr)]
        refine .write _ _ (by simp [ITERATED_OBJECT_ID]) ?_ (w2 a)
        rw [(w2 a).hasKey]
        exact h1
      rw [SetIteratorNext_object host hr hk ht hi]
      by_cases hu : target = .undefined
      · rw [if_pos hu]
        exact .refl _
      · rw [if_neg hu]
        simp only []
        split_ifs
        all_goals first | exact w3 _ _ | exact w2 _

theorem MapIteratorNext_overwrites (host : Host) (heap : Heap) (this : Value) :
    Heap.Overwrites this [ITERATED_OBJECT_ID, ITERATOR_NEXT_INDEX_ID] heap
      (MapIteratorNext host heap this).1 := by
  cases hI : IsMapIterator heap this with
  | error e =>
    simp only [MapIteratorNext, hI]
    exact .refl _
  | ok b =>
    cases b with
    | false =>
      simp only [MapIteratorNext, hI]
      exact .refl _
    | true =>
      obtain ⟨r, o, kind, target, idx, rfl, hr, hk, ht, hi⟩ := IsMapIterator_ok_true hI
      have h1 : Heap.HasHiddenKey heap (.object r) ITERATED_OBJECT_ID = true := by
        simp [Heap.HasHiddenKey_object _ hr, JSObject.get, ITERATED_OBJECT_ID, ht]
      have h2 : Heap.HasHiddenKey heap (.object r) ITERATOR_NEXT_INDEX_ID = true := by
        simp [Heap.HasHiddenKey_object _ hr, JSObject.get, ITERATOR_NEXT_INDEX_ID, hi]
      have w2 : ∀ x, Heap.Overwrites (.object r) [ITERATED_OBJECT_ID, ITERATOR_NEXT_INDEX_ID]
          heap (heap.set r (o.set .IteratorNextIndex x)) := by
        intro x
        rw [← Heap.write_object .IteratorNextIndex x hr]
        exact .write _ _ (by simp [ITERATOR_NEXT_INDEX_ID]) h2 (.refl _)
      have w3 : ∀ a x, Heap.Overwrites (.object r) [ITERATED_OBJECT_ID, ITERATOR_NEXT_INDEX_ID]
          heap (heap.set r ((o.set .IteratorNextIndex a).set .IteratedObject x)) := by
        intro a x
        rw [← Heap.set_set_same heap r (o.set .IteratorNextIndex a),
          ← Heap.write_object .IteratedObject x (Heap.getElem?_set_same _ _ _ _ hr)]
        refine .write _ _ (by simp [ITERATED_OBJECT_ID]) ?_ (w2 a)
        rw [(w2 a).hasKey]
        exact h1
      rw [MapIteratorNext_object host hr hk ht hi]
      by_cases hu : target = .undefined
      · rw [if_pos hu]
        exact .refl _
      · rw [if_neg hu]
        simp only []
        split_ifs
        all_goals first | exact w3 _ _ | exact w2 _

theorem StringIteratorNext_overwrites (heap : Heap) (this : Value) :
    Heap.Overwrites this [ITERATED_STRING_ID, STRING_ITERATOR_NEXT_INDEX_ID] heap
      (StringIteratorNext heap this).1 := by
  cases hI : IsStringIterator heap this with
  | error e =>
    simp only [StringIteratorNext, hI]
    exact .refl _
  | ok b =>
    cases b with
    | false =>
      simp only [StringIteratorNext, hI]
      exact .refl _
    | true =>
      obtain ⟨r, o, target, idx, rfl, hr, ht, hi⟩ := IsStringIterator_ok_true hI
      have h1 : Heap.HasHiddenKey heap (.object r) ITERATED_STRING_ID = true := by
        simp [Heap.HasHiddenKey_object _ hr, JSObject.get, ITERATED_STRING_ID, ht]
      have h2 : Heap.HasHiddenKey heap (.object r) STRING_ITERATOR_NEXT_INDEX_ID = true := by
        simp [Heap.HasHiddenKey_object _ hr, JSObject.get, STRING_ITERATOR_NEXT_INDEX_ID, hi]
      have w1 : ∀ x, Heap.Overwrites (.object r)
          [ITERATED_STRING_ID, STRING_ITERATOR_NEXT_INDEX_ID]
          heap (heap.set r (o.set .IteratedString x)) := by
        intro x
        rw [← Heap.write_object .IteratedString x hr]
        exact .write _ _ (by simp [ITERATED_STRING_ID]) h1 (.refl _)
      have w2 : ∀ x, Heap.Overwrites (.object r)
          [ITERATED_STRING_ID, STRING_ITERATOR_NEXT_INDEX_ID]
          heap (heap.set r (o.set .StringIteratorNextIndex x)) := by
        intro x
        rw [← Heap.write_object .StringIteratorNextIndex x hr]
        exact .write _ _ (by simp [STRING_ITERATOR_NEXT_INDEX_ID]) h2 (.refl _)
      rw [StringIteratorNext_object hr ht hi]
      split_ifs
      · exact .refl _
      · exact w1 _
      · exact w2 _

/-! ## The cursor across a step -/

theorem IsArrayIterator_of_overwrites {this : Value} {keys : List HiddenKey} {heap heap1 : Heap}
    (h : Heap.Overwrites this keys heap heap1) (v : Value) :
    IsArrayIterator heap1 v = IsArrayIterator heap v := by
  simp only [IsArrayIterator, h.hasKey]

/-- A step of a genuine array iterator with cursor `c` either leaves the cursor
at `c` (it returned the terminal result, or failed without touching the heap)
or moves it to `c + 1` (it returned a result with `done = false`, or failed
after the advance). -/
theorem ArrayIteratorNext_cursor (host : Host) {heap : Heap} {this : Value} {c : Int}
    (hI : IsArrayIterator heap this = .ok true)
    (hc : heap.read this ITERATOR_NEXT_INDEX_ID = .number c) :
    ((ArrayIteratorNext host heap this).1.read this ITERATOR_NEXT_INDEX_ID = .number c ∧
      ((ArrayIteratorNext host heap this).2 = .ok terminalResult ∨
        ∃ e, ArrayIteratorNext host heap this = (heap, .error e))) ∨
    ((ArrayIteratorNext host heap this).1.read this ITERATOR_NEXT_INDEX_ID = .number (c + 1) ∧
      ((∃ v, (ArrayIteratorNext host heap this).2 = .ok (CreateIterResultObject v false)) ∨
        ∃ e, (ArrayIteratorNext host heap this).2 = .error e)) := by
  obtain ⟨r, o, kind, target, idx, rfl, hr, hk, ht, hi⟩ := IsArrayIterator_ok_true hI
  have hidx : idx = .number c := by
    rw [Heap.read_object _ hr] at hc
    simpa [JSObject.get, ITERATOR_NEXT_INDEX_ID, hi] using hc
  subst hidx
  have r1 : ∀ x, Heap.read (heap.set r (o.set .IteratedObject x)) (.object r)
      ITERATOR_NEXT_INDEX_ID = .number c := by
    intro x
    rw [Heap.read_object _ (Heap.getElem?_set_same _ _ _ _ hr)]
    simp [JSObject.get, JSObject.set, ITERATOR_NEXT_INDEX_ID, hi]
  have r2 : Heap.read (heap.set r (o.set .IteratorNextIndex
      ((Value.number c).add (.number 1)))) (.object r) ITERATOR_NEXT_INDEX_ID =
        .number (c + 1) := by
    rw [Heap.read_object _ (Heap.getElem?_set_same _ _ _ _ hr)]
    simp [JSObject.get, JSObject.set, ITERATOR_NEXT_INDEX_ID, Value.add]
  rw [ArrayIteratorNext_object host hr hk ht hi]
  by_cases hu : target = .undefined
  · rw [if_pos hu]
    exact Or.inl ⟨hc, Or.inl rfl⟩
  · rw [if_neg hu]
    cases arrayLength host target with
    | error e => exact Or.inl ⟨hc, Or.inr ⟨e, rfl⟩⟩
    | ok length =>
      simp only []
      by_cases hge : (Value.number c).ge length = true
      · rw [if_pos hge]
        exact Or.inl ⟨r1 _, Or.inl rfl⟩
      · rw [if_neg hge]
        right
        cases host.GetIndex target (.number c) with
        | error v =>
          simp only []
          split_ifs
          · exact ⟨r2, Or.inl ⟨_, rfl⟩⟩
          · exact ⟨r2, Or.inr ⟨_, rfl⟩⟩
        | ok x =>
          simp only []
          split_ifs
          · exact ⟨r2, Or.inl ⟨_, rfl⟩⟩
          · exact ⟨r2, Or.inl ⟨_, rfl⟩⟩
          · exact ⟨r2, Or.inl ⟨_, rfl⟩⟩
          · exact ⟨r2, Or.inr ⟨_, rfl⟩⟩

/-- In a run of an array iterator in which no call raised, the cursor grows by
the number of non-terminal results. -/
theorem array_cursor_counts :
    ∀ (hosts : List Host) (heap : Heap) (this : Value) (c : Int),
      IsArrayIterator heap this = .ok true →
      heap.read this ITERATOR_NEXT_INDEX_ID = .number c →
      (stepsWith ArrayIteratorNext hosts heap this).2.all isNormal = true →
      (stepsWith ArrayIteratorNext hosts heap this).1.read this ITERATOR_NEXT_INDEX_ID =
        .number (c + ((stepsWith ArrayIteratorNext hosts heap this).2.countP isNonTerminal
          : Nat)) := by
  intro hosts
  induction hosts with
  | nil =>
    intro heap this c _ hc _
    simpa [stepsWith] using hc
  | cons host hosts ih =>
    intro heap this c hI hc hall
    rw [stepsWith_cons] at hall ⊢
    simp only [List.all_cons, Bool.and_eq_true] at hall
    obtain ⟨hn, hall⟩ := hall
    have hI1 : IsArrayIterator (ArrayIteratorNext host heap this).1 this = .ok true := by
      rw [IsArrayIterator_of_overwrites (ArrayIteratorNext_overwrites host heap this)]
      exact hI
    rcases ArrayIteratorNext_cursor host hI hc with ⟨hc1, hres⟩ | ⟨hc1, hres⟩
    · have hnt : isNonTerminal (ArrayIteratorNext host heap this).2 = false := by
        rcases hres with h | ⟨e, h⟩
        · rw [h]
          rfl
        · rw [h]
          rfl
      rw [ih _ this c hI1 hc1 hall]
      simp [List.countP_cons, hnt]
    · have hnt : isNonTerminal (ArrayIteratorNext host heap this).2 = true := by
        rcases hres with ⟨v, h⟩ | ⟨e, h⟩
        · rw [h]
          rfl
        · rw [h] at hn
          simp [isNormal] at hn
      rw [ih _ this (c + 1) hI1 hc1 hall]
      simp only [List.countP_cons, hnt, if_true]
      congr 1
      push_cast
      ring

theorem fromCharCode_string (v : Value) : ∃ x, fromCharCode v = .string [x] := by
  cases v <;> exact ⟨_, rfl⟩

theorem stringIteratorResult_length (a b c : Value) :
    ∃ l, stringIteratorResult a b c = .string l ∧ (l.length = 1 ∨ l.length = 2) := by
  unfold stringIteratorResult
  simp only []
  split_ifs
  · obtain ⟨x, hx⟩ := fromCharCode_string (charCodeAt a b)
    exact ⟨[x], hx, Or.inl rfl⟩
  · obtain ⟨x, hx⟩ := fromCharCode_string (charCodeAt a b)
    exact ⟨[x], hx, Or.inl rfl⟩
  · obtain ⟨x, hx⟩ := fromCharCode_string (charCodeAt a b)
    obtain ⟨y, hy⟩ := fromCharCode_string (charCodeAt a (b.add (.number 1)))
    exact ⟨[x, y], by rw [hx, hy]; rfl, Or.inr rfl⟩

/-- A non-terminal step of a string iterator with cursor `p` moves the cursor to
`p + 1` or `p + 2`. -/
theorem StringIteratorNext_cursor {heap : Heap} {this : Value} {p : Int} {res : IterResult}
    (hI : IsStringIterator heap this = .ok true)
    (hp : heap.read this STRING_ITERATOR_NEXT_INDEX_ID = .number p)
    (h : (StringIteratorNext heap this).2 = .ok res) (hd : res.done = false) :
    (StringIteratorNext heap this).1.read this STRING_ITERATOR_NEXT_INDEX_ID = .number (p + 1) ∨
    (StringIteratorNext heap this).1.read this STRING_ITERATOR_NEXT_INDEX_ID =
      .number (p + 2) := by
  obtain ⟨r, o, target, idx, rfl, hr, ht, hi⟩ := IsStringIterator_ok_true hI
  have hidx : idx = .number p := by
    rw [Heap.read_object _ hr] at hp
    simpa [JSObject.get, STRING_ITERATOR_NEXT_INDEX_ID, hi] using hp
  subst hidx
  rw [StringIteratorNext_object hr ht hi] at h ⊢
  split_ifs at h ⊢
  · simp only [Except.ok.injEq] at h
    rw [← h] at hd
    simp [CreateIterResultObject] at hd
  · simp only [Except.ok.injEq] at h
    rw [← h] at hd
    simp [CreateIterResultObject] at hd
  · obtain ⟨l, hl, hlen⟩ := stringIteratorResult_length target (.number p) target.length
    rw [Heap.read_object _ (Heap.getElem?_set_same _ _ _ _ hr), hl]
    have hlen2 : (Value.string l).length = .number l.length := rfl
    simp only [JSObject.get, JSObject.set, STRING_ITERATOR_NEXT_INDEX_ID, Option.getD_some,
      hlen2, Value.add]
    rcases hlen with h1 | h2
    · left
      rw [h1]
      rfl
    · right
      rw [h2]
      rfl

/-! ## Completeness of the slots -/

theorem Heap.HasHiddenKey_append (heap : Heap) (o : JSObject) (v : Value) (k : HiddenKey) :
    Heap.HasHiddenKey (heap ++ [o]) v k =
      (heap.HasHiddenKey v k || (decide (v = .object heap.length) && (o.get k).isSome)) := by
  cases v with
  | object r =>
    rcases Nat.lt_trichotomy r heap.length with h | h | h
    · have hne : r ≠ heap.length := Nat.ne_of_lt h
      simp [Heap.HasHiddenKey, List.getElem?_append_left h, hne]
    · subst h
      simp [Heap.HasHiddenKey]
    · have hne : r ≠ heap.length := Nat.ne_of_gt h
      have h1 : (heap ++ [o])[r]? = none := by
        apply List.getElem?_eq_none
        simp
        omega
      have h2 : heap[r]? = none := List.getElem?_eq_none (by omega)
      simp [Heap.HasHiddenKey, h1, h2, hne]
  | _ => simp [Heap.HasHiddenKey]

theorem Heap.Complete.append {heap : Heap} (hc : heap.Complete) (o : JSObject)
    (h1 : o.ArrayIterationKind.isSome = true →
      o.IteratedObject.isSome = true ∧ o.IteratorNextIndex.isSome = true)
    (h2 : o.SetIterationKind.isSome = true →
      o.IteratedObject.isSome = true ∧ o.IteratorNextIndex.isSome = true)
    (h3 : o.MapIterationKind.isSome = true →
      o.IteratedObject.isSome = true ∧ o.IteratorNextIndex.isSome = true)
    (h4 : o.IteratedString.isSome = true → o.StringIteratorNextIndex.isSome = true) :
    Heap.Complete (heap ++ [o]) := by
  intro v
  obtain ⟨c1, c2, c3, c4⟩ := hc v
  simp only [Heap.HasHiddenKey_append, Bool.or_eq_true, Bool.and_eq_true, decide_eq_true_eq,
    ARRAY_ITERATION_KIND_ID, SET_ITERATION_KIND_ID, MAP_ITERATION_KIND_ID, ITERATED_STRING_ID,
    ITERATED_OBJECT_ID, ITERATOR_NEXT_INDEX_ID, STRING_ITERATOR_NEXT_INDEX_ID, JSObject.get]
    at c1 c2 c3 c4 ⊢
  refine ⟨?_, ?_, ?_, ?_⟩
  · rintro (h | ⟨hv, h⟩)
    · exact ⟨Or.inl (c1 h).1, Or.inl (c1 h).2⟩
    · exact ⟨Or.inr ⟨hv, (h1 h).1⟩, Or.inr ⟨hv, (h1 h).2⟩⟩
  · rintro (h | ⟨hv, h⟩)
    · exact ⟨Or.inl (c2 h).1, Or.inl (c2 h).2⟩
    · exact ⟨Or.inr ⟨hv, (h2 h).1⟩, Or.inr ⟨hv, (h2 h).2⟩⟩
  · rintro (h | ⟨hv, h⟩)
    · exact ⟨Or.inl (c3 h).1, Or.inl (c3 h).2⟩
    · exact ⟨Or.inr ⟨hv, (h3 h).1⟩, Or.inr ⟨hv, (h3 h).2⟩⟩
  · rintro (h | ⟨hv, h⟩)
    · exact Or.inl (c4 h)
    · exact Or.inr ⟨hv, h4 h⟩

theorem Heap.Complete.of_overwrites {this : Value} {keys : List HiddenKey} {heap heap1 : Heap}
    (hc : heap.Complete) (h : Heap.Overwrites this keys heap heap1) : heap1.Complete := by
  intro v
  simp only [h.hasKey]
  exact hc v

theorem Reachable.complete {heap : Heap} (h : Reachable heap) : heap.Complete := by
  induction h with
  | empty =>
    intro v
    cases v <;> simp [Heap.HasHiddenKey]
  | alloc heap _ ih =>
    exact ih.append JSObject.empty (by simp [JSObject.empty]) (by simp [JSObject.empty])
      (by simp [JSObject.empty]) (by simp [JSObject.empty])
  | createArray heap array kind _ ih =>
    rw [CreateArrayIterator_eq]
    exact ih.append _ (by simp [JSObject.set]) (by simp [JSObject.set, JSObject.empty])
      (by simp [JSObject.set, JSObject.empty]) (by simp [JSObject.set, JSObject.empty])
  | createSet host heap t kind _ ih =>
    cases ho : t.isObject with
    | false =>
      have : CreateSetIterator host heap t kind = (heap, .error .RequireObjectTypeError) := by
        simp [CreateSetIterator, RequireObject, ho]
      rw [this]
      exact ih
    | true =>
      cases hs : host.IsSet t with
      | false =>
        have : CreateSetIterator host heap t kind =
            (heap, .error (.TypeError "not a Set")) := by
          simp [CreateSetIterator, RequireObject, ho, hs]
        rw [this]
        exact ih
      | true =>
        rw [CreateSetIterator_eq host heap t kind ho hs]
        exact ih.append _ (by simp [JSObject.set, JSObject.empty]) (by simp [JSObject.set])
          (by simp [JSObject.set, JSObject.empty]) (by simp [JSObject.set, JSObject.empty])
  | createMap host heap t kind _ ih =>
    cases ho : t.isObject with
    | false =>
      have : CreateMapIterator host heap t kind = (heap, .error .RequireObjectTypeError) := by
        simp [CreateMapIterator, RequireObject, ho]
      rw [this]
      exact ih
    | true =>
      cases hs : host.IsMap t with
      | false =>
        have : CreateMapIterator host heap t kind =
            (heap, .error (.TypeError "not a Map")) := by
          simp [CreateMapIterator, RequireObject, ho, hs]
        rw [this]
        exact ih
      | true =>
        rw [CreateMapIterator_eq host heap t kind ho hs]
        exact ih.append _ (by simp [JSObject.set, JSObject.empty])
          (by simp [JSObject.set, JSObject.empty]) (by simp [JSObject.set])
          (by simp [JSObject.set, JSObject.empty])
  | createString heap string _ ih =>
    cases string with
    | string s =>
      rw [CreateStringIterator_eq]
      exact ih.append _ (by simp [JSObject.set, JSObject.empty])
        (by simp [JSObject.set, JSObject.empty]) (by simp [JSObject.set, JSObject.empty])
        (by simp [JSObject.set])
    | _ => exact ih
  | arrayNext host heap this _ ih => exact ih.of_overwrites (ArrayIteratorNext_overwrites _ _ _)
  | setNext host heap this _ ih => exact ih.of_overwrites (SetIteratorNext_overwrites _ _ _)
  | mapNext host heap this _ ih => exact ih.of_overwrites (MapIteratorNext_overwrites _ _ _)
  | stringNext heap this _ ih => exact ih.of_overwrites (StringIteratorNext_overwrites _ _)

/-! ## The entry log of a keyed collection -/

theorem nextLive_none {l : List Slot} {i : Nat} (h : nextLive l i = none) :
    l.filter (fun s => s.live) = [] := by
  induction l generalizing i with
  | nil => rfl
  | cons s rest ih =>
    unfold nextLive at h
    split_ifs at h with hl
    simp only [Bool.not_eq_true] at hl
    simp [hl, ih h]

theorem nextLive_some {l : List Slot} {i j : Nat} (h : nextLive l i = some j) :
    ∃ k s, j = i + k ∧ l[k]? = some s ∧ s.live = true ∧
      l.filter (fun s => s.live) = s :: (l.drop (k + 1)).filter (fun s => s.live) := by
  induction l generalizing i with
  | nil => simp [nextLive] at h
  | cons s rest ih =>
    unfold nextLive at h
    split_ifs at h with hl
    · simp only [Option.some.injEq] at h
      exact ⟨0, s, by omega, by simp, hl, by simp [hl]⟩
    · obtain ⟨k, s2, hj, hk, hlive, hf⟩ := ih h
      simp only [Bool.not_eq_true] at hl
      exact ⟨k + 1, s2, by omega, by simpa using hk, hlive, by simpa [hl] using hf⟩

theorem Log.liveAfter_delete (log : Log) (key : Value) (c : Int) :
    (log.delete key).liveAfter c = (log.liveAfter c).filter (fun s => decide (s.key ≠ key)) := by
  unfold Log.liveAfter Log.delete
  rw [← List.map_drop]
  generalize log.drop (c + 1).toNat = l
  induction l with
  | nil => rfl
  | cons s rest ih =>
    by_cases hk : s.key = key
    · by_cases hl : s.live = true
      · simp [hk, hl, ih]
      · simp [hk, hl, ih]
    · by_cases hl : s.live = true
      · simp [hk, hl, ih]
      · simp [hk, hl, ih]

theorem Log.liveAfter_insert (log : Log) (key value : Value) (c : Int)
    (hc : (c + 1).toNat ≤ log.length) :
    (log.insert key value).liveAfter c =
      log.liveAfter c ++ [{ key := key, value := value, live := true }] := by
  unfold Log.liveAfter Log.insert
  rw [List.drop_append_of_le_length hc]
  simp

theorem keyedStep_set_values :
    KeyedStep SetIteratorNext SET_ITERATION_KIND_ID (.number ITERATION_KIND_VALUE)
      (fun k _ => k) := by
  intro host heap r o target idx hr hk ht hi
  rw [SetIteratorNext_object host hr hk ht hi]
  by_cases hu : target = .undefined
  · simp [hu, terminalResult]
  · cases ha : (host.AdvanceMapCursor target idx).1 <;> simp [hu, ha, terminalResult]

theorem keyedStep_set_entries :
    KeyedStep SetIteratorNext SET_ITERATION_KIND_ID (.number ITERATION_KIND_KEY_PLUS_VALUE)
      (fun k _ => .array2 k k) := by
  intro host heap r o target idx hr hk ht hi
  rw [SetIteratorNext_object host hr hk ht hi]
  by_cases hu : target = .undefined
  · simp [hu, terminalResult]
  · cases ha : (host.AdvanceMapCursor target idx).1 <;>
      simp [hu, ha, terminalResult, ITERATION_KIND_VALUE_eq, ITERATION_KIND_KEY_PLUS_VALUE_eq]

theorem keyedStep_map_keys :
    KeyedStep MapIteratorNext MAP_ITERATION_KIND_ID (.number ITERATION_KIND_KEY)
      (fun k _ => k) := by
  intro host heap r o target idx hr hk ht hi
  rw [MapIteratorNext_object host hr hk ht hi]
  by_cases hu : target = .undefined
  · simp [hu, terminalResult]
  · cases ha : (host.AdvanceMapCursor target idx).1 <;> simp [hu, ha, terminalResult]

theorem keyedStep_map_values :
    KeyedStep MapIteratorNext MAP_ITERATION_KIND_ID (.number ITERATION_KIND_VALUE)
      (fun _ v => v) := by
  intro host heap r o target idx hr hk ht hi
  rw [MapIteratorNext_object host hr hk ht hi]
  by_cases hu : target = .undefined
  · simp [hu, terminalResult]
  · cases ha : (host.AdvanceMapCursor target idx).1 <;>
      simp [hu, ha, terminalResult, ITERATION_KIND_KEY_eq, ITERATION_KIND_VALUE_eq]

theorem keyedStep_map_entries :
    KeyedStep MapIteratorNext MAP_ITERATION_KIND_ID (.number ITERATION_KIND_KEY_PLUS_VALUE)
      (fun k v => .array2 k v) := by
  intro host heap r o target idx hr hk ht hi
  rw [MapIteratorNext_object host hr hk ht hi]
  by_cases hu : target = .undefined
  · simp [hu, terminalResult]
  · cases ha : (host.AdvanceMapCursor target idx).1 <;>
      simp [hu, ha, terminalResult, ITERATION_KIND_KEY_eq, ITERATION_KIND_VALUE_eq,
        ITERATION_KIND_KEY_PLUS_VALUE_eq]

theorem JSObject.get_set_ne (o : JSObject) {k k2 : HiddenKey} (x : Value) (h : k2 ≠ k) :
    (o.set k x).get k2 = o.get k2 := by
  rw [JSObject.get_set, if_neg h]

/-- From a cursor standing on slot `c` of the log, `n + 1` steps with `n` at
least the number of live slots after `c` produce those slots in log order and
then only terminal results. -/
theorem keyed_run {next : Host → Heap → Value → Heap × Except JSError IterResult}
    {kindKey : HiddenKey} {kind : Value} {item : Value → Value → Value}
    (hstep : KeyedStep next kindKey kind item)
    (hkey : kindKey ≠ .IteratorNextIndex) (hkey2 : kindKey ≠ .IteratedObject)
    (coll : Value) (hne : coll ≠ .undefined) (log : Log) (setLike : Bool) (r : Nat) :
    ∀ (n : Nat) (c : Int) (heap : Heap) (o : JSObject),
      -1 ≤ c → (log.liveAfter c).length ≤ n →
      heap[r]? = some o → o.get kindKey = some kind →
      o.IteratedObject = some coll → o.IteratorNextIndex = some (.number c) →
      (stepsWith next (List.replicate (n + 1) (logHost coll log setLike)) heap (.object r)).2 =
        (log.liveAfter c).map (slotResult item)
          ++ List.replicate (n + 1 - (log.liveAfter c).length) (.ok terminalResult) := by
  intro n
  induction n with
  | zero =>
    intro c heap o hc hlen hr hk ht hi
    have hnil : log.liveAfter c = [] := List.length_eq_zero.mp (Nat.le_zero.mp hlen)
    have hnone : nextLive (log.drop (c + 1).toNat) (c + 1).toNat = none := by
      cases hnl : nextLive (log.drop (c + 1).toNat) (c + 1).toNat with
      | none => rfl
      | some j =>
        obtain ⟨k, s, -, -, -, hf⟩ := nextLive_some hnl
        unfold Log.liveAfter at hnil
        rw [hf] at hnil
        simp at hnil
    have hs := hstep (logHost coll log setLike) heap r o coll (.number c) hr hk ht hi
    rw [if_neg hne] at hs
    have hadv : (logHost coll log setLike).AdvanceMapCursor coll (.number c) =
        (false, .number c) := by
      simp [logHost, Log.advance, hnone]
    rw [hadv] at hs
    simp only [Bool.false_eq_true, if_false] at hs
    simp [stepsWith, hs, hnil]
  | succ n ih =>
    intro c heap o hc hlen hr hk ht hi
    have hs := hstep (logHost coll log setLike) heap r o coll (.number c) hr hk ht hi
    rw [if_neg hne] at hs
    cases hnl : nextLive (log.drop (c + 1).toNat) (c + 1).toNat with
    | none =>
      have hnil : log.liveAfter c = [] := nextLive_none hnl
      have hadv : (logHost coll log setLike).AdvanceMapCursor coll (.number c) =
          (false, .number c) := by
        simp [logHost, Log.advance, hnl]
      rw [hadv] at hs
      simp only [Bool.false_eq_true, if_false] at hs
      have hex : ∀ host2, next host2
          (heap.set r ((o.set .IteratorNextIndex (.number c)).set .IteratedObject .undefined))
          (.object r) =
            (heap.set r ((o.set .IteratorNextIndex (.number c)).set .IteratedObject .undefined),
              .ok terminalResult) := by
        intro host2
        have h2 := hstep host2 _ r _ .undefined (.number c)
          (Heap.getElem?_set_same heap r o
            ((o.set .IteratorNextIndex (.number c)).set .IteratedObject .undefined) hr)
          (by rw [JSObject.get_set_ne _ _ hkey2, JSObject.get_set_ne _ _ hkey, hk])
          (by simp [JSObject.set]) (by simp [JSObject.set])
        rw [if_pos rfl] at h2
        exact h2
      rw [List.replicate_succ, stepsWith_cons, hs]
      simp only []
      rw [stepsWith_const next _ (.object r) _ hex]
      simp [hnil, List.replicate_succ]
    | some j =>
      obtain ⟨k, s, hj, hks, hlive, hf⟩ := nextLive_some hnl
      have hq : (c + 1).toNat + k = j := hj.symm
      have hsj : log[j]? = some s := by
        rw [← hq]
        simpa [List.getElem?_drop] using hks
      have hadv : (logHost coll log setLike).AdvanceMapCursor coll (.number c) =
          (true, .number j) := by
        simp [logHost, Log.advance, hnl]
      have hkv : (logHost coll log setLike).GetKeyFromMapCursor coll (.number j) = s.key ∧
          (logHost coll log setLike).GetValueFromMapCursor coll (.number j) = s.value := by
        simp [logHost, Log.keyAt, Log.valueAt, Log.slotAt, hsj]
      have hla : log.liveAfter c = s :: log.liveAfter j := by
        unfold Log.liveAfter
        rw [hf, List.drop_drop]
        have : ((j : Int) + 1).toNat = (c + 1).toNat + (k + 1) := by omega
        rw [this]
      rw [hadv] at hs
      simp only [if_true, hkv.1, hkv.2] at hs
      have hlen2 : (log.liveAfter (j : Int)).length ≤ n := by
        rw [hla] at hlen
        simpa using hlen
      have hrec := ih (j : Int) (heap.set r (o.set .IteratorNextIndex (.number j)))
        (o.set .IteratorNextIndex (.number j)) (by omega) hlen2
        (Heap.getElem?_set_same _ _ _ _ hr)
        (by rw [JSObject.get_set_ne _ _ hkey, hk])
        (by simpa [JSObject.set] using ht) (by simp [JSObject.set])
      rw [List.replicate_succ, stepsWith_cons, hs]
      simp only []
      rw [hrec, hla]
      simp [slotResult]

theorem mutationTolerant_of_keyedStep
    {next : Host → Heap → Value → Heap × Except JSError IterResult}
    {kindKey : HiddenKey} {kind : Value} {item : Value → Value → Value}
    (hstep : KeyedStep next kindKey kind item)
    (hkey : kindKey ≠ .IteratorNextIndex) (hkey2 : kindKey ≠ .IteratedObject)
    (setLike : Bool) : MutationTolerant next kindKey kind item setLike := by
  intro coll log key n c heap r o hne hc hn hr hk ht hi
  have hdel := Log.liveAfter_delete log key c
  have hrun := keyed_run hstep hkey hkey2 coll hne (log.delete key) setLike r n c heap o hc
    (by rw [hdel]; exact hn) hr hk ht hi
  rw [hdel] at hrun
  refine ⟨hrun, ?_⟩
  intro hall
  have hfil : (log.liveAfter c).filter (fun s => decide (s.key ≠ key)) = log.liveAfter c := by
    apply List.filter_eq_self.mpr
    intro s hs
    simpa using hall s hs
  rw [hfil] at hrun hn
  rw [hrun, keyed_run hstep hkey hkey2 coll hne log setLike r n c heap o hc hn hr hk ht hi]

theorem lateInsertionVisible_of_keyedStep
    {next : Host → Heap → Value → Heap × Except JSError IterResult}
    {kindKey : HiddenKey} {kind : Value} {item : Value → Value → Value}
    (hstep : KeyedStep next kindKey kind item)
    (hkey : kindKey ≠ .IteratorNextIndex) (hkey2 : kindKey ≠ .IteratedObject)
    (setLike : Bool) : LateInsertionVisible next kindKey kind item setLike := by
  intro coll log key value n c heap r o hne hc hcl hn hr hk ht hi
  have hins := Log.liveAfter_insert log key value c hcl
  have hrun := keyed_run hstep hkey hkey2 coll hne (log.insert key value) setLike r n c heap o
    hc (by rw [hins]; simpa using hn) hr hk ht hi
  rw [hins] at hrun
  rw [hrun]
  simp

/-! ## Runs only overwrite slots of their receiver -/

theorem Heap.Overwrites.trans {this : Value} {keys : List HiddenKey} {heap heap1 heap2 : Heap}
    (h1 : Heap.Overwrites this keys heap heap1) (h2 : Heap.Overwrites this keys heap1 heap2) :
    Heap.Overwrites this keys heap heap2 := by
  induction h2 with
  | refl => exact h1
  | write k x hk hp _ ih => exact Heap.Overwrites.write k x hk hp ih

theorem stepsWith_overwrites {next : Host → Heap → Value → Heap × Except JSError IterResult}
    {keys : List HiddenKey}
    (h : ∀ host heap this, Heap.Overwrites this keys heap (next host heap this).1) :
    ∀ (hosts : List Host) (heap : Heap) (this : Value),
      Heap.Overwrites this keys heap (stepsWith next hosts heap this).1 := by
  intro hosts
  induction hosts with
  | nil => intro heap this; exact Heap.Overwrites.refl heap
  | cons host hosts ih =>
    intro heap this
    rw [stepsWith_cons]
    exact (h host heap this).trans (ih _ this)

theorem SetIteratorNext_reject {heap : Heap} {this : Value} (host : Host)
    (h : heap.HasHiddenKey this SET_ITERATION_KIND_ID = false) :
    SetIteratorNext host heap this = (heap, .error (.TypeError "not a Set Iterator")) := by
  rcases SetIteratorNext_cases host heap this with ⟨-, hn⟩ | ⟨hm, -⟩
  · exact hn
  · rw [h] at hm
    cases hm

theorem MapIteratorNext_reject {heap : Heap} {this : Value} (host : Host)
    (h : heap.HasHiddenKey this MAP_ITERATION_KIND_ID = false) :
    MapIteratorNext host heap this = (heap, .error (.TypeError "not a Map Iterator")) := by
  rcases MapIteratorNext_cases host heap this with ⟨-, hn⟩ | ⟨hm, -⟩
  · exact hn
  · rw [h] at hm
    cases hm

theorem ArrayIteratorNext_reject {heap : Heap} {this : Value} (host : Host)
    (h : heap.HasHiddenKey this ARRAY_ITERATION_KIND_ID = false) :
    ArrayIteratorNext host heap this = (heap, .error (.TypeError "not an Array Iterator")) := by
  rcases ArrayIteratorNext_cases host heap this with
    ⟨-, hn⟩ | ⟨hm, -, -⟩ | ⟨hI, -⟩ | ⟨hI, -⟩
  · exact hn
  · rw [h] at hm
    cases hm
  · rw [IsArrayIterator_marker hI] at h
    cases h
  · rw [IsArrayIterator_marker hI] at h
    cases h

/-! ## The assertions of the step operations -/

theorem arrayLength_ne_assert (host : Host) (a : Value) :
    arrayLength host a ≠ .error .AssertionFailed := by
  rcases arrayLength_cases host a with ⟨-, -, h⟩ | ⟨-, ⟨v, h⟩ | ⟨l, h⟩⟩ <;>
    · rw [h]
      simp

theorem ArrayIteratorNext_no_assert (host : Host) {heap : Heap} {this : Value}
    (hI : IsArrayIterator heap this = .ok true)
    (hk : IsIterationKind (heap.read this ARRAY_ITERATION_KIND_ID)) :
    (ArrayIteratorNext host heap this).2 ≠ .error .AssertionFailed := by
  obtain ⟨r, o, kind, target, idx, rfl, hr, hkind, ht, hi⟩ := IsArrayIterator_ok_true hI
  have hreadk : Heap.read heap (.object r) ARRAY_ITERATION_KIND_ID = kind := by
    simp [Heap.read_object _ hr, JSObject.get, ARRAY_ITERATION_KIND_ID, hkind]
  rw [hreadk] at hk
  rw [ArrayIteratorNext_object host hr hkind ht hi]
  by_cases htu : target = .undefined
  · simp [htu]
  · rw [if_neg htu]
    cases hlen : arrayLength host target with
    | error e =>
      have := arrayLength_ne_assert host target
      rw [hlen] at this
      simpa using this
    | ok length =>
      simp only []
      by_cases hge : idx.ge length = true
      · simp [hge]
      · rw [if_neg hge]
        by_cases hkey : kind = .number ITERATION_KIND_KEY
        · simp [hkey]
        · rw [if_neg hkey]
          cases hread : host.GetIndex target idx with
          | error v => simp
          | ok x =>
            rcases hk with h | h | h
            · exact absurd h hkey
            · simp [h]
            · simp [h, ITERATION_KIND_VALUE_eq, ITERATION_KIND_KEY_PLUS_VALUE_eq]

theorem SetIteratorNext_no_assert (host : Host) {heap : Heap} {this : Value}
    (hI : IsSetIterator heap this = .ok true)
    (hk : IsSetIterationKind (heap.read this SET_ITERATION_KIND_ID)) :
    (SetIteratorNext host heap this).2 ≠ .error .AssertionFailed := by
  obtain ⟨r, o, kind, target, idx, rfl, hr, hkind, ht, hi⟩ := IsSetIterator_ok_true hI
  have hreadk : Heap.read heap (.object r) SET_ITERATION_KIND_ID = kind := by
    simp [Heap.read_object _ hr, JSObject.get, SET_ITERATION_KIND_ID, hkind]
  rw [hreadk] at hk
  rw [SetIteratorNext_object host hr hkind ht hi]
  by_cases htu : target = .undefined
  · simp [htu]
  · rw [if_neg htu]
    simp only []
    cases hadv : (host.AdvanceMapCursor target idx).1 with
    | false => simp
    | true =>
      rcases hk with h | h
      · simp [h]
      · simp [h, ITERATION_KIND_VALUE_eq, ITERATION_KIND_KEY_PLUS_VALUE_eq]

theorem MapIteratorNext_no_assert (host : Host) {heap : Heap} {this : Value}
    (hI : IsMapIterator heap this = .ok true)
    (hk : IsIterationKind (heap.read this MAP_ITERATION_KIND_ID)) :
    (MapIteratorNext host heap this).2 ≠ .error .AssertionFailed := by
  obtain ⟨r, o, kind, target, idx, rfl, hr, hkind, ht, hi⟩ := IsMapIterator_ok_true hI
  have hreadk : Heap.read heap (.object r) MAP_ITERATION_KIND_ID = kind := by
    simp [Heap.read_object _ hr, JSObject.get, MAP_ITERATION_KIND_ID, hkind]
  rw [hreadk] at hk
  rw [MapIteratorNext_object host hr hkind ht hi]
  by_cases htu : target = .undefined
  · simp [htu]
  · rw [if_neg htu]
    simp only []
    cases hadv : (host.AdvanceMapCursor target idx).1 with
    | false => simp
    | true =>
      rcases hk with h | h | h
      · simp [h]
      · simp [h, ITERATION_KIND_KEY_eq, ITERATION_KIND_VALUE_eq]
      · simp [h, ITERATION_KIND_KEY_eq, ITERATION_KIND_VALUE_eq,
          ITERATION_KIND_KEY_PLUS_VALUE_eq]

theorem IsArrayIterator_of_complete {heap : Heap} (hc : heap.Complete) (v : Value) :
    IsArrayIterator heap v = .ok (heap.HasHiddenKey v ARRAY_ITERATION_KIND_ID) := by
  unfold IsArrayIterator
  cases hm : heap.HasHiddenKey v ARRAY_ITERATION_KIND_ID with
  | false => simp
  | true =>
    obtain ⟨h1, h2⟩ := (hc v).1 hm
    simp [h1, h2]

theorem IsSetIterator_of_complete {heap : Heap} (hc : heap.Complete) (v : Value) :
    IsSetIterator heap v = .ok (heap.HasHiddenKey v SET_ITERATION_KIND_ID) := by
  unfold IsSetIterator
  cases hm : heap.HasHiddenKey v SET_ITERATION_KIND_ID with
  | false => simp
  | true =>
    obtain ⟨h1, h2⟩ := (hc v).2.1 hm
    simp [h1, h2]

theorem IsMapIterator_of_complete {heap : Heap} (hc : heap.Complete) (v : Value) :
    IsMapIterator heap v = .ok (heap.HasHiddenKey v MAP_ITERATION_KIND_ID) := by
  unfold IsMapIterator
  cases hm : heap.HasHiddenKey v MAP_ITERATION_KIND_ID with
  | false => simp
  | true =>
    obtain ⟨h1, h2⟩ := (hc v).2.2.1 hm
    simp [h1, h2]

theorem IsStringIterator_of_complete {heap : Heap} (hc : heap.Complete) (v : Value) :
    IsStringIterator heap v = .ok (heap.HasHiddenKey v ITERATED_STRING_ID) := by
  unfold IsStringIterator
  cases hm : heap.HasHiddenKey v ITERATED_STRING_ID with
  | false => simp
  | true =>
    have h1 := (hc v).2.2.2 hm
    simp [h1]

theorem StringIteratorNext_no_assert {heap : Heap} {this : Value}
    (hI : IsStringIterator heap this = .ok true) :
    (StringIteratorNext heap this).2 ≠ .error .AssertionFailed := by
  obtain ⟨r, o, target, idx, rfl, hr, ht, hi⟩ := IsStringIterator_ok_true hI
  rw [StringIteratorNext_object hr ht hi]
  split_ifs <;> simp

theorem no_assert_of_valid {heap : Heap} (hc : heap.Complete) (hk : heap.KindsValid)
    (host : Host) (this : Value) :
    (ArrayIteratorNext host heap this).2 ≠ .error .AssertionFailed ∧
    (SetIteratorNext host heap this).2 ≠ .error .AssertionFailed ∧
    (MapIteratorNext host heap this).2 ≠ .error .AssertionFailed ∧
    (StringIteratorNext heap this).2 ≠ .error .AssertionFailed := by
  refine ⟨?_, ?_, ?_, ?_⟩
  · cases hm : heap.HasHiddenKey this ARRAY_ITERATION_KIND_ID with
    | false =>
      rw [ArrayIteratorNext_reject host hm]
      simp
    | true =>
      have hI := IsArrayIterator_of_complete hc this
      rw [hm] at hI
      exact ArrayIteratorNext_no_assert host hI ((hk this).1 hm)
  · cases hm : heap.HasHiddenKey this SET_ITERATION_KIND_ID with
    | false =>
      rw [SetIteratorNext_reject host hm]
      simp
    | true =>
      have hI := IsSetIterator_of_complete hc this
      rw [hm] at hI
      exact SetIteratorNext_no_assert host hI ((hk this).2.1 hm)
  · cases hm : heap.HasHiddenKey this MAP_ITERATION_KIND_ID with
    | false =>
      rw [MapIteratorNext_reject host hm]
      simp
    | true =>
      have hI := IsMapIterator_of_complete hc this
      rw [hm] at hI
      exact MapIteratorNext_no_assert host hI ((hk this).2.2 hm)
  · cases hm : heap.HasHiddenKey this ITERATED_STRING_ID with
    | false =>
      rcases StringIteratorNext_cases heap this with ⟨-, hn⟩ | ⟨hm2, -⟩
      · rw [hn]
        simp
      · rw [hm] at hm2
        cases hm2
    | true =>
      have hI := IsStringIterator_of_complete hc this
      rw [hm] at hI
      exact StringIteratorNext_no_assert hI

/-! ## Validity of the kind slots -/

theorem Heap.read_append (heap : Heap) (o : JSObject) (v : Value) (k : HiddenKey) :
    Heap.read (heap ++ [o]) v k =
      if v = .object heap.length then (o.get k).getD .undefined else heap.read v k := by
  cases v with
  | object r =>
    rcases Nat.lt_trichotomy r heap.length with h | h | h
    · have hne : r ≠ heap.length := Nat.ne_of_lt h
      simp [Heap.read, List.getElem?_append_left h, hne]
    · subst h
      simp [Heap.read]
    · have hne : r ≠ heap.length := Nat.ne_of_gt h
      have h1 : (heap ++ [o])[r]? = none := by
        apply List.getElem?_eq_none
        simp
        omega
      have h2 : heap[r]? = none := List.getElem?_eq_none (by omega)
      simp [Heap.read, h1, h2, hne]
  | _ => simp [Heap.read]

theorem Heap.HasHiddenKey_lt {heap : Heap} {v : Value} {k : HiddenKey}
    (h : heap.HasHiddenKey v k = true) : v ≠ .object heap.length := by
  rintro rfl
  have : heap[heap.length]? = none := List.getElem?_eq_none (le_refl _)
  simp [Heap.HasHiddenKey, this] at h

theorem Heap.KindsValid.extend {heap : Heap} (hk : heap.KindsValid) (o : JSObject)
    (h1 : ∀ kind, o.ArrayIterationKind = some kind → IsIterationKind kind)
    (h2 : ∀ kind, o.SetIterationKind = some kind → IsSetIterationKind kind)
    (h3 : ∀ kind, o.MapIterationKind = some kind → IsIterationKind kind) :
    Heap.KindsValid (heap ++ [o]) := by
  intro v
  obtain ⟨c1, c2, c3⟩ := hk v
  simp only [Heap.HasHiddenKey_append, Heap.read_append, Bool.or_eq_true, Bool.and_eq_true,
    decide_eq_true_eq]
  refine ⟨?_, ?_, ?_⟩
  · rintro (h | ⟨hv, h⟩)
    · rw [if_neg (Heap.HasHiddenKey_lt h)]
      exact c1 h
    · rw [if_pos hv]
      obtain ⟨kind, hkind⟩ := Option.isSome_iff_exists.mp h
      rw [hkind]
      exact h1 kind (by simpa [JSObject.get, ARRAY_ITERATION_KIND_ID] using hkind)
  · rintro (h | ⟨hv, h⟩)
    · rw [if_neg (Heap.HasHiddenKey_lt h)]
      exact c2 h
    · rw [if_pos hv]
      obtain ⟨kind, hkind⟩ := Option.isSome_iff_exists.mp h
      rw [hkind]
      exact h2 kind (by simpa [JSObject.get, SET_ITERATION_KIND_ID] using hkind)
  · rintro (h | ⟨hv, h⟩)
    · rw [if_neg (Heap.HasHiddenKey_lt h)]
      exact c3 h
    · rw [if_pos hv]
      obtain ⟨kind, hkind⟩ := Option.isSome_iff_exists.mp h
      rw [hkind]
      exact h3 kind (by simpa [JSObject.get, MAP_ITERATION_KIND_ID] using hkind)

theorem Heap.KindsValid.overwritten {this : Value} {keys : List HiddenKey} {heap heap1 : Heap}
    (hk : heap.KindsValid) (h : Heap.Overwrites this keys heap heap1)
    (h1 : ARRAY_ITERATION_KIND_ID ∉ keys) (h2 : SET_ITERATION_KIND_ID ∉ keys)
    (h3 : MAP_ITERATION_KIND_ID ∉ keys) : heap1.KindsValid := by
  intro v
  simp only [h.hasKey, h.read_of_not_mem v h1, h.read_of_not_mem v h2, h.read_of_not_mem v h3]
  exact hk v

/-! ## What the public entry points create -/

theorem CreateSetIterator_cases (host : Host) (heap : Heap) (t kind : Value) :
    (∃ e, CreateSetIterator host heap t kind = (heap, .error e)) ∨
    CreateSetIterator host heap t kind =
      (heap ++ [((JSObject.empty.set .IteratedObject t).set .IteratorNextIndex
          (host.GetMapCursor t)).set .SetIterationKind kind], .ok (.object heap.length)) := by
  cases ho : t.isObject with
  | false =>
    left
    exact ⟨.RequireObjectTypeError, by simp [CreateSetIterator, RequireObject, ho]⟩
  | true =>
    cases hs : host.IsSet t with
    | false =>
      left
      exact ⟨.TypeError "not a Set", by simp [CreateSetIterator, RequireObject, ho, hs]⟩
    | true =>
      right
      exact CreateSetIterator_eq host heap t kind ho hs

theorem CreateMapIterator_cases (host : Host) (heap : Heap) (t kind : Value) :
    (∃ e, CreateMapIterator host heap t kind = (heap, .error e)) ∨
    CreateMapIterator host heap t kind =
      (heap ++ [((JSObject.empty.set .IteratedObject t).set .IteratorNextIndex
          (host.GetMapCursor t)).set .MapIterationKind kind], .ok (.object heap.length)) := by
  cases ho : t.isObject with
  | false =>
    left
    exact ⟨.RequireObjectTypeError, by simp [CreateMapIterator, RequireObject, ho]⟩
  | true =>
    cases hs : host.IsMap t with
    | false =>
      left
      exact ⟨.TypeError "not a Map", by simp [CreateMapIterator, RequireObject, ho, hs]⟩
    | true =>
      right
      exact CreateMapIterator_eq host heap t kind ho hs

theorem arrayIteratorOf_cases (kind : Value) (host : Host) (heap : Heap) (this : Value) :
    (∃ e, arrayIteratorOf kind host heap this = (heap, .error e)) ∨
    ∃ array, arrayIteratorOf kind host heap this =
      (heap ++ [((JSObject.empty.set .IteratedObject array).set .IteratorNextIndex
          (.number 0)).set .ArrayIterationKind kind], .ok (.object heap.length)) := by
  unfold arrayIteratorOf
  cases host.ToObject this with
  | error v => exact Or.inl ⟨_, rfl⟩
  | ok array =>
    right
    refine ⟨array, ?_⟩
    simp only [CreateArrayIterator_eq]

theorem typedArrayIteratorOf_cases (kind : Value) (host : Host) (heap : Heap) (this : Value) :
    (∃ e, typedArrayIteratorOf kind host heap this = (heap, .error e)) ∨
    ∃ array, typedArrayIteratorOf kind host heap this =
      (heap ++ [((JSObject.empty.set .IteratedObject array).set .IteratorNextIndex
          (.number 0)).set .ArrayIterationKind kind], .ok (.object heap.length)) := by
  unfold typedArrayIteratorOf
  cases ValidateTypedArray host this with
  | error e => exact Or.inl ⟨_, rfl⟩
  | ok array =>
    right
    refine ⟨array, ?_⟩
    simp only [CreateArrayIterator_eq]

theorem ArrayPrototype_eq (m : MethodName) :
    ArrayPrototype m = arrayIteratorOf (.number (sequenceKindOf m)) := by
  cases m <;> rfl

theorem TypedArrayPrototype_eq (m : MethodName) :
    TypedArrayPrototype m = typedArrayIteratorOf (.number (sequenceKindOf m)) := by
  cases m <;> rfl

theorem SetPrototype_eq (m : MethodName) (host : Host) (heap : Heap) (this : Value) :
    SetPrototype m host heap this =
      CreateSetIterator host heap this (.number (setKindOf m)) := by
  cases m <;> rfl

theorem MapPrototype_eq (m : MethodName) (host : Host) (heap : Heap) (this : Value) :
    MapPrototype m host heap this =
      CreateMapIterator host heap this (.number (mapKindOf m)) := by
  cases m <;> rfl

theorem isIterationKind_sequenceKindOf (m : MethodName) :
    IsIterationKind (.number (sequenceKindOf m)) := by
  cases m <;> simp [IsIterationKind, sequenceKindOf]

theorem isIterationKind_mapKindOf (m : MethodName) :
    IsIterationKind (.number (mapKindOf m)) := by
  cases m <;> simp [IsIterationKind, mapKindOf]

theorem isSetIterationKind_setKindOf (m : MethodName) :
    IsSetIterationKind (.number (setKindOf m)) := by
  cases m <;> simp [IsSetIterationKind, setKindOf]

theorem PublicReachable.reachable {heap : Heap} (h : PublicReachable heap) : Reachable heap := by
  induction h with
  | empty => exact Reachable.empty
  | alloc heap _ ih => exact Reachable.alloc heap ih
  | array m host heap this _ ih =>
    rw [ArrayPrototype_eq]
    unfold arrayIteratorOf
    cases host.ToObject this with
    | error v => exact ih
    | ok array => exact Reachable.createArray heap array _ ih
  | typedArray m host heap this _ ih =>
    rw [TypedArrayPrototype_eq]
    unfold typedArrayIteratorOf
    cases ValidateTypedArray host this with
    | error e => exact ih
    | ok array => exact Reachable.createArray heap array _ ih
  | set m host heap this _ ih =>
    rw [SetPrototype_eq]
    exact Reachable.createSet host heap this _ ih
  | map m host heap this _ ih =>
    rw [MapPrototype_eq]
    exact Reachable.createMap host heap this _ ih
  | string heap string _ ih => exact Reachable.createString heap string ih
  | arrayNext host heap this _ ih => exact Reachable.arrayNext host heap this ih
  | setNext host heap this _ ih => exact Reachable.setNext host heap this ih
  | mapNext host heap this _ ih => exact Reachable.mapNext host heap this ih
  | stringNext heap this _ ih => exact Reachable.stringNext heap this ih

theorem PublicReachable.kindsValid {heap : Heap} (h : PublicReachable heap) :
    heap.KindsValid := by
  induction h with
  | empty =>
    intro v
    cases v <;> simp [Heap.HasHiddenKey]
  | alloc heap _ ih =>
    exact ih.extend JSObject.empty (by simp [JSObject.empty]) (by simp [JSObject.empty])
      (by simp [JSObject.empty])
  | array m host heap this _ ih =>
    rw [ArrayPrototype_eq]
    rcases arrayIteratorOf_cases (.number (sequenceKindOf m)) host heap this with
      ⟨e, h⟩ | ⟨array, h⟩
    · rw [h]
      exact ih
    · rw [h]
      refine ih.extend _ ?_ (by simp [JSObject.set, JSObject.empty])
        (by simp [JSObject.set, JSObject.empty])
      intro kind hkind
      simp only [JSObject.set, Option.some.injEq] at hkind
      rw [← hkind]
      exact isIterationKind_sequenceKindOf m
  | typedArray m host heap this _ ih =>
    rw [TypedArrayPrototype_eq]
    rcases typedArrayIteratorOf_cases (.number (sequenceKindOf m)) host heap this with
      ⟨e, h⟩ | ⟨array, h⟩
    · rw [h]
      exact ih
    · rw [h]
      refine ih.extend _ ?_ (by simp [JSObject.set, JSObject.empty])
        (by simp [JSObject.set, JSObject.empty])
      intro kind hkind
      simp only [JSObject.set, Option.some.injEq] at hkind
      rw [← hkind]
      exact isIterationKind_sequenceKindOf m
  | set m host heap this _ ih =>
    rw [SetPrototype_eq]
    rcases CreateSetIterator_cases host heap this (.number (setKindOf m)) with ⟨e, h⟩ | h
    · rw [h]
      exact ih
    · rw [h]
      refine ih.extend _ (by simp [JSObject.set, JSObject.empty]) ?_
        (by simp [JSObject.set, JSObject.empty])
      intro kind hkind
      simp only [JSObject.set, Option.some.injEq] at hkind
      rw [← hkind]
      exact isSetIterationKind_setKindOf m
  | map m host heap this _ ih =>
    rw [MapPrototype_eq]
    rcases CreateMapIterator_cases host heap this (.number (mapKindOf m)) with ⟨e, h⟩ | h
    · rw [h]
      exact ih
    · rw [h]
      refine ih.extend _ (by simp [JSObject.set, JSObject.empty])
        (by simp [JSObject.set, JSObject.empty]) ?_
      intro kind hkind
      simp only [JSObject.set, Option.some.injEq] at hkind
      rw [← hkind]
      exact isIterationKind_mapKindOf m
  | string heap string _ ih =>
    cases string with
    | string s =>
      rw [CreateStringIterator_eq]
      exact ih.extend _ (by simp [JSObject.set, JSObject.empty])
        (by simp [JSObject.set, JSObject.empty]) (by simp [JSObject.set, JSObject.empty])
    | _ => exact ih
  | arrayNext host heap this _ ih =>
    exact ih.overwritten (ArrayIteratorNext_overwrites _ _ _) (by decide) (by decide)
      (by decide)
  | setNext host heap this _ ih =>
    exact ih.overwritten (SetIteratorNext_overwrites _ _ _) (by decide) (by decide)
      (by decide)
  | mapNext host heap this _ ih =>
    exact ih.overwritten (MapIteratorNext_overwrites _ _ _) (by decide) (by decide)
      (by decide)
  | stringNext heap this _ ih =>
    exact ih.overwritten (StringIteratorNext_overwrites _ _) (by decide) (by decide)
      (by decide)

/-! ## The chunks of a string -/

theorem codePoints_flatten : ∀ (n : Nat) (s : List Nat), s.length ≤ n →
    (codePoints s).flatten = s := by
  intro n
  induction n with
  | zero =>
    intro s hs
    have : s = [] := List.length_eq_zero.mp (Nat.le_zero.mp hs)
    subst this
    simp [codePoints]
  | succ n ih =>
    intro s hs
    match s, hs with
    | [], _ => simp [codePoints]
    | [u], _ => simp [codePoints]
    | u :: w :: rest, hs =>
      simp only [List.length_cons] at hs
      unfold codePoints
      split
      · have := ih rest (by omega)
        simp [this]
      · have := ih (w :: rest) (by simp only [List.length_cons]; omega)
        simp [this]

theorem codePoints_chunk_length : ∀ (n : Nat) (s : List Nat), s.length ≤ n →
    ∀ c ∈ codePoints s, c.length = 1 ∨ c.length = 2 := by
  intro n
  induction n with
  | zero =>
    intro s hs
    have : s = [] := List.length_eq_zero.mp (Nat.le_zero.mp hs)
    subst this
    simp [codePoints]
  | succ n ih =>
    intro s hs
    match s, hs with
    | [], _ => simp [codePoints]
    | [u], _ => simp [codePoints]
    | u :: w :: rest, hs =>
      simp only [List.length_cons] at hs
      unfold codePoints
      split
      · intro c hc
        rcases List.mem_cons.mp hc with rfl | hc
        · exact Or.inr rfl
        · exact ih rest (by omega) c hc
      · intro c hc
        rcases List.mem_cons.mp hc with rfl | hc
        · exact Or.inl rfl
        · exact ih (w :: rest) (by simp only [List.length_cons]; omega) c hc

theorem codePoints_length_ge : ∀ (n : Nat) (s : List Nat), s.length ≤ n →
    s.length ≤ 2 * (codePoints s).length := by
  intro n
  induction n with
  | zero =>
    intro s hs
    have : s = [] := List.length_eq_zero.mp (Nat.le_zero.mp hs)
    subst this
    simp [codePoints]
  | succ n ih =>
    intro s hs
    match s, hs with
    | [], _ => simp [codePoints]
    | [u], _ => simp [codePoints]
    | u :: w :: rest, hs =>
      simp only [List.length_cons] at hs
      unfold codePoints
      split
      · have := ih rest (by omega)
        simp only [List.length_cons]
        omega
      · have := ih (w :: rest) (by simp only [List.length_cons]; omega)
        simp only [List.length_cons] at this ⊢
        omega

theorem nonTerminalValues_run (chunks : List (List Nat)) (m : Nat) :
    nonTerminalValues
        (chunks.map (fun c => .ok (CreateIterResultObject (.string c) false))
          ++ List.replicate m (.ok terminalResult)) =
      chunks.map Value.string := by
  unfold nonTerminalValues
  rw [List.filterMap_append, List.filterMap_map, List.filterMap_replicate]
  simp only [terminalResult, CreateIterResultObject, Function.comp_def, if_true,
    List.append_nil, Bool.false_eq_true, if_false]
  induction chunks with
  | nil => rfl
  | cons c chunks ih => simp [ih]

theorem foldl_add_strings (chunks : List (List Nat)) :
    ∀ acc : List Nat,
      (chunks.map Value.string).foldl Value.add (.string acc) =
        .string (acc ++ chunks.flatten) := by
  induction chunks with
  | nil => intro acc; simp
  | cons c chunks ih =>
    intro acc
    simp only [List.map_cons, List.foldl_cons, Value.add, List.flatten_cons]
    rw [ih]
    simp

theorem concatValues_strings (chunks : List (List Nat)) :
    concatValues (chunks.map Value.string) = .string chunks.flatten := by
  unfold concatValues
  rw [foldl_add_strings]
  simp

/-! ## Bounds of the string cursor -/

theorem Value.looseEq_number (a b : Int) :
    (Value.number a).looseEq (.number b) = decide (a = b) := by
  simp [Value.looseEq]

theorem stringIteratorResult_bound {s : List Nat} {p : Nat} (hp : p < s.length) :
    ∃ l, stringIteratorResult (.string s) (.number p) (.number s.length) = .string l ∧
      (l.length = 1 ∨ (l.length = 2 ∧ p + 2 ≤ s.length)) := by
  obtain ⟨l, hl, hlen⟩ := stringIteratorResult_length (.string s) (.number p) (.number s.length)
  refine ⟨l, hl, ?_⟩
  rcases hlen with h1 | h2
  · exact Or.inl h1
  · refine Or.inr ⟨h2, ?_⟩
    by_contra hcon
    have hp1 : p + 1 = s.length := by omega
    have hres : stringIteratorResult (.string s) (.number p) (.number s.length) =
        fromCharCode (charCodeAt (.string s) (.number p)) := by
      unfold stringIteratorResult
      simp only [add_number_one, Value.looseEq_number, hp1]
      simp
    obtain ⟨x, hx⟩ := fromCharCode_string (charCodeAt (.string s) (.number p))
    rw [hres, hx] at hl
    simp only [Value.string.injEq] at hl
    rw [← hl] at h2
    simp at h2

theorem charCodeAtCalls_bound {s : List Nat} {p : Nat} (hp : p < s.length) :
    ∀ q ∈ charCodeAtCalls (.string s) (.number p) (.number s.length),
      ∃ (i u : Nat), q = .number i ∧ i < s.length ∧ s[i]? = some u ∧
        charCodeAt (.string s) q = .number u := by
  have h0 : ∃ (i u : Nat), Value.number (p : Int) = .number i ∧ i < s.length ∧
      s[i]? = some u ∧ charCodeAt (.string s) (.number (p : Int)) = .number u := by
    refine ⟨p, s[p], rfl, hp, List.getElem?_eq_getElem hp, ?_⟩
    rw [charCodeAt_nat, List.getElem?_eq_getElem hp]
  intro q hq
  unfold charCodeAtCalls at hq
  simp only [add_number_one, Value.looseEq_number] at hq
  split_ifs at hq with hc
  · simp only [List.mem_singleton] at hq
    rw [hq]
    exact h0
  · simp only [List.mem_cons, List.mem_singleton, List.not_mem_nil, or_false] at hq
    rcases hq with rfl | rfl
    · exact h0
    · simp only [Bool.or_eq_true, decide_eq_true_eq, not_or] at hc
      have hne : p + 1 ≠ s.length := fun h => hc.2 (by exact_mod_cast h)
      have hp1 : p + 1 < s.length := by omega
      refine ⟨p + 1, s[p + 1], rfl, hp1, List.getElem?_eq_getElem hp1, ?_⟩
      rw [charCodeAt_nat, List.getElem?_eq_getElem hp1]

theorem StringIteratorNext_live {s : List Nat} {heap : Heap} {r : Nat} {o : JSObject} {p : Nat}
    (hr : heap[r]? = some o) (ht : o.IteratedString = some (.string s))
    (hi : o.StringIteratorNextIndex = some (.number p)) (hp : p < s.length) :
    ∃ l, StringIteratorNext heap (.object r) =
        (heap.set r (o.set .StringIteratorNextIndex (.number ((p : Int) + (l.length : Nat)))),
          .ok (CreateIterResultObject (.string l) false)) ∧
      (l.length = 1 ∨ l.length = 2) ∧ p + l.length ≤ s.length := by
  obtain ⟨l, hl, hlen⟩ := stringIteratorResult_bound hp
  refine ⟨l, ?_, ?_, ?_⟩
  · have hge : (Value.number (p : Int)).ge (Value.string s).length = false := by
      simp [Value.ge, Value.length, hp]
    have hlen2 : (Value.string s).length = .number s.length := rfl
    rw [StringIteratorNext_object hr ht hi, if_neg (by simp), hge]
    simp only [Bool.false_eq_true, if_false]
    rw [hlen2, hl]
    simp [Value.length, Value.add]
  · rcases hlen with h | ⟨h, -⟩
    · exact Or.inl h
    · exact Or.inr h
  · rcases hlen with h | ⟨h, hb⟩
    · omega
    · omega

theorem StringIteratorNext_inBounds {s : List Nat} {heap : Heap} {r : Nat} {o : JSObject}
    (hr : heap[r]? = some o) (hb : StringInBounds s o) :
    ∃ o', (StringIteratorNext heap (.object r)).1[r]? = some o' ∧ StringInBounds s o' := by
  obtain ⟨ht, p, hi, hp0, hpl⟩ := hb
  obtain ⟨n, rfl⟩ := Int.eq_ofNat_of_zero_le hp0
  have hnl : n ≤ s.length := by exact_mod_cast hpl
  rcases ht with ht | ht
  · rcases Nat.lt_or_ge n s.length with hlt | hge
    · obtain ⟨l, hstep, -, hbound⟩ := StringIteratorNext_live hr ht hi hlt
      rw [hstep]
      refine ⟨_, Heap.getElem?_set_same heap r o _ hr, ?_, ?_⟩
      · left
        simpa [JSObject.set] using ht
      · refine ⟨(n : Int) + (l.length : Nat), by simp [JSObject.set], by omega, ?_⟩
        exact_mod_cast hbound
    · rw [StringIteratorNext_end hr ht hi hge]
      refine ⟨_, Heap.getElem?_set_same heap r o _ hr, ?_, ?_⟩
      · right
        simp [JSObject.set]
      · exact ⟨n, by simpa [JSObject.set] using hi, hp0, hpl⟩
  · rw [StringIteratorNext_exhausted hr ht hi]
    exact ⟨o, hr, Or.inr ht, n, hi, hp0, hpl⟩

theorem string_steps_inBounds {s : List Nat} {r : Nat} :
    ∀ (hosts : List Host) (heap : Heap) (o : JSObject),
      heap[r]? = some o → StringInBounds s o →
      ∃ o', (stepsWith StringIteratorNextIn hosts heap (.object r)).1[r]? = some o' ∧
        StringInBounds s o' := by
  intro hosts
  induction hosts with
  | nil => intro heap o hr hb; exact ⟨o, hr, hb⟩
  | cons host hosts ih =>
    intro heap o hr hb
    rw [stepsWith_cons]
    obtain ⟨o1, hr1, hb1⟩ := StringIteratorNext_inBounds hr hb
    exact ih _ o1 hr1 hb1

theorem StringIteratorNextCalls_bound {s : List Nat} {heap : Heap} {r : Nat} {o : JSObject}
    (hr : heap[r]? = some o) (hb : StringInBounds s o) :
    ∀ q ∈ StringIteratorNextCalls heap (.object r),
      ∃ (i u : Nat), q = .number i ∧ i < s.length ∧ s[i]? = some u ∧
        charCodeAt (.string s) q = .number u := by
  obtain ⟨ht, p, hi, hp0, hpl⟩ := hb
  obtain ⟨n, rfl⟩ := Int.eq_ofNat_of_zero_le hp0
  intro q hq
  unfold StringIteratorNextCalls at hq
  rcases ht with ht | ht
  · simp only [IsStringIterator_object hr ht hi, Heap.read_object _ hr, JSObject.get, ht, hi,
      ITERATED_STRING_ID, STRING_ITERATOR_NEXT_INDEX_ID, Option.getD_some] at hq
    rw [if_neg (by simp)] at hq
    have hsl : (Value.string s).length = .number s.length := rfl
    rw [hsl] at hq
    by_cases hlt : n < s.length
    · have hge : (Value.number (n : Int)).ge (.number s.length) = false := by
        simp [Value.ge, hlt]
      rw [hge] at hq
      simp only [Bool.false_eq_true, if_false] at hq
      exact charCodeAtCalls_bound hlt q hq
    · have hge : (Value.number (n : Int)).ge (.number s.length) = true := by
        simp only [Value.ge, decide_eq_true_eq]
        exact_mod_cast Nat.le_of_not_lt hlt
      rw [hge] at hq
      simp at hq
  · simp only [IsStringIterator_object hr ht hi, Heap.read_object _ hr, JSObject.get, ht, hi,
      ITERATED_STRING_ID, STRING_ITERATOR_NEXT_INDEX_ID, Option.getD_some] at hq
    simp at hq

/-! ## Steps whose reads run user code -/

theorem arrayLengthRe_toReentrant (host : Host) (heap : Heap) (a : Value) :
    arrayLengthRe host.toReentrant heap a = (heap, arrayLength host a) := by
  unfold arrayLengthRe arrayLength Host.toReentrant
  by_cases hv : host.IsArrayBufferView a = true
  · by_cases hd : host.HasDetachedBuffer a = true
    · simp [hv, hd]
    · simp [hv, hd]
  · simp only [hv, Bool.false_eq_true, if_false]
    cases host.GetLength a with
    | error v => rfl
    | ok l => rfl

theorem geRe_toReentrant (host : Host) (heap : Heap) (a b : Value) :
    geRe host.toReentrant heap a b = (heap, .ok (a.ge b)) := by
  cases a <;> cases b <;> rfl

theorem ArrayIteratorNextRe_toReentrant (host : Host) (heap : Heap) (this : Value) :
    ArrayIteratorNextRe host.toReentrant heap this = ArrayIteratorNext host heap this := by
  unfold ArrayIteratorNextRe ArrayIteratorNext
  simp only [arrayLengthRe_toReentrant, geRe_toReentrant]
  cases hI : IsArrayIterator heap this with
  | error e => rfl
  | ok b =>
    cases b with
    | false => rfl
    | true =>
      simp only []
      by_cases hu : heap.read this ITERATED_OBJECT_ID = .undefined
      · simp [hu]
      · simp only [if_neg hu]
        cases arrayLength host (heap.read this ITERATED_OBJECT_ID) with
        | error e => rfl
        | ok length =>
          simp only []
          cases hge : (heap.read this ITERATOR_NEXT_INDEX_ID).ge length with
          | true => simp
          | false =>
            simp only [Bool.false_eq_true, if_false]
            by_cases hk : heap.read this ARRAY_ITERATION_KIND_ID = .number ITERATION_KIND_KEY
            · simp [hk]
            · simp only [if_neg hk]
              rfl

theorem arrayLengthRe_leavesAlone {host : ReentrantHost} {this : Value}
    (hq : host.LeavesAlone this) (heap : Heap) (a : Value) :
    (arrayLengthRe host heap a).1.deref this = heap.deref this := by
  unfold arrayLengthRe
  by_cases hv : host.IsArrayBufferView a = true
  · by_cases hd : host.HasDetachedBuffer a = true
    · simp [hv, hd]
    · simp only [hv, hd, if_true, Bool.false_eq_true, if_false]
      exact (hq heap a a).1
  · simp only [hv, Bool.false_eq_true, if_false]
    cases hl : (host.GetLength heap a).2 with
    | error v => exact (hq heap a a).1
    | ok l =>
      simp only []
      rw [(hq (host.GetLength heap a).1 l l).2.1]
      exact (hq heap a a).1

theorem geRe_leavesAlone {host : ReentrantHost} {this : Value}
    (hq : host.LeavesAlone this) (heap : Heap) (a b : Value) :
    (geRe host heap a b).1.deref this = heap.deref this := by
  cases a <;> cases b <;> first | rfl | exact (hq heap _ _).2.2.2

theorem geRe_number (host : ReentrantHost) (heap : Heap) (x y : Int) :
    geRe host heap (.number x) (.number y) = (heap, .ok (decide (y ≤ x))) := rfl

theorem arrayLengthRe_typeError {host : ReentrantHost} {heap : Heap} {a : Value}
    {message : String} (h : (arrayLengthRe host heap a).2 = .error (.TypeError message)) :
    (arrayLengthRe host heap a).1 = heap := by
  unfold arrayLengthRe at h ⊢
  by_cases hv : host.IsArrayBufferView a = true
  · by_cases hd : host.HasDetachedBuffer a = true
    · simp [hv, hd]
    · simp only [hv, hd, if_true, Bool.false_eq_true, if_false] at h
      cases hl : (host.GetLength heap a).2 with
      | error v => rw [hl] at h; simp [liftHost] at h
      | ok l => rw [hl] at h; simp [liftHost] at h
  · simp only [hv, Bool.false_eq_true, if_false] at h
    cases hl : (host.GetLength heap a).2 with
    | error v => rw [hl] at h; simp at h
    | ok l =>
      rw [hl] at h
      simp only [] at h
      cases hl2 : (host.ToLength (host.GetLength heap a).1 l).2 with
      | error v => rw [hl2] at h; simp [liftHost] at h
      | ok l2 => rw [hl2] at h; simp [liftHost] at h

theorem ArrayIteratorNextRe_object (host : ReentrantHost) {heap : Heap} {r : Nat}
    {o : JSObject} {kind target idx : Value}
    (hr : heap[r]? = some o) (hk : o.ArrayIterationKind = some kind)
    (ht : o.IteratedObject = some target) (hi : o.IteratorNextIndex = some idx)
    (hq : host.LeavesAlone (.object r)) :
    ArrayIteratorNextRe host heap (.object r) =
      if target = .undefined then (heap, .ok (CreateIterResultObject .undefined true))
      else
        match (arrayLengthRe host heap target).2 with
        | .error e => ((arrayLengthRe host heap target).1, .error e)
        | .ok length =>
          match (geRe host (arrayLengthRe host heap target).1 idx length).2 with
          | .error v => ((geRe host (arrayLengthRe host heap target).1 idx length).1, .error (.hostThrow v))
          | .ok true =>
            ((geRe host (arrayLengthRe host heap target).1 idx length).1.set r (o.set .IteratedObject .undefined),
              .ok (CreateIterResultObject .undefined true))
          | .ok false =>
            if kind = .number ITERATION_KIND_KEY then
              (((geRe host (arrayLengthRe host heap target).1 idx length).1.set r
                  (o.set .IteratorNextIndex (idx.add (.number 1)))),
                .ok (CreateIterResultObject idx false))
            else
              match (host.GetIndex ((geRe host (arrayLengthRe host heap target).1 idx length).1.set r
                  (o.set .IteratorNextIndex (idx.add (.number 1)))) target idx).2 with
              | .error v =>
                ((host.GetIndex ((geRe host (arrayLengthRe host heap target).1 idx length).1.set r
                  (o.set .IteratorNextIndex (idx.add (.number 1)))) target idx).1,
                  .error (.hostThrow v))
              | .ok elementValue =>
                if kind = .number ITERATION_KIND_VALUE then
                  ((host.GetIndex ((geRe host (arrayLengthRe host heap target).1 idx length).1.set r
                  (o.set .IteratorNextIndex (idx.add (.number 1)))) target idx).1,
                    .ok (CreateIterResultObject elementValue false))
                else if kind = .number ITERATION_KIND_KEY_PLUS_VALUE then
                  ((host.GetIndex ((geRe host (arrayLengthRe host heap target).1 idx length).1.set r
                  (o.set .IteratorNextIndex (idx.add (.number 1)))) target idx).1,
                    .ok (CreateIterResultObject (.array2 idx elementValue) false))
                else
                  ((host.GetIndex ((geRe host (arrayLengthRe host heap target).1 idx length).1.set r
                  (o.set .IteratorNextIndex (idx.add (.number 1)))) target idx).1,
                    .error .AssertionFailed) := by
  have hL : (arrayLengthRe host heap target).1[r]? = some o := by
    have h := arrayLengthRe_leavesAlone hq heap target
    simp only [Heap.deref] at h
    rw [h, hr]
  have hC : ∀ length, (geRe host (arrayLengthRe host heap target).1 idx length).1[r]? =
      some o := by
    intro length
    have h := geRe_leavesAlone hq (arrayLengthRe host heap target).1 idx length
    simp only [Heap.deref] at h
    rw [h, hL]
  unfold ArrayIteratorNextRe
  simp only [IsArrayIterator_object hr hk ht hi, Heap.read_object _ hr,
    Heap.write_object _ _ (hC _), JSObject.get, hk, ht, hi,
    ARRAY_ITERATION_KIND_ID, ITERATED_OBJECT_ID, ITERATOR_NEXT_INDEX_ID, Option.getD_some]

theorem genuine_of_slots {heap : Heap} {r : Nat} {o : JSObject} {kind target : Value}
    {c : Int} (hr : heap[r]? = some o) (hk : o.ArrayIterationKind = some kind)
    (ht : o.IteratedObject = some target) (hi : o.IteratorNextIndex = some (.number c)) :
    IsArrayIterator heap (.object r) = .ok true ∧
      heap.read (.object r) ITERATOR_NEXT_INDEX_ID = .number c ∧
      heap.read (.object r) ARRAY_ITERATION_KIND_ID = kind := by
  refine ⟨IsArrayIterator_object hr hk ht hi, ?_, ?_⟩
  · simp [Heap.read_object _ hr, JSObject.get, ITERATOR_NEXT_INDEX_ID, hi]
  · simp [Heap.read_object _ hr, JSObject.get, ARRAY_ITERATION_KIND_ID, hk]

/-- A step of a genuine array iterator with cursor `c`, in a world whose reads
leave the iterator alone, leaves a genuine array iterator of the same kind whose
cursor is `c` (terminal result, or failure before the advance) or `c + 1`
(non-terminal result, or failure after the advance). -/
theorem ArrayIteratorNextRe_cursor (host : ReentrantHost) {heap : Heap} {this : Value}
    {c : Int} (hI : IsArrayIterator heap this = .ok true)
    (hc : heap.read this ITERATOR_NEXT_INDEX_ID = .number c)
    (hq : host.LeavesAlone this) :
    IsArrayIterator (ArrayIteratorNextRe host heap this).1 this = .ok true ∧
    (ArrayIteratorNextRe host heap this).1.read this ARRAY_ITERATION_KIND_ID =
      heap.read this ARRAY_ITERATION_KIND_ID ∧
    (((ArrayIteratorNextRe host heap this).1.read this ITERATOR_NEXT_INDEX_ID = .number c ∧
        ((ArrayIteratorNextRe host heap this).2 = .ok terminalResult ∨
          ∃ e, (ArrayIteratorNextRe host heap this).2 = .error e)) ∨
      ((ArrayIteratorNextRe host heap this).1.read this ITERATOR_NEXT_INDEX_ID =
          .number (c + 1) ∧
        ((∃ v, (ArrayIteratorNextRe host heap this).2 =
            .ok (CreateIterResultObject v false)) ∨
          ∃ e, (ArrayIteratorNextRe host heap this).2 = .error e))) := by
  obtain ⟨r, o, kind, target, idx, rfl, hr, hk, ht, hi⟩ := IsArrayIterator_ok_true hI
  have hidx : idx = .number c := by
    rw [Heap.read_object _ hr] at hc
    simpa [JSObject.get, ITERATOR_NEXT_INDEX_ID, hi] using hc
  subst hidx
  have hkind0 : heap.read (.object r) ARRAY_ITERATION_KIND_ID = kind :=
    (genuine_of_slots hr hk ht hi).2.2
  rw [hkind0]
  have hL : (arrayLengthRe host heap target).1[r]? = some o := by
    have h := arrayLengthRe_leavesAlone hq heap target
    simp only [Heap.deref] at h
    rw [h, hr]
  have hC : ∀ length, (geRe host (arrayLengthRe host heap target).1 (.number c) length).1[r]?
      = some o := by
    intro length
    have h := geRe_leavesAlone hq (arrayLengthRe host heap target).1 (.number c) length
    simp only [Heap.deref] at h
    rw [h, hL]
  -- the heaps a step can leave, and the receiver's slots in them
  have g0 := genuine_of_slots hL hk ht hi
  have gC := fun length => genuine_of_slots (hC length) hk ht hi
  have g1 : ∀ length x, _ := fun length x => genuine_of_slots
    (Heap.getElem?_set_same
      (geRe host (arrayLengthRe host heap target).1 (.number c) length).1 r o
      (o.set .IteratedObject x) (hC length))
    (show (o.set .IteratedObject x).ArrayIterationKind = some kind by
      simpa [JSObject.set] using hk)
    (show (o.set .IteratedObject x).IteratedObject = some x by simp [JSObject.set])
    (show (o.set .IteratedObject x).IteratorNextIndex = some (.number c) by
      simpa [JSObject.set] using hi)
  have ho2k : (o.set .IteratorNextIndex ((Value.number c).add (.number 1))).ArrayIterationKind
      = some kind := by simpa [JSObject.set] using hk
  have ho2t : (o.set .IteratorNextIndex ((Value.number c).add (.number 1))).IteratedObject
      = some target := by simpa [JSObject.set] using ht
  have ho2i : (o.set .IteratorNextIndex ((Value.number c).add (.number 1))).IteratorNextIndex
      = some (.number (c + 1)) := by simp [JSObject.set, Value.add]
  have hH1 := fun length => Heap.getElem?_set_same
      (geRe host (arrayLengthRe host heap target).1 (.number c) length).1 r o
      (o.set .IteratorNextIndex ((Value.number c).add (.number 1))) (hC length)
  have g2 := fun length => genuine_of_slots (hH1 length) ho2k ho2t ho2i
  have hF : ∀ length,
      (host.GetIndex ((geRe host (arrayLengthRe host heap target).1 (.number c) length).1.set r
        (o.set .IteratorNextIndex ((Value.number c).add (.number 1)))) target
        (.number c)).1[r]?
      = some (o.set .IteratorNextIndex ((Value.number c).add (.number 1))) := by
    intro length
    have h := (hq ((geRe host (arrayLengthRe host heap target).1 (.number c) length).1.set r
      (o.set .IteratorNextIndex ((Value.number c).add (.number 1)))) target
      (.number c)).2.2.1
    simp only [Heap.deref] at h
    rw [h, hH1 length]
  have g3 := fun length => genuine_of_slots (hF length) ho2k ho2t ho2i
  rw [ArrayIteratorNextRe_object host hr hk ht hi hq]
  by_cases hu : target = .undefined
  · rw [if_pos hu]
    exact ⟨hI, hkind0, Or.inl ⟨hc, Or.inl rfl⟩⟩
  · rw [if_neg hu]
    cases hl : (arrayLengthRe host heap target).2 with
    | error e => exact ⟨g0.1, g0.2.2, Or.inl ⟨g0.2.1, Or.inr ⟨e, rfl⟩⟩⟩
    | ok length =>
      simp only []
      cases hcmp : (geRe host (arrayLengthRe host heap target).1 (.number c) length).2 with
      | error v =>
        exact ⟨(gC length).1, (gC length).2.2, Or.inl ⟨(gC length).2.1, Or.inr ⟨_, rfl⟩⟩⟩
      | ok b =>
        cases b with
        | true =>
          exact ⟨(g1 length _).1, (g1 length _).2.2,
            Or.inl ⟨(g1 length _).2.1, Or.inl rfl⟩⟩
        | false =>
          simp only []
          by_cases hkey : kind = .number ITERATION_KIND_KEY
          · rw [if_pos hkey]
            exact ⟨(g2 length).1, (g2 length).2.2,
              Or.inr ⟨(g2 length).2.1, Or.inl ⟨_, rfl⟩⟩⟩
          · rw [if_neg hkey]
            cases hread : (host.GetIndex
                ((geRe host (arrayLengthRe host heap target).1 (.number c) length).1.set r
                  (o.set .IteratorNextIndex ((Value.number c).add (.number 1)))) target
                (.number c)).2 with
            | error v =>
              exact ⟨(g3 length).1, (g3 length).2.2,
                Or.inr ⟨(g3 length).2.1, Or.inr ⟨_, rfl⟩⟩⟩
            | ok x =>
              simp only []
              split_ifs
              · exact ⟨(g3 length).1, (g3 length).2.2,
                  Or.inr ⟨(g3 length).2.1, Or.inl ⟨_, rfl⟩⟩⟩
              · exact ⟨(g3 length).1, (g3 length).2.2,
                  Or.inr ⟨(g3 length).2.1, Or.inl ⟨_, rfl⟩⟩⟩
              · exact ⟨(g3 length).1, (g3 length).2.2,
                  Or.inr ⟨(g3 length).2.1, Or.inr ⟨_, rfl⟩⟩⟩

theorem stepsWithRe_cons (host : ReentrantHost) (hosts : List ReentrantHost) (heap : Heap)
    (this : Value) :
    stepsWithRe (host :: hosts) heap this =
      ((stepsWithRe hosts (ArrayIteratorNextRe host heap this).1 this).1,
        (ArrayIteratorNextRe host heap this).2 ::
          (stepsWithRe hosts (ArrayIteratorNextRe host heap this).1 this).2) := rfl

/-- In a run of an array iterator in which no call raised and no read stepped
the iterator, the cursor grows by the number of non-terminal results. -/
theorem array_cursor_counts_re :
    ∀ (hosts : List ReentrantHost) (heap : Heap) (this : Value) (c : Int),
      (∀ host ∈ hosts, host.LeavesAlone this) →
      IsArrayIterator heap this = .ok true →
      heap.read this ITERATOR_NEXT_INDEX_ID = .number c →
      (stepsWithRe hosts heap this).2.all isNormal = true →
      (stepsWithRe hosts heap this).1.read this ITERATOR_NEXT_INDEX_ID =
        .number (c + ((stepsWithRe hosts heap this).2.countP isNonTerminal : Nat)) := by
  intro hosts
  induction hosts with
  | nil =>
    intro heap this c _ _ hc _
    simpa [stepsWithRe] using hc
  | cons host hosts ih =>
    intro heap this c hq hI hc hall
    rw [stepsWithRe_cons] at hall ⊢
    simp only [List.all_cons, Bool.and_eq_true] at hall
    obtain ⟨hn, hall⟩ := hall
    have hq1 : ∀ h2 ∈ hosts, h2.LeavesAlone this := fun h2 hm =>
      hq h2 (List.mem_cons_of_mem _ hm)
    obtain ⟨hI1, -, hcur⟩ :=
      ArrayIteratorNextRe_cursor host hI hc (hq host (List.mem_cons_self _ _))
    rcases hcur with ⟨hc1, hres⟩ | ⟨hc1, hres⟩
    · have hnt : isNonTerminal (ArrayIteratorNextRe host heap this).2 = false := by
        rcases hres with h | ⟨e, h⟩
        · rw [h]
          rfl
        · rw [h]
          rfl
      rw [ih _ this c hq1 hI1 hc1 hall]
      simp [List.countP_cons, hnt]
    · have hnt : isNonTerminal (ArrayIteratorNextRe host heap this).2 = true := by
        rcases hres with ⟨v, h⟩ | ⟨e, h⟩
        · rw [h]
          rfl
        · rw [h] at hn
          simp [isNormal] at hn
      rw [ih _ this (c + 1) hq1 hI1 hc1 hall]
      simp only [List.countP_cons, hnt, if_true]
      congr 1
      push_cast
      ring

theorem Heap.HasHiddenKey_write_ne_key (heap : Heap) (this : Value) {k k2 : HiddenKey}
    (x : Value) (hne : k2 ≠ k) (v : Value) :
    (heap.write this k x).HasHiddenKey v k2 = heap.HasHiddenKey v k2 := by
  cases this with
  | object r =>
    cases hr : heap[r]? with
    | none => simp [Heap.write, hr]
    | some o =>
      rw [Heap.write_object k x hr]
      cases v with
      | object r2 =>
        by_cases h : r2 = r
        · subst h
          rw [Heap.HasHiddenKey_object k2 (Heap.getElem?_set_same _ _ _ _ hr),
            Heap.HasHiddenKey_object k2 hr, JSObject.get_set]
          simp [hne]
        · simp [Heap.HasHiddenKey, List.getElem?_set, Ne.symm h]
      | _ => rfl
  | _ => rfl

theorem arrayLengthRe_keepsKinds {host : ReentrantHost} (hq : host.KeepsKinds) {heap : Heap}
    {v : Value} {k : HiddenKey}
    (hk : k = ARRAY_ITERATION_KIND_ID ∨ k = SET_ITERATION_KIND_ID ∨ k = MAP_ITERATION_KIND_ID)
    (hp : heap.HasHiddenKey v k = true) (a : Value) :
    (arrayLengthRe host heap a).1.HasHiddenKey v k = true ∧
      (arrayLengthRe host heap a).1.read v k = heap.read v k := by
  unfold arrayLengthRe
  by_cases hv : host.IsArrayBufferView a = true
  · by_cases hd : host.HasDetachedBuffer a = true
    · simp [hv, hd, hp]
    · simp only [hv, hd, if_true, Bool.false_eq_true, if_false]
      exact (hq heap a a v k hk hp).1
  · simp only [hv, Bool.false_eq_true, if_false]
    cases hl : (host.GetLength heap a).2 with
    | error e => exact (hq heap a a v k hk hp).1
    | ok l =>
      simp only []
      have h1 := (hq heap a a v k hk hp).1
      have h2 := (hq (host.GetLength heap a).1 l l v k hk h1.1).2.1
      exact ⟨h2.1, h2.2.trans h1.2⟩

theorem geRe_keepsKinds {host : ReentrantHost} (hq : host.KeepsKinds) {heap : Heap}
    {v : Value} {k : HiddenKey}
    (hk : k = ARRAY_ITERATION_KIND_ID ∨ k = SET_ITERATION_KIND_ID ∨ k = MAP_ITERATION_KIND_ID)
    (hp : heap.HasHiddenKey v k = true) (a b : Value) :
    (geRe host heap a b).1.HasHiddenKey v k = true ∧
      (geRe host heap a b).1.read v k = heap.read v k := by
  cases a <;> cases b <;> first | exact ⟨hp, rfl⟩ | exact (hq heap _ _ v k hk hp).2.2.2

/-- A step in a world whose reads keep the kind slots keeps them too: the
writes of the step itself (lines 76 and 79) go to other keys. -/
theorem ArrayIteratorNextRe_keepsKinds {host : ReentrantHost} (hq : host.KeepsKinds)
    (heap : Heap) (this : Value) {v : Value} {k : HiddenKey}
    (hk : k = ARRAY_ITERATION_KIND_ID ∨ k = SET_ITERATION_KIND_ID ∨ k = MAP_ITERATION_KIND_ID)
    (hp : heap.HasHiddenKey v k = true) :
    (ArrayIteratorNextRe host heap this).1.HasHiddenKey v k = true ∧
      (ArrayIteratorNextRe host heap this).1.read v k = heap.read v k := by
  have hne1 : k ≠ ITERATED_OBJECT_ID := by rcases hk with rfl | rfl | rfl <;> decide
  have hne2 : k ≠ ITERATOR_NEXT_INDEX_ID := by rcases hk with rfl | rfl | rfl <;> decide
  have hL := fun a => arrayLengthRe_keepsKinds hq hk hp a
  have hC : ∀ (a x y : Value),
      (geRe host (arrayLengthRe host heap a).1 x y).1.HasHiddenKey v k = true ∧
      (geRe host (arrayLengthRe host heap a).1 x y).1.read v k = heap.read v k := by
    intro a x y
    have h := geRe_keepsKinds hq hk (hL a).1 x y
    exact ⟨h.1, h.2.trans (hL a).2⟩
  have hW1 : ∀ (a x y z : Value),
      ((geRe host (arrayLengthRe host heap a).1 x y).1.write this ITERATED_OBJECT_ID
        z).HasHiddenKey v k = true ∧
      ((geRe host (arrayLengthRe host heap a).1 x y).1.write this ITERATED_OBJECT_ID
        z).read v k = heap.read v k := by
    intro a x y z
    rw [Heap.HasHiddenKey_write_ne_key _ _ _ hne1, Heap.read_write_ne_key _ _ _ hne1]
    exact hC a x y
  have hW2 : ∀ (a x y z : Value),
      ((geRe host (arrayLengthRe host heap a).1 x y).1.write this ITERATOR_NEXT_INDEX_ID
        z).HasHiddenKey v k = true ∧
      ((geRe host (arrayLengthRe host heap a).1 x y).1.write this ITERATOR_NEXT_INDEX_ID
        z).read v k = heap.read v k := by
    intro a x y z
    rw [Heap.HasHiddenKey_write_ne_key _ _ _ hne2, Heap.read_write_ne_key _ _ _ hne2]
    exact hC a x y
  have hG : ∀ (a x y z b i : Value),
      (host.GetIndex ((geRe host (arrayLengthRe host heap a).1 x y).1.write this
        ITERATOR_NEXT_INDEX_ID z) b i).1.HasHiddenKey v k = true ∧
      (host.GetIndex ((geRe host (arrayLengthRe host heap a).1 x y).1.write this
        ITERATOR_NEXT_INDEX_ID z) b i).1.read v k = heap.read v k := by
    intro a x y z b i
    have h := (hq _ b i v k hk (hW2 a x y z).1).2.2.1
    exact ⟨h.1, h.2.trans (hW2 a x y z).2⟩
  unfold ArrayIteratorNextRe
  simp only []
  cases hI : IsArrayIterator heap this with
  | error e => exact ⟨hp, rfl⟩
  | ok b =>
    cases b with
    | false => exact ⟨hp, rfl⟩
    | true =>
      simp only []
      by_cases hu : heap.read this ITERATED_OBJECT_ID = .undefined
      · rw [if_pos hu]
        exact ⟨hp, rfl⟩
      · rw [if_neg hu]
        cases hl : (arrayLengthRe host heap (heap.read this ITERATED_OBJECT_ID)).2 with
        | error e => exact hL _
        | ok length =>
          simp only []
          cases hcmp : (geRe host (arrayLengthRe host heap
              (heap.read this ITERATED_OBJECT_ID)).1
              (heap.read this ITERATOR_NEXT_INDEX_ID) length).2 with
          | error w => exact hC _ _ _
          | ok b =>
            cases b with
            | true => exact hW1 _ _ _ _
            | false =>
              simp only []
              by_cases hkey : heap.read this ARRAY_ITERATION_KIND_ID =
                  .number ITERATION_KIND_KEY
              · rw [if_pos hkey]
                exact hW2 _ _ _ _
              · rw [if_neg hkey]
                cases hread : (host.GetIndex
                    ((geRe host (arrayLengthRe host heap
                      (heap.read this ITERATED_OBJECT_ID)).1
                      (heap.read this ITERATOR_NEXT_INDEX_ID) length).1.write this
                      ITERATOR_NEXT_INDEX_ID
                      ((heap.read this ITERATOR_NEXT_INDEX_ID).add (.number 1)))
                    (heap.read this ITERATED_OBJECT_ID)
                    (heap.read this ITERATOR_NEXT_INDEX_ID)).2 with
                | error w => exact hG _ _ _ _ _ _
                | ok x =>
                  simp only []
                  split_ifs <;> exact hG _ _ _ _ _ _

theorem ArrayIteratorNextRe_typeError {host : ReentrantHost} {heap : Heap} {this : Value}
    {message : String}
    (h : (ArrayIteratorNextRe host heap this).2 = .error (.TypeError message)) :
    (ArrayIteratorNextRe host heap this).1 = heap := by
  unfold ArrayIteratorNextRe at h ⊢
  simp only [] at h ⊢
  cases hI : IsArrayIterator heap this with
  | error e => rfl
  | ok b =>
    cases b with
    | false => rfl
    | true =>
      rw [hI] at h
      simp only [] at h ⊢
      by_cases hu : heap.read this ITERATED_OBJECT_ID = .undefined
      · rw [if_pos hu]
      · rw [if_neg hu] at h ⊢
        cases hl : (arrayLengthRe host heap (heap.read this ITERATED_OBJECT_ID)).2 with
        | error e =>
          rw [hl] at h
          simp only [Except.error.injEq] at h
          subst h
          exact arrayLengthRe_typeError hl
        | ok length =>
          rw [hl] at h
          simp only [] at h
          cases hcmp : (geRe host (arrayLengthRe host heap
              (heap.read this ITERATED_OBJECT_ID)).1
              (heap.read this ITERATOR_NEXT_INDEX_ID) length).2 with
          | error w =>
            rw [hcmp] at h
            simp at h
          | ok b =>
            rw [hcmp] at h
            cases b with
            | true => simp at h
            | false =>
              simp only [] at h
              by_cases hkey : heap.read this ARRAY_ITERATION_KIND_ID =
                  .number ITERATION_KIND_KEY
              · rw [if_pos hkey] at h
                simp at h
              · rw [if_neg hkey] at h
                cases hread : (host.GetIndex
                    ((geRe host (arrayLengthRe host heap
                      (heap.read this ITERATED_OBJECT_ID)).1
                      (heap.read this ITERATOR_NEXT_INDEX_ID) length).1.write this
                      ITERATOR_NEXT_INDEX_ID
                      ((heap.read this ITERATOR_NEXT_INDEX_ID).add (.number 1)))
                    (heap.read this ITERATED_OBJECT_ID)
                    (heap.read this ITERATOR_NEXT_INDEX_ID)).2 with
                | error w =>
                  rw [hread] at h
                  simp at h
                | ok x =>
                  rw [hread] at h
                  simp only [] at h
                  split_ifs at h
                  all_goals simp at h

/-! ## Claims -/

/-- C1. Terminal state is sticky and idempotent: for each of `ArrayIteratorNext`,
`SetIteratorNext`, `MapIteratorNext` and `StringIteratorNext`, once a call on a
receiver has returned `done = true`, every later call on it returns exactly
`{value: undefined, done: true}` and changes nothing in the heap (so target,
cursor and kind of the receiver stay as they are), whatever the world looks like
at those calls.  In particular a fresh array iterator over an unchanged sequence
of length `N` gives `N` non-terminal results and then only terminal ones. -/
theorem terminal_state_is_sticky :
    Sticky ArrayIteratorNext ∧ Sticky SetIteratorNext ∧ Sticky MapIteratorNext ∧
    Sticky StringIteratorNextIn ∧
    ∀ (host : Host) (heap : Heap) (array kind : Value) (elems : List Value) (m : Nat),
      IsIterationKind kind → array ≠ .undefined → host.Presents array elems →
      ∃ results,
        (stepsWith ArrayIteratorNext (List.replicate (elems.length + m) host)
          (CreateArrayIterator heap array kind).1 (CreateArrayIterator heap array kind).2).2 =
          results ++ List.replicate m (.ok terminalResult) ∧
        results.length = elems.length ∧
        ∀ c ∈ results, ∃ v, c = .ok (CreateIterResultObject v false) := by
  refine ⟨?_, ?_, ?_, ?_, ?_⟩
  · intro host heap heap1 this res h hd
    obtain ⟨r, o, kind, idx, rfl, hr, hk, ht, hi⟩ := ArrayIteratorNext_done h hd
    have key : ∀ (host2 : Host) (heap2 : Heap), heap2.deref (.object r) = heap1.deref (.object r) →
        ArrayIteratorNext host2 heap2 (.object r) = (heap2, .ok terminalResult) := by
      intro host2 heap2 h2
      have hr2 : heap2[r]? = some o := by simpa [Heap.deref, hr] using h2
      exact ArrayIteratorNext_exhausted host2 hr2 hk ht hi
    exact ⟨key, stepsWith_const _ _ _ _ (fun host2 => key host2 heap1 rfl)⟩
  · intro host heap heap1 this res h hd
    obtain ⟨r, o, kind, idx, rfl, hr, hk, ht, hi⟩ := SetIteratorNext_done h hd
    have key : ∀ (host2 : Host) (heap2 : Heap), heap2.deref (.object r) = heap1.deref (.object r) →
        SetIteratorNext host2 heap2 (.object r) = (heap2, .ok terminalResult) := by
      intro host2 heap2 h2
      have hr2 : heap2[r]? = some o := by simpa [Heap.deref, hr] using h2
      exact SetIteratorNext_exhausted host2 hr2 hk ht hi
    exact ⟨key, stepsWith_const _ _ _ _ (fun host2 => key host2 heap1 rfl)⟩
  · intro host heap heap1 this res h hd
    obtain ⟨r, o, kind, idx, rfl, hr, hk, ht, hi⟩ := MapIteratorNext_done h hd
    have key : ∀ (host2 : Host) (heap2 : Heap), heap2.deref (.object r) = heap1.deref (.object r) →
        MapIteratorNext host2 heap2 (.object r) = (heap2, .ok terminalResult) := by
      intro host2 heap2 h2
      have hr2 : heap2[r]? = some o := by simpa [Heap.deref, hr] using h2
      exact MapIteratorNext_exhausted host2 hr2 hk ht hi
    exact ⟨key, stepsWith_const _ _ _ _ (fun host2 => key host2 heap1 rfl)⟩
  · intro host heap heap1 this res h hd
    obtain ⟨r, o, idx, rfl, hr, ht, hi⟩ := StringIteratorNext_done h hd
    have key : ∀ (host2 : Host) (heap2 : Heap), heap2.deref (.object r) = heap1.deref (.object r) →
        StringIteratorNextIn host2 heap2 (.object r) = (heap2, .ok terminalResult) := by
      intro host2 heap2 h2
      have hr2 : heap2[r]? = some o := by simpa [Heap.deref, hr] using h2
      exact StringIteratorNext_exhausted hr2 ht hi
    exact ⟨key, stepsWith_const _ _ _ _ (fun host2 => key host2 heap1 rfl)⟩
  · intro host heap array kind elems m hkind hne hp
    refine ⟨_, array_fresh_run host hkind hne elems hp heap m, by simp, ?_⟩
    intro c hc
    obtain ⟨p, -, rfl⟩ := List.mem_map.mp hc
    exact ⟨_, rfl⟩

/-- C1 at a concrete input: an iterator over the empty array at reference 0 is
exhausted by its first step; three elements are then appended to the array, and
two further steps still return the terminal result. -/
theorem terminal_state_is_sticky_witness :
    ArrayIteratorNext (arrayHost (.object 0) [])
        (CreateArrayIterator [JSObject.empty] (.object 0) (.number 2)).1 (.object 1) =
      ([JSObject.empty,
        { JSObject.empty with IteratedObject := some .undefined,
                              IteratorNextIndex := some (.number 0),
                              ArrayIterationKind := some (.number 2) }], .ok terminalResult) ∧
    stepsWith ArrayIteratorNext
        [arrayHost (.object 0) [.number 7, .number 8, .number 9],
         arrayHost (.object 0) [.number 7, .number 8, .number 9]]
        [JSObject.empty,
          { JSObject.empty with IteratedObject := some .undefined,
                                IteratorNextIndex := some (.number 0),
                                ArrayIterationKind := some (.number 2) }] (.object 1) =
      ([JSObject.empty,
        { JSObject.empty with IteratedObject := some .undefined,
                              IteratorNextIndex := some (.number 0),
                              ArrayIterationKind := some (.number 2) }],
        [.ok terminalResult, .ok terminalResult]) :=
  ⟨by rfl, (terminal_state_is_sticky.1 (arrayHost (.object 0) []) _ _ _ _
    (by rfl : ArrayIteratorNext (arrayHost (.object 0) [])
        (CreateArrayIterator [JSObject.empty] (.object 0) (.number 2)).1 (.object 1) = _)
    (by rfl)).2 _⟩

/-- C2. Index iteration order: for a sequence target whose length `N` and
elements do not change, a fresh iterator from `CreateArrayIterator` stepped
`N + 1` times returns `N` results with `done = false`, in increasing index
order, carrying `i` for kind `KEY`, the element at `i` for kind `VALUE` and the
pair `[i, element]` for kind `KEY_PLUS_VALUE`, followed by
`{value: undefined, done: true}`. -/
theorem index_iteration_order (host : Host) (heap : Heap) (array : Value) (elems : List Value)
    (hne : array ≠ .undefined) (hp : host.Presents array elems) :
    (stepsWith ArrayIteratorNext (List.replicate (elems.length + 1) host)
        (CreateArrayIterator heap array (.number ITERATION_KIND_KEY)).1
        (CreateArrayIterator heap array (.number ITERATION_KIND_KEY)).2).2 =
      (List.range elems.length).map
          (fun i => .ok (CreateIterResultObject (.number i) false))
        ++ [.ok (CreateIterResultObject .undefined true)] ∧
    (stepsWith ArrayIteratorNext (List.replicate (elems.length + 1) host)
        (CreateArrayIterator heap array (.number ITERATION_KIND_VALUE)).1
        (CreateArrayIterator heap array (.number ITERATION_KIND_VALUE)).2).2 =
      elems.map (fun x => .ok (CreateIterResultObject x false))
        ++ [.ok (CreateIterResultObject .undefined true)] ∧
    (stepsWith ArrayIteratorNext (List.replicate (elems.length + 1) host)
        (CreateArrayIterator heap array (.number ITERATION_KIND_KEY_PLUS_VALUE)).1
        (CreateArrayIterator heap array (.number ITERATION_KIND_KEY_PLUS_VALUE)).2).2 =
      elems.enum.map
          (fun p => .ok (CreateIterResultObject (.array2 (.number p.1) p.2) false))
        ++ [.ok (CreateIterResultObject .undefined true)] := by
  refine ⟨?_, ?_, ?_⟩
  · rw [array_fresh_run host (Or.inl rfl) hne elems hp heap 1]
    simp only [arrayItem, if_true, List.replicate_one, terminalResult]
    congr 1
    rw [← List.enum_map_fst elems, List.map_map]
    rfl
  · rw [array_fresh_run host (Or.inr (Or.inl rfl)) hne elems hp heap 1]
    simp only [arrayItem, ITERATION_KIND_KEY_eq, ITERATION_KIND_VALUE_eq, List.replicate_one,
      terminalResult]
    congr 1
    conv_rhs => rw [← List.enum_map_snd elems, List.map_map]
    apply List.map_congr_left
    intro p _
    simp
  · rw [array_fresh_run host (Or.inr (Or.inr rfl)) hne elems hp heap 1]
    simp only [arrayItem, ITERATION_KIND_KEY_eq, ITERATION_KIND_VALUE_eq,
      ITERATION_KIND_KEY_PLUS_VALUE_eq, List.replicate_one, terminalResult]
    congr 1

/-- C2 at the sequence `[10, 20, 30]` in `KEY_PLUS_VALUE` mode: `[0, 10]`,
`[1, 20]`, `[2, 30]`, then the terminal result. -/
theorem index_iteration_order_witness :
    (stepsWith ArrayIteratorNext
        (List.replicate 4 (arrayHost (.object 0) [.number 10, .number 20, .number 30]))
        (CreateArrayIterator [JSObject.empty] (.object 0)
          (.number ITERATION_KIND_KEY_PLUS_VALUE)).1
        (CreateArrayIterator [JSObject.empty] (.object 0)
          (.number ITERATION_KIND_KEY_PLUS_VALUE)).2).2 =
      [.ok (CreateIterResultObject (.array2 (.number 0) (.number 10)) false),
       .ok (CreateIterResultObject (.array2 (.number 1) (.number 20)) false),
       .ok (CreateIterResultObject (.array2 (.number 2) (.number 30)) false),
       .ok (CreateIterResultObject .undefined true)] :=
  (index_iteration_order (arrayHost (.object 0) [.number 10, .number 20, .number 30])
    [JSObject.empty] (.object 0) [.number 10, .number 20, .number 30] (by decide)
    (arrayHost_presents _ _ (by decide))).2.2

/-- C3. Live length: a step of a sequence iterator with present target and
cursor `c` returns the terminal result if and only if `c >= L`, where `L` is
the length the target has in the world of that very step.  So over a length-5
target, after two steps and a shrink to length 2, the third step is terminal
(and so is every later one, even if the target grows back); and an element
appended before exhaustion was observed is still produced. -/
theorem live_length :
    (∀ (host : Host) (heap : Heap) (r : Nat) (o : JSObject) (kind target : Value) (c L : Int),
      heap[r]? = some o → o.ArrayIterationKind = some kind →
      o.IteratedObject = some target → target ≠ .undefined →
      o.IteratorNextIndex = some (.number c) →
      arrayLength host target = .ok (.number L) →
        ((ArrayIteratorNext host heap (.object r)).2 = .ok terminalResult ↔ L ≤ c) ∧
        (∀ res, (ArrayIteratorNext host heap (.object r)).2 = .ok res →
          (res.done = true ↔ L ≤ c))) ∧
    (stepsWith ArrayIteratorNext
        [arrayHost (.object 0) [.number 10, .number 11, .number 12, .number 13, .number 14],
         arrayHost (.object 0) [.number 10, .number 11, .number 12, .number 13, .number 14],
         arrayHost (.object 0) [.number 10, .number 11],
         arrayHost (.object 0) [.number 10, .number 11, .number 12, .number 13, .number 14]]
        (CreateArrayIterator [JSObject.empty] (.object 0) (.number ITERATION_KIND_VALUE)).1
        (CreateArrayIterator [JSObject.empty] (.object 0) (.number ITERATION_KIND_VALUE)).2).2 =
      [.ok (CreateIterResultObject (.number 10) false),
       .ok (CreateIterResultObject (.number 11) false),
       .ok terminalResult, .ok terminalResult] ∧
    (stepsWith ArrayIteratorNext
        [arrayHost (.object 0) [.number 10, .number 11],
         arrayHost (.object 0) [.number 10, .number 11],
         arrayHost (.object 0) [.number 10, .number 11, .number 12],
         arrayHost (.object 0) [.number 10, .number 11, .number 12]]
        (CreateArrayIterator [JSObject.empty] (.object 0) (.number ITERATION_KIND_VALUE)).1
        (CreateArrayIterator [JSObject.empty] (.object 0) (.number ITERATION_KIND_VALUE)).2).2 =
      [.ok (CreateIterResultObject (.number 10) false),
       .ok (CreateIterResultObject (.number 11) false),
       .ok (CreateIterResultObject (.number 12) false),
       .ok terminalResult] := by
  refine ⟨?_, by rfl, by rfl⟩
  intro host heap r o kind target c L hr hk ht hne hi hl
  rw [ArrayIteratorNext_object host hr hk ht hi]
  simp only [hne, if_false, hl, Value.ge, decide_eq_true_eq]
  by_cases hc : L ≤ c
  · simp [hc, terminalResult, CreateIterResultObject]
  · simp only [hc, if_false, iff_false]
    constructor
    · split
      · simp [terminalResult, CreateIterResultObject]
      · split
        · simp
        · split
          · simp [terminalResult, CreateIterResultObject]
          · split
            · simp [terminalResult, CreateIterResultObject]
            · simp
    · intro res
      split
      · intro h
        simp only [Except.ok.injEq] at h
        simp [← h, CreateIterResultObject]
      · split
        · simp
        · split
          · intro h
            simp only [Except.ok.injEq] at h
            simp [← h, CreateIterResultObject]
          · split
            · intro h
              simp only [Except.ok.injEq] at h
              simp [← h, CreateIterResultObject]
            · simp

/-- C3 at a concrete state: cursor 2, target of length 2 at the time of the
step. -/
theorem live_length_witness :
    (ArrayIteratorNext (arrayHost (.object 0) [.number 10, .number 11])
      [JSObject.empty,
        { JSObject.empty with IteratedObject := some (.object 0),
                              IteratorNextIndex := some (.number 2),
                              ArrayIterationKind := some (.number 2) }] (.object 1)).2 =
      .ok terminalResult ↔ (2 : Int) ≤ 2 :=
  (live_length.1 (arrayHost (.object 0) [.number 10, .number 11])
    [JSObject.empty,
      { JSObject.empty with IteratedObject := some (.object 0),
                            IteratorNextIndex := some (.number 2),
                            ArrayIterationKind := some (.number 2) }] 1 _ (.number 2) (.object 0) 2 2
    (by rfl) (by rfl) (by rfl) (by decide) (by rfl) (by rfl)).1

/-- C4. Code point decoding of one step: for a string iterator over `s` with
present target and cursor `p < length(s)`, where `u` is the unit at `p`:
`StringIteratorNext` returns `done = false` with the two-unit string
`s[p..p+1]` and moves the cursor to `p + 2` when `u` is a lead surrogate and the
unit at `p + 1` exists and is a trail surrogate; in every other case it returns
the one-unit string `s[p]` and moves the cursor to `p + 1`. -/
theorem code_point_decoding_step (heap : Heap) (r : Nat) (o : JSObject) (s : List Nat)
    (p u : Nat) (hr : heap[r]? = some o) (ht : o.IteratedString = some (.string s))
    (hi : o.StringIteratorNextIndex = some (.number p))
    (hu : s[p]? = some u) (hs : IsCodeUnits s) :
    (∀ w, IsLeadSurrogate u → s[p + 1]? = some w → IsTrailSurrogate w →
      StringIteratorNext heap (.object r) =
        (heap.set r (o.set .StringIteratorNextIndex (.number ((p + 2 : Nat) : Int))),
          .ok (CreateIterResultObject (.string [u, w]) false))) ∧
    (¬ (IsLeadSurrogate u ∧ ∃ w, s[p + 1]? = some w ∧ IsTrailSurrogate w) →
      StringIteratorNext heap (.object r) =
        (heap.set r (o.set .StringIteratorNextIndex (.number ((p + 1 : Nat) : Int))),
          .ok (CreateIterResultObject (.string [u]) false))) := by
  constructor
  · intro w hlead hw htrail
    exact StringIteratorNext_pair hr ht hi hu hw hlead htrail
      (hs w (mem_of_getElem?_some hw))
  · intro h
    exact StringIteratorNext_single hr ht hi hu (hs u (mem_of_getElem?_some hu)) h

/-- C4 at the string `[0x41, 0xD83D, 0xDE00]` with the cursor at 1: the step
returns the pair and moves the cursor to 3. -/
theorem code_point_decoding_step_witness :
    StringIteratorNext
        [{ JSObject.empty with IteratedString := some (.string [0x41, 0xD83D, 0xDE00]),
                               StringIteratorNextIndex := some (.number 1) }] (.object 0) =
      ([{ JSObject.empty with IteratedString := some (.string [0x41, 0xD83D, 0xDE00]),
                              StringIteratorNextIndex := some (.number 3) }],
        .ok (CreateIterResultObject (.string [0xD83D, 0xDE00]) false)) :=
  (code_point_decoding_step
    [{ JSObject.empty with IteratedString := some (.string [0x41, 0xD83D, 0xDE00]),
                           StringIteratorNextIndex := some (.number 1) }] 0
    { JSObject.empty with IteratedString := some (.string [0x41, 0xD83D, 0xDE00]),
                          StringIteratorNextIndex := some (.number 1) }
    [0x41, 0xD83D, 0xDE00] 1 0xD83D (by rfl) (by rfl) (by rfl) (by rfl)
    (by unfold IsCodeUnits; decide)).1 0xDE00 (by unfold IsLeadSurrogate; decide) (by rfl)
    (by unfold IsTrailSurrogate; decide)

/-- C5. Surrogate pairing over a whole iteration: for a lead surrogate `h` and a
trail surrogate `l`, a fresh string iterator over the two-unit text `h l` gives
one non-terminal step whose value is the whole text, and the second step is
terminal; and for every text ending in a lead surrogate, the iteration run to
exhaustion has that single unit as the value of its last non-terminal step. -/
theorem surrogate_pairing :
    (∀ (host1 host2 : Host) (heap heap1 : Heap) (it : Value) (h l : Nat),
      IsLeadSurrogate h → IsTrailSurrogate l →
      CreateStringIterator heap (.string [h, l]) = (heap1, .ok it) →
      (stepsWith StringIteratorNextIn [host1, host2] heap1 it).2 =
        [.ok (CreateIterResultObject (.string [h, l]) false), .ok terminalResult]) ∧
    (∀ (host : Host) (heap heap1 : Heap) (it : Value) (pre : List Nat) (h : Nat),
      IsLeadSurrogate h → IsCodeUnits (pre ++ [h]) →
      CreateStringIterator heap (.string (pre ++ [h])) = (heap1, .ok it) →
      ∃ chunks : List (List Nat),
        (stepsWith StringIteratorNextIn (List.replicate ((pre ++ [h]).length + 1) host)
            heap1 it).2 =
          chunks.map (fun c => .ok (CreateIterResultObject (.string c) false))
            ++ List.replicate ((pre ++ [h]).length + 1 - chunks.length) (.ok terminalResult) ∧
        chunks.length ≤ (pre ++ [h]).length ∧
        chunks.getLast? = some [h]) := by
  constructor
  · intro host1 host2 heap heap1 it h l hlead htrail hc
    rw [CreateStringIterator_eq] at hc
    simp only [Prod.mk.injEq, Except.ok.injEq] at hc
    obtain ⟨rfl, rfl⟩ := hc
    have hl16 : l < 65536 := by
      unfold IsTrailSurrogate at htrail
      omega
    have hr : (heap ++ [(JSObject.empty.set .IteratedString (.string [h, l])).set
        .StringIteratorNextIndex (.number 0)])[heap.length]? = some
          ((JSObject.empty.set .IteratedString (.string [h, l])).set
            .StringIteratorNextIndex (.number 0)) := by simp
    have h1 : StringIteratorNextIn host1 _ (.object heap.length) = _ :=
      StringIteratorNext_pair (s := [h, l]) (p := 0) (u := h) (w := l) hr
        (by simp [JSObject.set]) (by simp [JSObject.set]) (by simp) (by simp) hlead htrail hl16
    have h2 : StringIteratorNextIn host2 _ (.object heap.length) = _ :=
      StringIteratorNext_end (s := [h, l]) (p := 2)
        (o := ((JSObject.empty.set .IteratedString (.string [h, l])).set
          .StringIteratorNextIndex (.number 0)).set .StringIteratorNextIndex
            (.number ((0 + 2 : Nat) : Int)))
        (Heap.getElem?_set_same _ _ _ _ hr)
        (by simp [JSObject.set]) (by simp [JSObject.set]) (by simp)
    rw [stepsWith_cons, h1]
    simp only []
    rw [stepsWith_cons, h2]
    simp [stepsWith]
  · intro host heap heap1 it pre h hlead hs hc
    rw [CreateStringIterator_eq] at hc
    simp only [Prod.mk.injEq, Except.ok.injEq] at hc
    obtain ⟨rfl, rfl⟩ := hc
    refine ⟨codePoints (pre ++ [h]), ?_, codePoints_length_le _ _ (le_refl _),
      codePoints_getLast_lead hlead _ _ (le_refl _)⟩
    exact string_run host heap.length (pre ++ [h]) hs (pre ++ [h]).length (pre ++ [h]) []
      (heap ++ [(JSObject.empty.set .IteratedString (.string (pre ++ [h]))).set
        .StringIteratorNextIndex (.number 0)])
      ((JSObject.empty.set .IteratedString (.string (pre ++ [h]))).set
        .StringIteratorNextIndex (.number 0))
      (by simp) (le_refl _) (by simp) (by simp [JSObject.set]) (by simp [JSObject.set])

/-- C5 at the pair `0xD83D 0xDE00`. -/
theorem surrogate_pairing_witness :
    (stepsWith StringIteratorNextIn
        [arrayHost .undefined [], arrayHost .undefined []]
        [{ JSObject.empty with IteratedString := some (.string [0xD83D, 0xDE00]),
                               StringIteratorNextIndex := some (.number 0) }] (.object 0)).2 =
      [.ok (CreateIterResultObject (.string [0xD83D, 0xDE00]) false), .ok terminalResult] :=
  surrogate_pairing.1 (arrayHost .undefined []) (arrayHost .undefined []) [] _ _ 0xD83D 0xDE00
    (by unfold IsLeadSurrogate; decide) (by unfold IsTrailSurrogate; decide) (by rfl)

/-- C6. Brand rejection: each of `ArrayIteratorNext`, `SetIteratorNext`,
`MapIteratorNext`, `StringIteratorNext` raises its "not a ... Iterator"
TypeError exactly when the receiver does not carry the family's marker
(`ArrayIterationKind`, `SetIterationKind`, `MapIterationKind`, `IteratedString`),
and then returns no result and changes nothing.  An iterator made by a creation
function carries the marker of its own family, passes that family's check, and
carries none of the other three markers; an object without hidden keys and a
value that is no object carry no marker at all. -/
theorem brand_rejection :
    BrandChecked ArrayIteratorNext ARRAY_ITERATION_KIND_ID "not an Array Iterator" ∧
    BrandChecked SetIteratorNext SET_ITERATION_KIND_ID "not a Set Iterator" ∧
    BrandChecked MapIteratorNext MAP_ITERATION_KIND_ID "not a Map Iterator" ∧
    BrandChecked StringIteratorNextIn ITERATED_STRING_ID "not a String Iterator" ∧
    (∀ (heap heap1 : Heap) (array kind it : Value),
      CreateArrayIterator heap array kind = (heap1, it) →
        IsArrayIterator heap1 it = .ok true ∧
        heap1.HasHiddenKey it ARRAY_ITERATION_KIND_ID = true ∧
        heap1.HasHiddenKey it SET_ITERATION_KIND_ID = false ∧
        heap1.HasHiddenKey it MAP_ITERATION_KIND_ID = false ∧
        heap1.HasHiddenKey it ITERATED_STRING_ID = false) ∧
    (∀ (host : Host) (heap heap1 : Heap) (set kind it : Value),
      CreateSetIterator host heap set kind = (heap1, .ok it) →
        IsSetIterator heap1 it = .ok true ∧
        heap1.HasHiddenKey it SET_ITERATION_KIND_ID = true ∧
        heap1.HasHiddenKey it ARRAY_ITERATION_KIND_ID = false ∧
        heap1.HasHiddenKey it MAP_ITERATION_KIND_ID = false ∧
        heap1.HasHiddenKey it ITERATED_STRING_ID = false) ∧
    (∀ (host : Host) (heap heap1 : Heap) (map kind it : Value),
      CreateMapIterator host heap map kind = (heap1, .ok it) →
        IsMapIterator heap1 it = .ok true ∧
        heap1.HasHiddenKey it MAP_ITERATION_KIND_ID = true ∧
        heap1.HasHiddenKey it ARRAY_ITERATION_KIND_ID = false ∧
        heap1.HasHiddenKey it SET_ITERATION_KIND_ID = false ∧
        heap1.HasHiddenKey it ITERATED_STRING_ID = false) ∧
    (∀ (heap heap1 : Heap) (string it : Value),
      CreateStringIterator heap string = (heap1, .ok it) →
        IsStringIterator heap1 it = .ok true ∧
        heap1.HasHiddenKey it ITERATED_STRING_ID = true ∧
        heap1.HasHiddenKey it ARRAY_ITERATION_KIND_ID = false ∧
        heap1.HasHiddenKey it SET_ITERATION_KIND_ID = false ∧
        heap1.HasHiddenKey it MAP_ITERATION_KIND_ID = false) ∧
    (∀ (heap : Heap) (this : Value) (key : HiddenKey),
      (heap.deref this = some JSObject.empty ∨ heap.deref this = none) →
        heap.HasHiddenKey this key = false) := by
  refine ⟨?_, ?_, ?_, ?_, ?_, ?_, ?_, ?_, ?_⟩
  · intro host heap this
    rcases ArrayIteratorNext_cases host heap this with
      ⟨hm, hn⟩ | ⟨hm, -, hn⟩ | ⟨hI, -, -, -, hn⟩ | ⟨hI, -, hb⟩
    · simp [hm, hn]
    · simp [hm, hn]
    · obtain ⟨r, o, kind, target, idx, rfl, hr, hk, ht, hi⟩ := IsArrayIterator_ok_true hI
      have hm : Heap.HasHiddenKey heap (.object r) ARRAY_ITERATION_KIND_ID = true := by
        simp [Heap.HasHiddenKey_object _ hr, JSObject.get, ARRAY_ITERATION_KIND_ID, hk]
      simp [hm, hn]
    · obtain ⟨r, o, kind, target, idx, rfl, hr, hk, ht, hi⟩ := IsArrayIterator_ok_true hI
      have hm : Heap.HasHiddenKey heap (.object r) ARRAY_ITERATION_KIND_ID = true := by
        simp [Heap.HasHiddenKey_object _ hr, JSObject.get, ARRAY_ITERATION_KIND_ID, hk]
      simp [hm, hb.ne_typeError]
  · intro host heap this
    rcases SetIteratorNext_cases host heap this with ⟨hm, hn⟩ | ⟨hm, hb⟩
    · simp [hm, hn]
    · simp [hm, hb.ne_typeError]
  · intro host heap this
    rcases MapIteratorNext_cases host heap this with ⟨hm, hn⟩ | ⟨hm, hb⟩
    · simp [hm, hn]
    · simp [hm, hb.ne_typeError]
  · intro host heap this
    rcases StringIteratorNext_cases heap this with ⟨hm, hn⟩ | ⟨hm, hb⟩
    · simp [StringIteratorNextIn, hm, hn]
    · simp [StringIteratorNextIn, hm, hb.ne_typeError]
  · intro heap heap1 array kind it h
    rw [CreateArrayIterator_eq] at h
    simp only [Prod.mk.injEq] at h
    obtain ⟨rfl, rfl⟩ := h
    simp [IsArrayIterator, Heap.HasHiddenKey_fresh, JSObject.get, JSObject.set, JSObject.empty,
      ARRAY_ITERATION_KIND_ID, SET_ITERATION_KIND_ID, MAP_ITERATION_KIND_ID, ITERATED_STRING_ID,
      ITERATED_OBJECT_ID, ITERATOR_NEXT_INDEX_ID]
  · intro host heap heap1 set kind it h
    obtain ⟨ho, hs⟩ := CreateSetIterator_ok_inv h
    rw [CreateSetIterator_eq host heap set kind ho hs] at h
    simp only [Prod.mk.injEq, Except.ok.injEq] at h
    obtain ⟨rfl, rfl⟩ := h
    simp [IsSetIterator, Heap.HasHiddenKey_fresh, JSObject.get, JSObject.set, JSObject.empty,
      ARRAY_ITERATION_KIND_ID, SET_ITERATION_KIND_ID, MAP_ITERATION_KIND_ID, ITERATED_STRING_ID,
      ITERATED_OBJECT_ID, ITERATOR_NEXT_INDEX_ID]
  · intro host heap heap1 map kind it h
    obtain ⟨ho, hs⟩ := CreateMapIterator_ok_inv h
    rw [CreateMapIterator_eq host heap map kind ho hs] at h
    simp only [Prod.mk.injEq, Except.ok.injEq] at h
    obtain ⟨rfl, rfl⟩ := h
    simp [IsMapIterator, Heap.HasHiddenKey_fresh, JSObject.get, JSObject.set, JSObject.empty,
      ARRAY_ITERATION_KIND_ID, SET_ITERATION_KIND_ID, MAP_ITERATION_KIND_ID, ITERATED_STRING_ID,
      ITERATED_OBJECT_ID, ITERATOR_NEXT_INDEX_ID]
  · intro heap heap1 string it h
    obtain ⟨s, rfl⟩ := CreateStringIterator_ok_inv h
    rw [CreateStringIterator_eq] at h
    simp only [Prod.mk.injEq, Except.ok.injEq] at h
    obtain ⟨rfl, rfl⟩ := h
    simp [IsStringIterator, Heap.HasHiddenKey_fresh, JSObject.get, JSObject.set, JSObject.empty,
      ARRAY_ITERATION_KIND_ID, SET_ITERATION_KIND_ID, MAP_ITERATION_KIND_ID, ITERATED_STRING_ID,
      STRING_ITERATOR_NEXT_INDEX_ID]
  · intro heap this key h
    cases this with
    | object r =>
      rcases h with h | h
      · have hr : heap[r]? = some JSObject.empty := h
        rw [Heap.HasHiddenKey_object _ hr]
        cases key <;> rfl
      · have hr : heap[r]? = none := h
        simp [Heap.HasHiddenKey, hr]
    | _ => rfl

/-- C6 at a concrete input: `SetIteratorNext` called on an iterator made by
`CreateArrayIterator` raises its TypeError and leaves the heap as it is. -/
theorem brand_rejection_witness :
    SetIteratorNext (arrayHost (.object 0) [])
        (CreateArrayIterator [JSObject.empty] (.object 0) (.number 2)).1
        (CreateArrayIterator [JSObject.empty] (.object 0) (.number 2)).2 =
      ((CreateArrayIterator [JSObject.empty] (.object 0) (.number 2)).1,
        .error (.TypeError "not a Set Iterator")) :=
  (brand_rejection.2.1 (arrayHost (.object 0) [])
      (CreateArrayIterator [JSObject.empty] (.object 0) (.number 2)).1
      (CreateArrayIterator [JSObject.empty] (.object 0) (.number 2)).2).2
    (brand_rejection.2.2.2.2.1 [JSObject.empty] _ (.object 0) (.number 2) _ rfl).2.2.1

/-- C7. Detached buffer raises-iff: on a genuine array iterator (marker and
co-slots present), `ArrayIteratorNext` raises the detached-buffer TypeError if
and only if the target is present, is a typed view and its buffer is detached
at the time of the call.  A target that is not a typed view never raises it,
and an exhausted iterator returns the terminal result whatever the state of the
buffer. -/
theorem detached_buffer_raises_iff (host : Host) (heap : Heap) (this : Value)
    (hgen : IsArrayIterator heap this = .ok true) :
    ((ArrayIteratorNext host heap this).2 = .error (.TypeError
        "Cannot perform Array Iterator.prototype.next on a detached ArrayBuffer") ↔
      (heap.read this ITERATED_OBJECT_ID ≠ .undefined ∧
        host.IsArrayBufferView (heap.read this ITERATED_OBJECT_ID) = true ∧
        host.HasDetachedBuffer (heap.read this ITERATED_OBJECT_ID) = true)) ∧
    (host.IsArrayBufferView (heap.read this ITERATED_OBJECT_ID) = false →
      (ArrayIteratorNext host heap this).2 ≠ .error (.TypeError
        "Cannot perform Array Iterator.prototype.next on a detached ArrayBuffer")) ∧
    (heap.read this ITERATED_OBJECT_ID = .undefined →
      ArrayIteratorNext host heap this = (heap, .ok terminalResult)) := by
  have hiff : (ArrayIteratorNext host heap this).2 = .error (.TypeError
        "Cannot perform Array Iterator.prototype.next on a detached ArrayBuffer") ↔
      (heap.read this ITERATED_OBJECT_ID ≠ .undefined ∧
        host.IsArrayBufferView (heap.read this ITERATED_OBJECT_ID) = true ∧
        host.HasDetachedBuffer (heap.read this ITERATED_OBJECT_ID) = true) := by
    rcases ArrayIteratorNext_cases host heap this with
      ⟨hm, -⟩ | ⟨-, hI, -⟩ | ⟨-, h1, h2, h3, hn⟩ | ⟨-, hnot, hb⟩
    · rw [IsArrayIterator_marker hgen] at hm
      simp at hm
    · rw [hI] at hgen
      simp at hgen
    · simp [hn, h1, h2, h3]
    · constructor
      · intro h
        exact absurd h (hb.ne_typeError _)
      · intro h
        exact absurd h hnot
  refine ⟨hiff, ?_, ?_⟩
  · intro hv h
    have := (hiff.mp h).2.1
    rw [hv] at this
    simp at this
  · intro hu
    obtain ⟨r, o, kind, target, idx, rfl, hr, hk, ht, hi⟩ := IsArrayIterator_ok_true hgen
    have hread : Heap.read heap (.object r) ITERATED_OBJECT_ID = target := by
      simp [Heap.read_object _ hr, JSObject.get, ITERATED_OBJECT_ID, ht]
    rw [hread] at hu
    subst hu
    exact ArrayIteratorNext_exhausted host hr hk ht hi

/-- C7 at a concrete input: an array iterator at reference 1 whose target, the
typed view at reference 0, has a detached buffer. -/
theorem detached_buffer_raises_iff_witness :
    (ArrayIteratorNext (detachedViewHost (.object 0))
        (CreateArrayIterator [JSObject.empty] (.object 0) (.number 2)).1 (.object 1)).2 =
      .error (.TypeError
        "Cannot perform Array Iterator.prototype.next on a detached ArrayBuffer") :=
  (detached_buffer_raises_iff (detachedViewHost (.object 0))
    (CreateArrayIterator [JSObject.empty] (.object 0) (.number 2)).1 (.object 1)
    (by rfl)).1.mpr ⟨by decide, by rfl, by rfl⟩

/-- C8. No partial results: a call of a step operation completes either with
exactly one result or with an exception and no result; and when
`ArrayIteratorNext` raises because of a brand mismatch or a detached buffer, the
heap (hence target, cursor and kind of the receiver) is exactly as before the
call. -/
theorem no_partial_results (host : Host) (heap : Heap) (this : Value) :
    ((∃ res, (ArrayIteratorNext host heap this).2 = .ok res) ∨
      ∃ e, (ArrayIteratorNext host heap this).2 = .error e) ∧
    ((∃ res, (SetIteratorNext host heap this).2 = .ok res) ∨
      ∃ e, (SetIteratorNext host heap this).2 = .error e) ∧
    ((∃ res, (MapIteratorNext host heap this).2 = .ok res) ∨
      ∃ e, (MapIteratorNext host heap this).2 = .error e) ∧
    ((∃ res, (StringIteratorNext heap this).2 = .ok res) ∨
      ∃ e, (StringIteratorNext heap this).2 = .error e) ∧
    (((ArrayIteratorNext host heap this).2 = .error (.TypeError "not an Array Iterator") ∨
      (ArrayIteratorNext host heap this).2 = .error (.TypeError
        "Cannot perform Array Iterator.prototype.next on a detached ArrayBuffer")) →
      (ArrayIteratorNext host heap this).1 = heap) := by
  refine ⟨?_, ?_, ?_, ?_, ?_⟩
  · cases (ArrayIteratorNext host heap this).2 with
    | ok res => exact Or.inl ⟨res, rfl⟩
    | error e => exact Or.inr ⟨e, rfl⟩
  · cases (SetIteratorNext host heap this).2 with
    | ok res => exact Or.inl ⟨res, rfl⟩
    | error e => exact Or.inr ⟨e, rfl⟩
  · cases (MapIteratorNext host heap this).2 with
    | ok res => exact Or.inl ⟨res, rfl⟩
    | error e => exact Or.inr ⟨e, rfl⟩
  · cases (StringIteratorNext heap this).2 with
    | ok res => exact Or.inl ⟨res, rfl⟩
    | error e => exact Or.inr ⟨e, rfl⟩
  · intro h
    rcases ArrayIteratorNext_cases host heap this with
      ⟨-, hn⟩ | ⟨-, -, hn⟩ | ⟨-, -, -, -, hn⟩ | ⟨-, -, hb⟩
    · rw [hn]
    · rw [hn]
    · rw [hn]
    · rcases h with h | h
      · exact absurd h (hb.ne_typeError _)
      · exact absurd h (hb.ne_typeError _)

/-- C8 at a concrete input: `ArrayIteratorNext` on an object without hidden
keys. -/
theorem no_partial_results_witness :
    (ArrayIteratorNext (arrayHost (.object 0) []) [JSObject.empty] (.object 0)).1 =
      [JSObject.empty] :=
  (no_partial_results (arrayHost (.object 0) []) [JSObject.empty] (.object 0)).2.2.2.2
    (Or.inl (by rfl))

/-- C9. Keyed iterator creation is brand-checked: `CreateSetIterator(t, kind)`
raises a TypeError if and only if `t` is not an object or `Internal.IsSet(t)` is
false, and `CreateMapIterator(t, kind)` if and only if `t` is not an object or
`Internal.IsMap(t)` is false.  When creation raises, nothing is allocated and no
iterator is returned; when it succeeds, the returned iterator is a new object
whose target is `t`, whose kind is `kind` and whose cursor is
`Internal.GetMapCursor(t)`. -/
theorem keyed_creation_brand_checked (host : Host) (heap : Heap) (t kind : Value) :
    (((∃ e, (CreateSetIterator host heap t kind).2 = .error e ∧ e.isTypeError = true) ↔
        (t.isObject = false ∨ host.IsSet t = false)) ∧
      (∀ e, (CreateSetIterator host heap t kind).2 = .error e →
        e.isTypeError = true ∧ (CreateSetIterator host heap t kind).1 = heap) ∧
      (t.isObject = true → host.IsSet t = true →
        ∃ o, CreateSetIterator host heap t kind = (heap ++ [o], .ok (.object heap.length)) ∧
          o.IteratedObject = some t ∧ o.SetIterationKind = some kind ∧
          o.IteratorNextIndex = some (host.GetMapCursor t))) ∧
    (((∃ e, (CreateMapIterator host heap t kind).2 = .error e ∧ e.isTypeError = true) ↔
        (t.isObject = false ∨ host.IsMap t = false)) ∧
      (∀ e, (CreateMapIterator host heap t kind).2 = .error e →
        e.isTypeError = true ∧ (CreateMapIterator host heap t kind).1 = heap) ∧
      (t.isObject = true → host.IsMap t = true →
        ∃ o, CreateMapIterator host heap t kind = (heap ++ [o], .ok (.object heap.length)) ∧
          o.IteratedObject = some t ∧ o.MapIterationKind = some kind ∧
          o.IteratorNextIndex = some (host.GetMapCursor t))) := by
  constructor
  · cases ho : t.isObject with
    | false =>
      have hc : CreateSetIterator host heap t kind = (heap, .error .RequireObjectTypeError) := by
        simp [CreateSetIterator, RequireObject, ho]
      simp [hc, JSError.isTypeError]
    | true =>
      cases hs : host.IsSet t with
      | false =>
        have hc : CreateSetIterator host heap t kind =
            (heap, .error (.TypeError "not a Set")) := by
          simp [CreateSetIterator, RequireObject, ho, hs]
        simp [hc, JSError.isTypeError]
      | true =>
        simp [CreateSetIterator_eq host heap t kind ho hs, JSObject.set]
  · cases ho : t.isObject with
    | false =>
      have hc : CreateMapIterator host heap t kind = (heap, .error .RequireObjectTypeError) := by
        simp [CreateMapIterator, RequireObject, ho]
      simp [hc, JSError.isTypeError]
    | true =>
      cases hs : host.IsMap t with
      | false =>
        have hc : CreateMapIterator host heap t kind =
            (heap, .error (.TypeError "not a Map")) := by
          simp [CreateMapIterator, RequireObject, ho, hs]
        simp [hc, JSError.isTypeError]
      | true =>
        simp [CreateMapIterator_eq host heap t kind ho hs, JSObject.set]

/-- C9 at a concrete input: creating a map iterator over the map at reference
0. -/
theorem keyed_creation_brand_checked_witness :
    ∃ o, CreateMapIterator (mapHost (.object 0) [(.number 1, .number 2)]) [JSObject.empty]
        (.object 0) (.number 3) = ([JSObject.empty] ++ [o], .ok (.object 1)) ∧
      o.IteratedObject = some (.object 0) ∧ o.MapIterationKind = some (.number 3) ∧
      o.IteratorNextIndex = some (.number (-1)) :=
  (keyed_creation_brand_checked (mapHost (.object 0) [(.number 1, .number 2)])
    [JSObject.empty] (.object 0) (.number 3)).2.2.2 (by rfl) (by rfl)

/-- C10. Map iterator step result: for a map iterator with present target, if
advancing the cursor finds no further live entry, the step sets the target to
`undefined` and returns `{value: undefined, done: true}`; otherwise, with `k`
and `v` the key and value at the advanced cursor, it returns `done = false` with
value `k` for kind `KEY`, `v` for kind `VALUE` and the pair `[k, v]` for kind
`KEY_PLUS_VALUE`. -/
theorem map_iterator_step_result (host : Host) (heap : Heap) (this : Value)
    (hgen : IsMapIterator heap this = .ok true)
    (hpres : heap.read this ITERATED_OBJECT_ID ≠ .undefined) :
    ((host.AdvanceMapCursor (heap.read this ITERATED_OBJECT_ID)
        (heap.read this ITERATOR_NEXT_INDEX_ID)).1 = false →
      (MapIteratorNext host heap this).2 = .ok (CreateIterResultObject .undefined true) ∧
      (MapIteratorNext host heap this).1.read this ITERATED_OBJECT_ID = .undefined) ∧
    ((host.AdvanceMapCursor (heap.read this ITERATED_OBJECT_ID)
        (heap.read this ITERATOR_NEXT_INDEX_ID)).1 = true →
      (heap.read this MAP_ITERATION_KIND_ID = .number ITERATION_KIND_KEY →
        (MapIteratorNext host heap this).2 = .ok (CreateIterResultObject
          (host.GetKeyFromMapCursor (heap.read this ITERATED_OBJECT_ID)
            (host.AdvanceMapCursor (heap.read this ITERATED_OBJECT_ID)
              (heap.read this ITERATOR_NEXT_INDEX_ID)).2) false)) ∧
      (heap.read this MAP_ITERATION_KIND_ID = .number ITERATION_KIND_VALUE →
        (MapIteratorNext host heap this).2 = .ok (CreateIterResultObject
          (host.GetValueFromMapCursor (heap.read this ITERATED_OBJECT_ID)
            (host.AdvanceMapCursor (heap.read this ITERATED_OBJECT_ID)
              (heap.read this ITERATOR_NEXT_INDEX_ID)).2) false)) ∧
      (heap.read this MAP_ITERATION_KIND_ID = .number ITERATION_KIND_KEY_PLUS_VALUE →
        (MapIteratorNext host heap this).2 = .ok (CreateIterResultObject
          (.array2
            (host.GetKeyFromMapCursor (heap.read this ITERATED_OBJECT_ID)
              (host.AdvanceMapCursor (heap.read this ITERATED_OBJECT_ID)
                (heap.read this ITERATOR_NEXT_INDEX_ID)).2)
            (host.GetValueFromMapCursor (heap.read this ITERATED_OBJECT_ID)
              (host.AdvanceMapCursor (heap.read this ITERATED_OBJECT_ID)
                (heap.read this ITERATOR_NEXT_INDEX_ID)).2)) false))) := by
  obtain ⟨r, o, kind, target, idx, rfl, hr, hk, ht, hi⟩ := IsMapIterator_ok_true hgen
  have hread : Heap.read heap (.object r) ITERATED_OBJECT_ID = target := by
    simp [Heap.read_object _ hr, JSObject.get, ITERATED_OBJECT_ID, ht]
  have hreadi : Heap.read heap (.object r) ITERATOR_NEXT_INDEX_ID = idx := by
    simp [Heap.read_object _ hr, JSObject.get, ITERATOR_NEXT_INDEX_ID, hi]
  have hreadk : Heap.read heap (.object r) MAP_ITERATION_KIND_ID = kind := by
    simp [Heap.read_object _ hr, JSObject.get, MAP_ITERATION_KIND_ID, hk]
  rw [hread] at hpres
  rw [hread, hreadi, hreadk, MapIteratorNext_object host hr hk ht hi]
  constructor
  · intro hadv
    simp only [hpres, if_false, hadv, Bool.not_false, if_true, true_and]
    rw [Heap.read_object _ (Heap.getElem?_set_same _ _ _ _ hr)]
    simp [JSObject.get, JSObject.set, ITERATED_OBJECT_ID]
  · intro hadv
    refine ⟨?_, ?_, ?_⟩
    · intro hkind
      simp [hpres, hadv, hkind]
    · intro hkind
      simp [hpres, hadv, hkind, ITERATION_KIND_KEY_eq, ITERATION_KIND_VALUE_eq]
    · intro hkind
      simp [hpres, hadv, hkind, ITERATION_KIND_KEY_eq, ITERATION_KIND_VALUE_eq,
        ITERATION_KIND_KEY_PLUS_VALUE_eq]

/-- C10 at a concrete input: the first step of an entries iterator over the map
with the single entry `1 -> 2` returns the pair `[1, 2]`. -/
theorem map_iterator_step_result_witness :
    (MapIteratorNext (mapHost (.object 0) [(.number 1, .number 2)])
        (CreateMapIterator (mapHost (.object 0) [(.number 1, .number 2)]) [JSObject.empty]
          (.object 0) (.number 3)).1 (.object 1)).2 =
      .ok (CreateIterResultObject (.array2 (.number 1) (.number 2)) false) :=
  ((map_iterator_step_result (mapHost (.object 0) [(.number 1, .number 2)])
    (CreateMapIterator (mapHost (.object 0) [(.number 1, .number 2)]) [JSObject.empty]
      (.object 0) (.number 3)).1 (.object 1) (by rfl) (by decide)).2 (by rfl)).2.2 (by rfl)

/-- C11 (as stated) fails on the code: a set iterator created with kind `KEY`
over the set `{5}` finds the live entry with key 5, but its step fails the
assertion of line 186 instead of returning `{value: 5, done: false}`. -/
theorem set_iterator_key_kind_counterexample :
    (CreateSetIterator (mapHost (.object 0) [(.number 5, .number 5)]) [JSObject.empty]
        (.object 0) (.number ITERATION_KIND_KEY)).2 = .ok (.object 1) ∧
    ((mapHost (.object 0) [(.number 5, .number 5)]).AdvanceMapCursor (.object 0)
        (.number (-1))) = (true, .number 0) ∧
    (mapHost (.object 0) [(.number 5, .number 5)]).GetKeyFromMapCursor (.object 0)
        (.number 0) = .number 5 ∧
    (SetIteratorNext (mapHost (.object 0) [(.number 5, .number 5)])
        (CreateSetIterator (mapHost (.object 0) [(.number 5, .number 5)]) [JSObject.empty]
          (.object 0) (.number ITERATION_KIND_KEY)).1 (.object 1)).2 =
      .error .AssertionFailed ∧
    (SetIteratorNext (mapHost (.object 0) [(.number 5, .number 5)])
        (CreateSetIterator (mapHost (.object 0) [(.number 5, .number 5)]) [JSObject.empty]
          (.object 0) (.number ITERATION_KIND_KEY)).1 (.object 1)).2 ≠
      .ok (CreateIterResultObject (.number 5) false) := by
  refine ⟨by rfl, by rfl, by rfl, by rfl, ?_⟩
  have h : (SetIteratorNext (mapHost (.object 0) [(.number 5, .number 5)])
        (CreateSetIterator (mapHost (.object 0) [(.number 5, .number 5)]) [JSObject.empty]
          (.object 0) (.number ITERATION_KIND_KEY)).1 (.object 1)).2 =
      .error .AssertionFailed := by rfl
  rw [h]
  simp

/-- C11 (amended). Set iterator step result: for a set iterator with present
target whose advance finds a live entry with key `k`, the step returns
`done = false` with value `k` for kind `VALUE` and the pair `[k, k]` for kind
`KEY_PLUS_VALUE`; for every other kind, `KEY` included, the assertion of line
186 fails and no result is returned. -/
theorem set_iterator_step_result (host : Host) (heap : Heap) (this : Value)
    (hgen : IsSetIterator heap this = .ok true)
    (hpres : heap.read this ITERATED_OBJECT_ID ≠ .undefined)
    (hadv : (host.AdvanceMapCursor (heap.read this ITERATED_OBJECT_ID)
        (heap.read this ITERATOR_NEXT_INDEX_ID)).1 = true) :
    (heap.read this SET_ITERATION_KIND_ID = .number ITERATION_KIND_VALUE →
      (SetIteratorNext host heap this).2 = .ok (CreateIterResultObject
        (host.GetKeyFromMapCursor (heap.read this ITERATED_OBJECT_ID)
          (host.AdvanceMapCursor (heap.read this ITERATED_OBJECT_ID)
            (heap.read this ITERATOR_NEXT_INDEX_ID)).2) false)) ∧
    (heap.read this SET_ITERATION_KIND_ID = .number ITERATION_KIND_KEY_PLUS_VALUE →
      (SetIteratorNext host heap this).2 = .ok (CreateIterResultObject
        (.array2
          (host.GetKeyFromMapCursor (heap.read this ITERATED_OBJECT_ID)
            (host.AdvanceMapCursor (heap.read this ITERATED_OBJECT_ID)
              (heap.read this ITERATOR_NEXT_INDEX_ID)).2)
          (host.GetKeyFromMapCursor (heap.read this ITERATED_OBJECT_ID)
            (host.AdvanceMapCursor (heap.read this ITERATED_OBJECT_ID)
              (heap.read this ITERATOR_NEXT_INDEX_ID)).2)) false)) ∧
    (heap.read this SET_ITERATION_KIND_ID ≠ .number ITERATION_KIND_VALUE →
      heap.read this SET_ITERATION_KIND_ID ≠ .number ITERATION_KIND_KEY_PLUS_VALUE →
      (SetIteratorNext host heap this).2 = .error .AssertionFailed) := by
  obtain ⟨r, o, kind, target, idx, rfl, hr, hk, ht, hi⟩ := IsSetIterator_ok_true hgen
  have hread : Heap.read heap (.object r) ITERATED_OBJECT_ID = target := by
    simp [Heap.read_object _ hr, JSObject.get, ITERATED_OBJECT_ID, ht]
  have hreadi : Heap.read heap (.object r) ITERATOR_NEXT_INDEX_ID = idx := by
    simp [Heap.read_object _ hr, JSObject.get, ITERATOR_NEXT_INDEX_ID, hi]
  have hreadk : Heap.read heap (.object r) SET_ITERATION_KIND_ID = kind := by
    simp [Heap.read_object _ hr, JSObject.get, SET_ITERATION_KIND_ID, hk]
  rw [hread] at hpres
  rw [hread, hreadi] at hadv
  rw [hread, hreadi, hreadk, SetIteratorNext_object host hr hk ht hi]
  refine ⟨?_, ?_, ?_⟩
  · intro hkind
    simp [hpres, hadv, hkind]
  · intro hkind
    simp [hpres, hadv, hkind, ITERATION_KIND_VALUE_eq, ITERATION_KIND_KEY_PLUS_VALUE_eq]
  · intro h1 h2
    simp [hpres, hadv, h1, h2]

/-- C11 (amended) at a concrete input: the first step of a values iterator over
the set `{5}` returns 5. -/
theorem set_iterator_step_result_witness :
    (SetIteratorNext (mapHost (.object 0) [(.number 5, .number 5)])
        (CreateSetIterator (mapHost (.object 0) [(.number 5, .number 5)]) [JSObject.empty]
          (.object 0) (.number ITERATION_KIND_VALUE)).1 (.object 1)).2 =
      .ok (CreateIterResultObject (.number 5) false) :=
  (set_iterator_step_result (mapHost (.object 0) [(.number 5, .number 5)])
    (CreateSetIterator (mapHost (.object 0) [(.number 5, .number 5)]) [JSObject.empty]
      (.object 0) (.number ITERATION_KIND_VALUE)).1 (.object 1) (by rfl) (by decide)
    (by rfl)).1 (by rfl)

/-- C15. Terminal results carry no value: every result returned by
`ArrayIteratorNext`, `SetIteratorNext`, `MapIteratorNext` or
`StringIteratorNext`, in any state of the heap and of the world, is either
exactly `{value: undefined, done: true}` or has `done = false`; so a result
with `done = true` has value `undefined` and a result with a defined value has
`done = false`. -/
theorem terminal_results_carry_no_value (host : Host) (heap : Heap) (this : Value)
    (res : IterResult)
    (h : (ArrayIteratorNext host heap this).2 = .ok res ∨
      (SetIteratorNext host heap this).2 = .ok res ∨
      (MapIteratorNext host heap this).2 = .ok res ∨
      (StringIteratorNext heap this).2 = .ok res) :
    (res = CreateIterResultObject .undefined true ∨ res.done = false) ∧
    (res.done = true → res.value = .undefined) ∧
    (res.value ≠ .undefined → res.done = false) := by
  have key : res = terminalResult ∨ res.done = false := by
    rcases h with h | h | h | h
    · exact ArrayIteratorNext_ok_cases h
    · exact SetIteratorNext_ok_cases h
    · exact MapIteratorNext_ok_cases h
    · exact StringIteratorNext_ok_cases h
  refine ⟨key, ?_, ?_⟩
  · intro hd
    rcases key with rfl | hf
    · rfl
    · rw [hf] at hd
      cases hd
  · intro hv
    rcases key with rfl | hf
    · exact absurd rfl hv
    · exact hf

/-- C15 at a concrete input: the first step of an iterator over the empty
array. -/
theorem terminal_results_carry_no_value_witness :
    (ArrayIteratorNext (arrayHost (.object 0) [])
        (CreateArrayIterator [JSObject.empty] (.object 0) (.number 2)).1 (.object 1)).2 =
      .ok (CreateIterResultObject .undefined true) ∧
    (CreateIterResultObject .undefined true).value = .undefined :=
  ⟨by rfl, (terminal_results_carry_no_value (arrayHost (.object 0) [])
    (CreateArrayIterator [JSObject.empty] (.object 0) (.number 2)).1 (.object 1)
    (CreateIterResultObject .undefined true) (Or.inl (by rfl))).2.1 rfl⟩

/-- C17. Default iteration entry points: on `Map.prototype` the default
(`Symbol.iterator`) entry point is the same function as `entries` and creates a
`KEY_PLUS_VALUE` iterator; on `Array.prototype`, `TypedArray.prototype` and
`Set.prototype` it is the same function as `values` and creates a `VALUE`
iterator; `keys`, `values` and `entries` of arrays, typed arrays and maps create
iterators of kind `KEY`, `VALUE` and `KEY_PLUS_VALUE`; every created iterator is
a new object over the receiver with its cursor at the start (index 0, or the
head cursor of the collection). -/
theorem default_entry_points :
    (MapPrototype .symbolIterator = MapPrototype .entries ∧
      ArrayPrototype .symbolIterator = ArrayPrototype .values ∧
      TypedArrayPrototype .symbolIterator = TypedArrayPrototype .values ∧
      SetPrototype .symbolIterator = SetPrototype .values) ∧
    (∀ (m : MethodName) (host : Host) (heap : Heap) (this obj : Value),
      host.ToObject this = .ok obj →
        (ArrayPrototype m host heap this).2 = .ok (.object heap.length) ∧
        (ArrayPrototype m host heap this).1.deref (.object heap.length) =
          some { JSObject.empty with
            IteratedObject := some obj
            IteratorNextIndex := some (.number 0)
            ArrayIterationKind := some (.number (sequenceKindOf m)) } ∧
        ∀ r, r < heap.length → (ArrayPrototype m host heap this).1[r]? = heap[r]?) ∧
    (∀ (m : MethodName) (host : Host) (heap : Heap) (this obj : Value),
      host.IsValidTypedArray this = true → host.ToObject this = .ok obj →
        (TypedArrayPrototype m host heap this).2 = .ok (.object heap.length) ∧
        (TypedArrayPrototype m host heap this).1.deref (.object heap.length) =
          some { JSObject.empty with
            IteratedObject := some obj
            IteratorNextIndex := some (.number 0)
            ArrayIterationKind := some (.number (sequenceKindOf m)) } ∧
        ∀ r, r < heap.length → (TypedArrayPrototype m host heap this).1[r]? = heap[r]?) ∧
    (∀ (m : MethodName) (host : Host) (heap : Heap) (this : Value),
      this.isObject = true → host.IsMap this = true →
        (MapPrototype m host heap this).2 = .ok (.object heap.length) ∧
        (MapPrototype m host heap this).1.deref (.object heap.length) =
          some { JSObject.empty with
            IteratedObject := some this
            IteratorNextIndex := some (host.GetMapCursor this)
            MapIterationKind := some (.number (mapKindOf m)) } ∧
        ∀ r, r < heap.length → (MapPrototype m host heap this).1[r]? = heap[r]?) ∧
    (∀ (host : Host) (heap : Heap) (this : Value),
      this.isObject = true → host.IsSet this = true →
        (SetPrototype .symbolIterator host heap this).2 = .ok (.object heap.length) ∧
        (SetPrototype .symbolIterator host heap this).1.deref (.object heap.length) =
          some { JSObject.empty with
            IteratedObject := some this
            IteratorNextIndex := some (host.GetMapCursor this)
            SetIterationKind := some (.number ITERATION_KIND_VALUE) }) := by
  refine ⟨⟨rfl, rfl, rfl, rfl⟩, ?_, ?_, ?_, ?_⟩
  · intro m host heap this obj ho
    have hlt : ∀ r, r < heap.length → ∀ o : JSObject, (heap ++ [o])[r]? = heap[r]? :=
      fun r hr o => List.getElem?_append_left hr
    cases m <;>
      simp [ArrayPrototype, arrayKeys, arrayValues, arrayEntries, arrayIteratorOf, ho,
        CreateArrayIterator_eq, Heap.deref, JSObject.set, JSObject.empty, sequenceKindOf] <;>
      exact fun r hr => hlt r hr _
  · intro m host heap this obj hv ho
    have hlt : ∀ r, r < heap.length → ∀ o : JSObject, (heap ++ [o])[r]? = heap[r]? :=
      fun r hr o => List.getElem?_append_left hr
    cases m <;>
      simp [TypedArrayPrototype, typedArrayKeys, typedArrayValues, typedArrayEntries,
        typedArrayIteratorOf, ValidateTypedArray, liftHost, hv, ho,
        CreateArrayIterator_eq, Heap.deref, JSObject.set, JSObject.empty, sequenceKindOf] <;>
      exact fun r hr => hlt r hr _
  · intro m host heap this hobj hmap
    have hlt : ∀ r, r < heap.length → ∀ o : JSObject, (heap ++ [o])[r]? = heap[r]? :=
      fun r hr o => List.getElem?_append_left hr
    cases m <;>
      simp [MapPrototype, mapKeys, mapValues, mapEntries,
        CreateMapIterator_eq host heap this _ hobj hmap,
        Heap.deref, JSObject.set, JSObject.empty, mapKindOf] <;>
      exact fun r hr => hlt r hr _
  · intro host heap this hobj hset
    simp [SetPrototype, setValues, CreateSetIterator_eq host heap this _ hobj hset,
      Heap.deref, JSObject.set, JSObject.empty]

/-- C17 at a concrete input: the default entry point of `Map.prototype` on the
map at reference 0 creates an entries iterator with the head cursor. -/
theorem default_entry_points_witness :
    (MapPrototype .symbolIterator (mapHost (.object 0) []) [JSObject.empty] (.object 0)).2 =
      .ok (.object 1) ∧
    (MapPrototype .symbolIterator (mapHost (.object 0) []) [JSObject.empty] (.object 0)).1.deref
        (.object 1) =
      some { JSObject.empty with
        IteratedObject := some (.object 0)
        IteratorNextIndex := some (.number (-1))
        MapIterationKind := some (.number ITERATION_KIND_KEY_PLUS_VALUE) } :=
  ⟨(default_entry_points.2.2.2.1 .symbolIterator (mapHost (.object 0) []) [JSObject.empty]
      (.object 0) (by rfl) (by rfl)).1,
   (default_entry_points.2.2.2.1 .symbolIterator (mapHost (.object 0) []) [JSObject.empty]
      (.object 0) (by rfl) (by rfl)).2.1⟩

/-- C18. An iterator is itself iterable: for every receiver `x` and every heap,
`getIteratorPrototype` returns `x` itself and leaves the heap as it is, so
applying it any number of times in a row gives the same as applying it once. -/
theorem iterator_is_iterable (heap : Heap) (x : Value) :
    getIteratorPrototype heap x = (heap, .ok x) ∧
    ∀ n : Nat, applyTimes getIteratorPrototype n heap x = (heap, .ok x) := by
  refine ⟨rfl, ?_⟩
  intro n
  induction n with
  | zero => rfl
  | succ n ih => simpa [applyTimes, getIteratorPrototype] using ih

/-- C14. Independence: two iterators created by `CreateArrayIterator` over the
same target are distinct objects, and a step of one iterator leaves the slots
(target, cursor, kind) of every other object unchanged; hence, in the same
world, the result the other produces on its next step is the same as if the
first had not been stepped. -/
theorem independence :
    (∀ (heap : Heap) (array kind1 kind2 : Value),
      (CreateArrayIterator (CreateArrayIterator heap array kind1).1 array kind2).2 ≠
        (CreateArrayIterator heap array kind1).2 ∧
      (CreateArrayIterator (CreateArrayIterator heap array kind1).1 array kind2).1.deref
          (CreateArrayIterator heap array kind1).2 =
        (CreateArrayIterator heap array kind1).1.deref
          (CreateArrayIterator heap array kind1).2) ∧
    (∀ (host host2 : Host) (heap : Heap) (this other : Value), other ≠ this →
      (ArrayIteratorNext host heap this).1.deref other = heap.deref other ∧
      (ArrayIteratorNext host2 (ArrayIteratorNext host heap this).1 other).2 =
        (ArrayIteratorNext host2 heap other).2) := by
  constructor
  · intro heap array kind1 kind2
    simp only [CreateArrayIterator_eq]
    constructor
    · simp
    · simp only [Heap.deref]
      rw [List.getElem?_append_left (by simp)]
  · intro host host2 heap this other hne
    have hf := ArrayIteratorNext_frame host heap hne
    exact ⟨hf, ArrayIteratorNext_congr host2 hf⟩

/-- C14 at a concrete input: two iterators over the array `[10, 20]`; after a
step of the first one, the second one still returns the first element. -/
theorem independence_witness :
    (ArrayIteratorNext (arrayHost (.object 0) [.number 10, .number 20])
        (ArrayIteratorNext (arrayHost (.object 0) [.number 10, .number 20])
          (CreateArrayIterator (CreateArrayIterator [JSObject.empty] (.object 0)
            (.number 2)).1 (.object 0) (.number 2)).1 (.object 1)).1 (.object 2)).2 =
      (ArrayIteratorNext (arrayHost (.object 0) [.number 10, .number 20])
        (CreateArrayIterator (CreateArrayIterator [JSObject.empty] (.object 0)
          (.number 2)).1 (.object 0) (.number 2)).1 (.object 2)).2 :=
  (independence.2 (arrayHost (.object 0) [.number 10, .number 20])
    (arrayHost (.object 0) [.number 10, .number 20])
    (CreateArrayIterator (CreateArrayIterator [JSObject.empty] (.object 0)
      (.number 2)).1 (.object 0) (.number 2)).1 (.object 1) (.object 2) (by decide)).2

/-- C16 (as stated) fails on the code: a step whose indexed read raises is a
failing step, yet it has already moved the cursor.  Over an array of length 1
whose element read throws, the first step of a fresh `VALUE` iterator completes
with that exception, and the cursor, 0 before the call, is 1 after it although
no non-terminal step has been taken. -/
theorem cursor_after_failing_read_counterexample :
    (CreateArrayIterator [JSObject.empty] (.object 0) (.number ITERATION_KIND_VALUE)).1.read
        (.object 1) ITERATOR_NEXT_INDEX_ID = .number 0 ∧
    (ArrayIteratorNext (throwingHost (.object 0) 1 (.number 99))
        (CreateArrayIterator [JSObject.empty] (.object 0) (.number ITERATION_KIND_VALUE)).1
        (.object 1)).2 = .error (.hostThrow (.number 99)) ∧
    (ArrayIteratorNext (throwingHost (.object 0) 1 (.number 99))
        (CreateArrayIterator [JSObject.empty] (.object 0) (.number ITERATION_KIND_VALUE)).1
        (.object 1)).1.read (.object 1) ITERATOR_NEXT_INDEX_ID = .number 1 ∧
    (ArrayIteratorNext (throwingHost (.object 0) 1 (.number 99))
        (CreateArrayIterator [JSObject.empty] (.object 0) (.number ITERATION_KIND_VALUE)).1
        (.object 1)).1.read (.object 1) ITERATOR_NEXT_INDEX_ID ≠
      (CreateArrayIterator [JSObject.empty] (.object 0) (.number ITERATION_KIND_VALUE)).1.read
        (.object 1) ITERATOR_NEXT_INDEX_ID := by
  refine ⟨by rfl, by rfl, by rfl, ?_⟩
  have h1 : (CreateArrayIterator [JSObject.empty] (.object 0)
      (.number ITERATION_KIND_VALUE)).1.read (.object 1) ITERATOR_NEXT_INDEX_ID = .number 0 := by
    rfl
  have h2 : (ArrayIteratorNext (throwingHost (.object 0) 1 (.number 99))
      (CreateArrayIterator [JSObject.empty] (.object 0) (.number ITERATION_KIND_VALUE)).1
      (.object 1)).1.read (.object 1) ITERATOR_NEXT_INDEX_ID = .number 1 := by rfl
  rw [h1, h2]
  decide

/-- C16 (amended). Kind is immutable and, as long as no read of the target steps
the iterator, the cursor never decreases.  (1) No step operation writes a kind
slot: the set, map and string steps and the array step whose reads run no user
code leave every kind slot as it is, and an array step whose reads run user code
keeps every kind slot that code keeps.  (2) For a genuine array iterator with
cursor `c` on entry, in a world whose reads and comparisons leave the iterator's
slots alone: a non-terminal step leaves the cursor at `c + 1`, a terminal step
at `c`, a failing step at `c` or `c + 1`, and at `c` when it fails while reading
the length or comparing the cursor with it.
(3) A step that raises one of the TypeErrors of `iterator.js` (brand mismatch,
detached buffer) leaves the whole heap unchanged, whatever the reads do.  (4) In
a run of a fresh array iterator in which no call raised and no read stepped the
iterator, the cursor equals the number of non-terminal steps.  (5) A
non-terminal step of a string iterator with cursor `p` leaves the cursor at
`p + 1` or `p + 2`.  (6) A world whose reads run no user code leaves every
iterator alone and keeps all kinds, and its step is `ArrayIteratorNext`.
(7) The proviso on the reads is needed: when the `length` getter of the target
steps the iterator once, the getter's step and the outer step both return the
element at 0 and the cursor ends at 1 after two non-terminal steps; when it steps
the iterator twice, the cursor is 2 after the getter and the outer step sets it
back to 1. -/
theorem kind_immutable_cursor_monotone :
    (∀ (host : Host) (heap : Heap) (this v : Value) (k : HiddenKey),
      k = ARRAY_ITERATION_KIND_ID ∨ k = SET_ITERATION_KIND_ID ∨ k = MAP_ITERATION_KIND_ID →
        (ArrayIteratorNext host heap this).1.read v k = heap.read v k ∧
        (SetIteratorNext host heap this).1.read v k = heap.read v k ∧
        (MapIteratorNext host heap this).1.read v k = heap.read v k ∧
        (StringIteratorNext heap this).1.read v k = heap.read v k) ∧
    (∀ (host : ReentrantHost) (heap : Heap) (this v : Value) (k : HiddenKey),
      host.KeepsKinds →
      k = ARRAY_ITERATION_KIND_ID ∨ k = SET_ITERATION_KIND_ID ∨ k = MAP_ITERATION_KIND_ID →
      heap.HasHiddenKey v k = true →
        (ArrayIteratorNextRe host heap this).1.HasHiddenKey v k = true ∧
        (ArrayIteratorNextRe host heap this).1.read v k = heap.read v k) ∧
    (∀ (host : ReentrantHost) (heap : Heap) (this : Value) (c : Int),
      IsArrayIterator heap this = .ok true →
      heap.read this ITERATOR_NEXT_INDEX_ID = .number c →
      host.LeavesAlone this →
        (∀ res, (ArrayIteratorNextRe host heap this).2 = .ok res → res.done = false →
          (ArrayIteratorNextRe host heap this).1.read this ITERATOR_NEXT_INDEX_ID =
            .number (c + 1)) ∧
        (∀ res, (ArrayIteratorNextRe host heap this).2 = .ok res → res.done = true →
          (ArrayIteratorNextRe host heap this).1.read this ITERATOR_NEXT_INDEX_ID =
            .number c) ∧
        (∀ e, (ArrayIteratorNextRe host heap this).2 = .error e →
          (ArrayIteratorNextRe host heap this).1.read this ITERATOR_NEXT_INDEX_ID =
            .number c ∨
          (ArrayIteratorNextRe host heap this).1.read this ITERATOR_NEXT_INDEX_ID =
            .number (c + 1)) ∧
        (∀ e, heap.read this ITERATED_OBJECT_ID ≠ .undefined →
          (arrayLengthRe host heap (heap.read this ITERATED_OBJECT_ID)).2 = .error e →
          (ArrayIteratorNextRe host heap this).2 = .error e ∧
          (ArrayIteratorNextRe host heap this).1.read this ITERATOR_NEXT_INDEX_ID =
            .number c) ∧
        (∀ length v, heap.read this ITERATED_OBJECT_ID ≠ .undefined →
          (arrayLengthRe host heap (heap.read this ITERATED_OBJECT_ID)).2 = .ok length →
          (geRe host (arrayLengthRe host heap (heap.read this ITERATED_OBJECT_ID)).1
            (.number c) length).2 = .error v →
          (ArrayIteratorNextRe host heap this).2 = .error (.hostThrow v) ∧
          (ArrayIteratorNextRe host heap this).1.read this ITERATOR_NEXT_INDEX_ID =
            .number c) ∧
        IsArrayIterator (ArrayIteratorNextRe host heap this).1 this = .ok true ∧
        (ArrayIteratorNextRe host heap this).1.read this ARRAY_ITERATION_KIND_ID =
          heap.read this ARRAY_ITERATION_KIND_ID) ∧
    (∀ (host : ReentrantHost) (heap : Heap) (this : Value) (message : String),
      (ArrayIteratorNextRe host heap this).2 = .error (.TypeError message) →
        (ArrayIteratorNextRe host heap this).1 = heap) ∧
    (∀ (hosts : List ReentrantHost) (heap : Heap) (array kind : Value),
      (∀ host ∈ hosts, host.LeavesAlone (CreateArrayIterator heap array kind).2) →
      (stepsWithRe hosts (CreateArrayIterator heap array kind).1
          (CreateArrayIterator heap array kind).2).2.all isNormal = true →
        (stepsWithRe hosts (CreateArrayIterator heap array kind).1
            (CreateArrayIterator heap array kind).2).1.read
            (CreateArrayIterator heap array kind).2 ITERATOR_NEXT_INDEX_ID =
          .number ((stepsWithRe hosts (CreateArrayIterator heap array kind).1
            (CreateArrayIterator heap array kind).2).2.countP isNonTerminal : Nat)) ∧
    (∀ (heap : Heap) (this : Value) (p : Int) (res : IterResult),
      IsStringIterator heap this = .ok true →
      heap.read this STRING_ITERATOR_NEXT_INDEX_ID = .number p →
      (StringIteratorNext heap this).2 = .ok res → res.done = false →
        (StringIteratorNext heap this).1.read this STRING_ITERATOR_NEXT_INDEX_ID =
          .number (p + 1) ∨
        (StringIteratorNext heap this).1.read this STRING_ITERATOR_NEXT_INDEX_ID =
          .number (p + 2)) ∧
    (∀ (host : Host) (heap : Heap) (this : Value),
      ArrayIteratorNextRe host.toReentrant heap this = ArrayIteratorNext host heap this ∧
      host.toReentrant.LeavesAlone this ∧ host.toReentrant.KeepsKinds) ∧
    ((ArrayIteratorNext (arrayHost (.object 0) [.number 10, .number 20])
        (CreateArrayIterator [JSObject.empty] (.object 0) (.number ITERATION_KIND_VALUE)).1
        (.object 1)).2 = .ok (CreateIterResultObject (.number 10) false) ∧
      (ArrayIteratorNextRe (steppingHost (.object 0) [.number 10, .number 20] (.object 1) 1)
        (CreateArrayIterator [JSObject.empty] (.object 0) (.number ITERATION_KIND_VALUE)).1
        (.object 1)).2 = .ok (CreateIterResultObject (.number 10) false) ∧
      (ArrayIteratorNextRe (steppingHost (.object 0) [.number 10, .number 20] (.object 1) 1)
        (CreateArrayIterator [JSObject.empty] (.object 0) (.number ITERATION_KIND_VALUE)).1
        (.object 1)).1.read (.object 1) ITERATOR_NEXT_INDEX_ID = .number 1) ∧
    ((stepsWith ArrayIteratorNext
          (List.replicate 2 (arrayHost (.object 0) [.number 10, .number 20]))
          (CreateArrayIterator [JSObject.empty] (.object 0)
            (.number ITERATION_KIND_VALUE)).1
          (.object 1)).1.read (.object 1) ITERATOR_NEXT_INDEX_ID = .number 2 ∧
      (ArrayIteratorNextRe (steppingHost (.object 0) [.number 10, .number 20] (.object 1) 2)
        (CreateArrayIterator [JSObject.empty] (.object 0) (.number ITERATION_KIND_VALUE)).1
        (.object 1)).2 = .ok (CreateIterResultObject (.number 10) false) ∧
      (ArrayIteratorNextRe (steppingHost (.object 0) [.number 10, .number 20] (.object 1) 2)
        (CreateArrayIterator [JSObject.empty] (.object 0) (.number ITERATION_KIND_VALUE)).1
        (.object 1)).1.read (.object 1) ITERATOR_NEXT_INDEX_ID = .number 1) := by
  refine ⟨?_, ?_, ?_, ?_, ?_, ?_, ?_, ⟨by rfl, by rfl, by rfl⟩, ⟨by rfl, by rfl, by rfl⟩⟩
  · intro host heap this v k hk
    have hk1 : k ∉ [ITERATED_OBJECT_ID, ITERATOR_NEXT_INDEX_ID] := by
      rcases hk with rfl | rfl | rfl <;> decide
    have hk2 : k ∉ [ITERATED_STRING_ID, STRING_ITERATOR_NEXT_INDEX_ID] := by
      rcases hk with rfl | rfl | rfl <;> decide
    exact ⟨(ArrayIteratorNext_overwrites host heap this).read_of_not_mem v hk1,
      (SetIteratorNext_overwrites host heap this).read_of_not_mem v hk1,
      (MapIteratorNext_overwrites host heap this).read_of_not_mem v hk1,
      (StringIteratorNext_overwrites heap this).read_of_not_mem v hk2⟩
  · intro host heap this v k hq hk hp
    exact ArrayIteratorNextRe_keepsKinds hq heap this hk hp
  · intro host heap this c hI hc hq
    obtain ⟨hI1, hkind1, hcur⟩ := ArrayIteratorNextRe_cursor host hI hc hq
    refine ⟨?_, ?_, ?_, ?_, ?_, hI1, hkind1⟩
    · intro res hres hd
      rcases hcur with ⟨-, h | ⟨e, h⟩⟩ | ⟨h1, -⟩
      · rw [h] at hres
        simp only [Except.ok.injEq] at hres
        rw [← hres] at hd
        simp [terminalResult, CreateIterResultObject] at hd
      · rw [h] at hres
        simp at hres
      · exact h1
    · intro res hres hd
      rcases hcur with ⟨h1, -⟩ | ⟨-, ⟨v, h⟩ | ⟨e, h⟩⟩
      · exact h1
      · rw [h] at hres
        simp only [Except.ok.injEq] at hres
        rw [← hres] at hd
        simp [CreateIterResultObject] at hd
      · rw [h] at hres
        simp at hres
    · intro e _
      rcases hcur with ⟨h1, -⟩ | ⟨h1, -⟩
      · exact Or.inl h1
      · exact Or.inr h1
    · intro e hne hlen
      obtain ⟨r, o, kind, target, idx, rfl, hr, hk, ht, hi⟩ := IsArrayIterator_ok_true hI
      have hread : Heap.read heap (.object r) ITERATED_OBJECT_ID = target := by
        simp [Heap.read_object _ hr, JSObject.get, ITERATED_OBJECT_ID, ht]
      rw [hread] at hne hlen
      have hL : (arrayLengthRe host heap target).1[r]? = some o := by
        have h := arrayLengthRe_leavesAlone hq heap target
        simp only [Heap.deref] at h
        rw [h, hr]
      rw [ArrayIteratorNextRe_object host hr hk ht hi hq, if_neg hne, hlen]
      refine ⟨rfl, ?_⟩
      rw [Heap.read_object _ hr] at hc
      simp only []
      rw [Heap.read_object _ hL]
      exact hc
    · intro length v hne hlen hcmp
      obtain ⟨r, o, kind, target, idx, rfl, hr, hk, ht, hi⟩ := IsArrayIterator_ok_true hI
      have hread : Heap.read heap (.object r) ITERATED_OBJECT_ID = target := by
        simp [Heap.read_object _ hr, JSObject.get, ITERATED_OBJECT_ID, ht]
      have hidx : idx = .number c := by
        rw [Heap.read_object _ hr] at hc
        simpa [JSObject.get, ITERATOR_NEXT_INDEX_ID, hi] using hc
      subst hidx
      rw [hread] at hne hlen hcmp
      have hL : (arrayLengthRe host heap target).1[r]? = some o := by
        have h := arrayLengthRe_leavesAlone hq heap target
        simp only [Heap.deref] at h
        rw [h, hr]
      have hC : (geRe host (arrayLengthRe host heap target).1 (.number c) length).1[r]? =
          some o := by
        have h := geRe_leavesAlone hq (arrayLengthRe host heap target).1 (.number c) length
        simp only [Heap.deref] at h
        rw [h, hL]
      rw [ArrayIteratorNextRe_object host hr hk ht hi hq, if_neg hne, hlen]
      simp only []
      rw [hcmp]
      refine ⟨rfl, ?_⟩
      rw [Heap.read_object _ hr] at hc
      simp only []
      rw [Heap.read_object _ hC]
      exact hc
  · intro host heap this message h
    exact ArrayIteratorNextRe_typeError h
  · intro hosts heap array kind hq hall
    have h := array_cursor_counts_re hosts (CreateArrayIterator heap array kind).1
      (CreateArrayIterator heap array kind).2 0 hq
      (by
        rw [CreateArrayIterator_eq]
        simp [IsArrayIterator, Heap.HasHiddenKey_fresh, JSObject.get, JSObject.set,
          ARRAY_ITERATION_KIND_ID, ITERATED_OBJECT_ID, ITERATOR_NEXT_INDEX_ID])
      (by
        rw [CreateArrayIterator_eq]
        simp [Heap.read_fresh, JSObject.get, JSObject.set, ITERATOR_NEXT_INDEX_ID])
      hall
    simpa using h
  · intro heap this p res hI hp h hd
    exact StringIteratorNext_cursor hI hp h hd
  · intro host heap this
    refine ⟨ArrayIteratorNextRe_toReentrant host heap this, ?_, ?_⟩
    · intro heap2 a i
      exact ⟨rfl, rfl, rfl, rfl⟩
    · intro heap2 a i v k _ hp
      exact ⟨⟨hp, rfl⟩, ⟨hp, rfl⟩, ⟨hp, rfl⟩, ⟨hp, rfl⟩⟩

/-- C16 (amended) at a concrete input: the first step of a fresh iterator over
`[10, 20]`, in the world whose reads run no user code, is non-terminal and moves
the cursor from 0 to 1. -/
theorem kind_immutable_cursor_monotone_witness :
    (ArrayIteratorNextRe (arrayHost (.object 0) [.number 10, .number 20]).toReentrant
        (CreateArrayIterator [JSObject.empty] (.object 0) (.number 2)).1
        (.object 1)).2 = .ok (CreateIterResultObject (.number 10) false) ∧
    (ArrayIteratorNextRe (arrayHost (.object 0) [.number 10, .number 20]).toReentrant
        (CreateArrayIterator [JSObject.empty] (.object 0) (.number 2)).1
        (.object 1)).1.read (.object 1) ITERATOR_NEXT_INDEX_ID = .number (0 + 1) :=
  ⟨by rfl,
   (kind_immutable_cursor_monotone.2.2.1
    (arrayHost (.object 0) [.number 10, .number 20]).toReentrant
    (CreateArrayIterator [JSObject.empty] (.object 0) (.number 2)).1 (.object 1) 0
    (by rfl) (by rfl) (fun _ _ _ => ⟨rfl, rfl, rfl, rfl⟩)).1
      (CreateIterResultObject (.number 10) false) (by rfl) (by rfl)⟩

/-- C19. Length coercion for generic sequences: `ToLength` sends a negative
Number, NaN and every value that is not a Number to 0, clamps a Number above the
maximum safe integer to that maximum and keeps every other Number; for a target
that is not a typed view one step uses `ToLength` of the `length` property as
its length, so when that is 0 the first step of a fresh iterator returns the
terminal result and so does every later step, in any world; for a typed view
(not detached) the `length` read is used as it is, without `ToLength`. -/
theorem length_coercion :
    ((∀ n : Int, n < 0 → ToLength (.number n) = .number 0) ∧
      ToLength .nan = .number 0 ∧
      (∀ v, (∀ n, v ≠ .number n) → ToLength v = .number 0) ∧
      (∀ n : Int, MAX_SAFE_INTEGER < n → ToLength (.number n) = .number MAX_SAFE_INTEGER) ∧
      (∀ n : Int, 0 ≤ n → n ≤ MAX_SAFE_INTEGER → ToLength (.number n) = .number n)) ∧
    (∀ (host : Host) (a l : Value), host.CoercesLength →
      host.IsArrayBufferView a = false → host.GetLength a = .ok l →
        arrayLength host a = .ok (ToLength l)) ∧
    (∀ (host : Host) (hosts : List Host) (heap : Heap) (a kind l : Value),
      host.CoercesLength → host.IsArrayBufferView a = false → a ≠ .undefined →
      host.GetLength a = .ok l → ToLength l = .number 0 →
        (stepsWith ArrayIteratorNext (host :: hosts) (CreateArrayIterator heap a kind).1
            (CreateArrayIterator heap a kind).2).2 =
          List.replicate (hosts.length + 1) (.ok terminalResult)) ∧
    (∀ (host : Host) (a : Value),
      host.IsArrayBufferView a = true → host.HasDetachedBuffer a = false →
        arrayLength host a = liftHost (host.GetLength a)) := by
  refine ⟨⟨?_, rfl, ?_, ?_, ?_⟩, ?_, ?_, ?_⟩
  · intro n hn
    simp [ToLength, hn]
  · intro v hv
    cases v with
    | number n => exact absurd rfl (hv n)
    | _ => rfl
  · intro n hn
    have h0 : ¬ n < 0 := by
      unfold MAX_SAFE_INTEGER at hn
      omega
    simp [ToLength, hn, h0]
  · intro n h0 hn
    simp [ToLength, not_lt.mpr h0, not_lt.mpr hn]
  · intro host a l hco hv hl
    simp [arrayLength, hv, hl, hco l, liftHost]
  · intro host hosts heap a kind l hco hv hne hl h0
    have hlen : arrayLength host a = .ok (.number 0) := by
      simp [arrayLength, hv, hl, hco l, liftHost, h0]
    rw [CreateArrayIterator_eq]
    have hr : (heap ++ [((JSObject.empty.set .IteratedObject a).set .IteratorNextIndex
        (.number 0)).set .ArrayIterationKind kind])[heap.length]? = some
          (((JSObject.empty.set .IteratedObject a).set .IteratorNextIndex
            (.number 0)).set .ArrayIterationKind kind) := by simp
    have hstep := ArrayIteratorNext_object host hr
      (by simp [JSObject.set] : _ = some kind) (by simp [JSObject.set] : _ = some a)
      (by simp [JSObject.set] : _ = some (Value.number 0))
    rw [if_neg hne, hlen] at hstep
    simp only [Value.ge, le_refl, decide_True, if_true] at hstep
    have hex : ∀ host2, ArrayIteratorNext host2
        ((heap ++ [((JSObject.empty.set .IteratedObject a).set .IteratorNextIndex
          (.number 0)).set .ArrayIterationKind kind]).set heap.length
            ((((JSObject.empty.set .IteratedObject a).set .IteratorNextIndex
              (.number 0)).set .ArrayIterationKind kind).set .IteratedObject .undefined))
        (.object heap.length) = (_, .ok terminalResult) := fun host2 =>
      ArrayIteratorNext_exhausted host2 (Heap.getElem?_set_same _ _ _ _ hr)
        (by simp [JSObject.set] : _ = some kind) (by simp [JSObject.set])
        (by simp [JSObject.set] : _ = some (Value.number 0))
    rw [stepsWith_cons, hstep]
    simp only []
    rw [stepsWith_const _ _ _ _ hex]
    simp [List.replicate_succ, terminalResult]
  · intro host a hv hd
    simp [arrayLength, hv, hd]

/-- C19 at a concrete input: an object whose `length` is `-3`; three steps of a
fresh values iterator all return the terminal result. -/
theorem length_coercion_witness :
    (stepsWith ArrayIteratorNext [lengthHost (.number (-3)), lengthHost (.number (-3)),
        lengthHost (.number 7)]
        (CreateArrayIterator [JSObject.empty] (.object 0) (.number 2)).1
        (CreateArrayIterator [JSObject.empty] (.object 0) (.number 2)).2).2 =
      List.replicate (2 + 1) (.ok terminalResult) :=
  length_coercion.2.2.1 (lengthHost (.number (-3)))
    [lengthHost (.number (-3)), lengthHost (.number 7)] [JSObject.empty] (.object 0)
    (.number 2) (.number (-3)) (fun _ => rfl) (by rfl) (by decide) (by rfl) (by rfl)

/-- C20. Marker implies complete state: in every heap reachable through object
allocation, the creation functions and the step operations, every value that
carries a family marker also carries the other internal slots of that family;
so the assertions inside `IsArrayIterator`, `IsSetIterator`, `IsMapIterator` and
`IsStringIterator` never fail: each check returns whether the marker is
present. -/
theorem marker_implies_complete_state (heap : Heap) (h : Reachable heap) :
    heap.Complete ∧
    ∀ v : Value,
      IsArrayIterator heap v = .ok (heap.HasHiddenKey v ARRAY_ITERATION_KIND_ID) ∧
      IsSetIterator heap v = .ok (heap.HasHiddenKey v SET_ITERATION_KIND_ID) ∧
      IsMapIterator heap v = .ok (heap.HasHiddenKey v MAP_ITERATION_KIND_ID) ∧
      IsStringIterator heap v = .ok (heap.HasHiddenKey v ITERATED_STRING_ID) := by
  have hc := h.complete
  refine ⟨hc, ?_⟩
  intro v
  obtain ⟨c1, c2, c3, c4⟩ := hc v
  refine ⟨?_, ?_, ?_, ?_⟩
  · cases hm : heap.HasHiddenKey v ARRAY_ITERATION_KIND_ID with
    | false => simp [IsArrayIterator, hm]
    | true => simp [IsArrayIterator, hm, (c1 hm).1, (c1 hm).2]
  · cases hm : heap.HasHiddenKey v SET_ITERATION_KIND_ID with
    | false => simp [IsSetIterator, hm]
    | true => simp [IsSetIterator, hm, (c2 hm).1, (c2 hm).2]
  · cases hm : heap.HasHiddenKey v MAP_ITERATION_KIND_ID with
    | false => simp [IsMapIterator, hm]
    | true => simp [IsMapIterator, hm, (c3 hm).1, (c3 hm).2]
  · cases hm : heap.HasHiddenKey v ITERATED_STRING_ID with
    | false => simp [IsStringIterator, hm]
    | true => simp [IsStringIterator, hm, c4 hm]

/-- C20 at a concrete input: the heap after allocating an array object,
creating an iterator over it and stepping it once. -/
theorem marker_implies_complete_state_witness :
    IsArrayIterator
        (ArrayIteratorNext (arrayHost (.object 0) [.number 10])
          (CreateArrayIterator (Heap.alloc []).1 (.object 0) (.number 2)).1 (.object 1)).1
        (.object 1) =
      .ok (Heap.HasHiddenKey
        (ArrayIteratorNext (arrayHost (.object 0) [.number 10])
          (CreateArrayIterator (Heap.alloc []).1 (.object 0) (.number 2)).1 (.object 1)).1
        (.object 1) ARRAY_ITERATION_KIND_ID) :=
  ((marker_implies_complete_state _
    (Reachable.arrayNext (arrayHost (.object 0) [.number 10]) _ (.object 1)
      (Reachable.createArray _ (.object 0) (.number 2)
        (Reachable.alloc _ Reachable.empty)))).2 (.object 1)).1

/-- C12. Collection mutation tolerance: for a values iterator over a set whose
entries in insertion order are `a`, `b`, `c`, if the first step returns `a` and
`b` is then deleted, the next steps return `c` and then the terminal result.  In
general, for every kind of set and map iterator, a key deleted while the cursor
stands on some slot is never produced afterwards, every other live slot after
the cursor is still produced, in order, and deleting a key that has no live slot
after the cursor (an entry already visited, the most recent one included)
changes nothing in the continuation. -/
theorem collection_mutation_tolerance :
    (∀ (heap : Heap) (coll a b c : Value), coll.isObject = true → a ≠ b → b ≠ c → a ≠ c →
      (stepsWith SetIteratorNext
          [logHost coll (Log.ofKeys [a, b, c]) true,
           logHost coll (Log.delete (Log.ofKeys [a, b, c]) b) true,
           logHost coll (Log.delete (Log.ofKeys [a, b, c]) b) true]
          (CreateSetIterator
            (logHost coll (Log.ofKeys [a, b, c]) true)
            heap coll (.number ITERATION_KIND_VALUE)).1
          (.object heap.length)).2 =
        [.ok (CreateIterResultObject a false), .ok (CreateIterResultObject c false),
          .ok (CreateIterResultObject .undefined true)]) ∧
    MutationTolerant SetIteratorNext SET_ITERATION_KIND_ID (.number ITERATION_KIND_VALUE)
      (fun k _ => k) true ∧
    MutationTolerant SetIteratorNext SET_ITERATION_KIND_ID
      (.number ITERATION_KIND_KEY_PLUS_VALUE) (fun k _ => .array2 k k) true ∧
    MutationTolerant MapIteratorNext MAP_ITERATION_KIND_ID (.number ITERATION_KIND_KEY)
      (fun k _ => k) false ∧
    MutationTolerant MapIteratorNext MAP_ITERATION_KIND_ID (.number ITERATION_KIND_VALUE)
      (fun _ v => v) false ∧
    MutationTolerant MapIteratorNext MAP_ITERATION_KIND_ID
      (.number ITERATION_KIND_KEY_PLUS_VALUE) (fun k v => .array2 k v) false := by
  refine ⟨?_,
    mutationTolerant_of_keyedStep keyedStep_set_values (by decide) (by decide) true,
    mutationTolerant_of_keyedStep keyedStep_set_entries (by decide) (by decide) true,
    mutationTolerant_of_keyedStep keyedStep_map_keys (by decide) (by decide) false,
    mutationTolerant_of_keyedStep keyedStep_map_values (by decide) (by decide) false,
    mutationTolerant_of_keyedStep keyedStep_map_entries (by decide) (by decide) false⟩
  intro heap coll a b c hobj hab hbc hac
  have hne : coll ≠ .undefined := by
    intro h
    rw [h] at hobj
    simp [Value.isObject] at hobj
  rw [CreateSetIterator_eq _ heap coll _ hobj (by simp [logHost])]
  have hr : (heap ++ [((JSObject.empty.set .IteratedObject coll).set .IteratorNextIndex
      ((logHost coll (Log.ofKeys [a, b, c]) true).GetMapCursor
        coll)).set .SetIterationKind (.number ITERATION_KIND_VALUE)])[heap.length]? = some
        (((JSObject.empty.set .IteratedObject coll).set .IteratorNextIndex
          ((logHost coll (Log.ofKeys [a, b, c]) true).GetMapCursor
            coll)).set .SetIterationKind (.number ITERATION_KIND_VALUE)) := by simp
  have h1 := keyedStep_set_values
    (logHost coll (Log.ofKeys [a, b, c]) true) _ heap.length _
    coll (.number (-1)) hr (by simp [JSObject.set, JSObject.get, SET_ITERATION_KIND_ID])
    (by simp [JSObject.set]) (by simp [JSObject.set, logHost])
  rw [if_neg hne] at h1
  have hadv : (logHost coll (Log.ofKeys [a, b, c]) true).AdvanceMapCursor
      coll (.number (-1)) = (true, .number 0) := by
    simp [logHost, Log.advance, Log.ofKeys, Log.insert, nextLive]
  rw [hadv] at h1
  simp only [if_true] at h1
  have hkey : (logHost coll (Log.ofKeys [a, b, c]) true).GetKeyFromMapCursor
      coll (.number 0) = a := by
    simp [logHost, Log.keyAt, Log.slotAt, Log.ofKeys, Log.insert]
  rw [hkey] at h1
  have h2 := (mutationTolerant_of_keyedStep keyedStep_set_values (by decide) (by decide) true
    coll (Log.ofKeys [a, b, c]) b 1 0
    (List.set (heap ++ [((JSObject.empty.set .IteratedObject coll).set .IteratorNextIndex
      ((logHost coll (Log.ofKeys [a, b, c]) true).GetMapCursor
        coll)).set .SetIterationKind (.number ITERATION_KIND_VALUE)]) heap.length
      ((((JSObject.empty.set .IteratedObject coll).set .IteratorNextIndex
        ((logHost coll (Log.ofKeys [a, b, c]) true).GetMapCursor
          coll)).set .SetIterationKind (.number ITERATION_KIND_VALUE)).set
            .IteratorNextIndex (.number 0)))
    heap.length _ hne (by decide)
    (by simp [Log.liveAfter, Log.ofKeys, Log.insert, hbc, Ne.symm hbc])
    (Heap.getElem?_set_same _ _ _ _ hr)
    (by simp [JSObject.set, JSObject.get, SET_ITERATION_KIND_ID])
    (by simp [JSObject.set]) (by simp [JSObject.set])).1
  have hlive : (Log.liveAfter (Log.ofKeys [a, b, c]) 0).filter
      (fun s => decide (s.key ≠ b)) = [{ key := c, value := c, live := true }] := by
    simp [Log.liveAfter, Log.ofKeys, Log.insert, hbc, Ne.symm hbc]
  rw [hlive] at h2
  rw [stepsWith_cons, h1]
  simp only []
  have hrep : ∀ h : Host, [h, h] = List.replicate (1 + 1) h := fun _ => rfl
  rw [hrep, h2]
  simp [slotResult, terminalResult]

/-- C12 at a concrete input: the set `{1, 2, 3}`, with 2 deleted after the first
step. -/
theorem collection_mutation_tolerance_witness :
    (stepsWith SetIteratorNext
        [logHost (.object 0) (Log.ofKeys [.number 1, .number 2, .number 3]) true,
         logHost (.object 0) (Log.delete (Log.ofKeys [.number 1, .number 2, .number 3]) (.number 2)) true,
         logHost (.object 0) (Log.delete (Log.ofKeys [.number 1, .number 2, .number 3]) (.number 2)) true]
        (CreateSetIterator
          (logHost (.object 0) (Log.ofKeys [.number 1, .number 2, .number 3]) true)
          [JSObject.empty] (.object 0) (.number ITERATION_KIND_VALUE)).1
        (.object [JSObject.empty].length)).2 =
      [.ok (CreateIterResultObject (.number 1) false),
        .ok (CreateIterResultObject (.number 3) false),
        .ok (CreateIterResultObject .undefined true)] :=
  collection_mutation_tolerance.1 [JSObject.empty] (.object 0) (.number 1) (.number 2)
    (.number 3) (by rfl) (by decide) (by decide) (by decide)

/-- C13. Late insertion visibility: for a keys iterator created over a map whose
only entry is `a`, if entry `b` is inserted after the creation and before the
first step, the steps return `a`, then `b`, then the terminal result.  In
general, for every kind of set and map iterator, an entry appended while the
cursor stands on a slot of the log (or on the head position) is produced exactly
once, after all live slots that were in the log before it. -/
theorem late_insertion_visibility :
    (∀ (heap : Heap) (coll a va b vb : Value), coll.isObject = true →
      (stepsWith MapIteratorNext
          (List.replicate 3 (logHost coll (Log.insert (Log.ofEntries [(a, va)]) b vb) false))
          (CreateMapIterator (logHost coll (Log.ofEntries [(a, va)]) false)
            heap coll (.number ITERATION_KIND_KEY)).1
          (.object heap.length)).2 =
        [.ok (CreateIterResultObject a false), .ok (CreateIterResultObject b false),
          .ok (CreateIterResultObject .undefined true)]) ∧
    LateInsertionVisible SetIteratorNext SET_ITERATION_KIND_ID (.number ITERATION_KIND_VALUE)
      (fun k _ => k) true ∧
    LateInsertionVisible SetIteratorNext SET_ITERATION_KIND_ID
      (.number ITERATION_KIND_KEY_PLUS_VALUE) (fun k _ => .array2 k k) true ∧
    LateInsertionVisible MapIteratorNext MAP_ITERATION_KIND_ID (.number ITERATION_KIND_KEY)
      (fun k _ => k) false ∧
    LateInsertionVisible MapIteratorNext MAP_ITERATION_KIND_ID (.number ITERATION_KIND_VALUE)
      (fun _ v => v) false ∧
    LateInsertionVisible MapIteratorNext MAP_ITERATION_KIND_ID
      (.number ITERATION_KIND_KEY_PLUS_VALUE) (fun k v => .array2 k v) false := by
  refine ⟨?_,
    lateInsertionVisible_of_keyedStep keyedStep_set_values (by decide) (by decide) true,
    lateInsertionVisible_of_keyedStep keyedStep_set_entries (by decide) (by decide) true,
    lateInsertionVisible_of_keyedStep keyedStep_map_keys (by decide) (by decide) false,
    lateInsertionVisible_of_keyedStep keyedStep_map_values (by decide) (by decide) false,
    lateInsertionVisible_of_keyedStep keyedStep_map_entries (by decide) (by decide) false⟩
  intro heap coll a va b vb hobj
  have hne : coll ≠ .undefined := by
    intro h
    rw [h] at hobj
    simp [Value.isObject] at hobj
  rw [CreateMapIterator_eq _ heap coll _ hobj (by simp [logHost])]
  have hr : (heap ++ [((JSObject.empty.set .IteratedObject coll).set .IteratorNextIndex
      ((logHost coll (Log.ofEntries [(a, va)]) false).GetMapCursor coll)).set
        .MapIterationKind (.number ITERATION_KIND_KEY)])[heap.length]? = some
        (((JSObject.empty.set .IteratedObject coll).set .IteratorNextIndex
          ((logHost coll (Log.ofEntries [(a, va)]) false).GetMapCursor coll)).set
            .MapIterationKind (.number ITERATION_KIND_KEY)) := by simp
  have h := lateInsertionVisible_of_keyedStep keyedStep_map_keys (by decide) (by decide) false
    coll (Log.ofEntries [(a, va)]) b vb 2 (-1) _ heap.length _ hne (by decide)
    (by simp) (by simp [Log.liveAfter, Log.ofEntries, Log.insert]) hr
    (by simp [JSObject.set, JSObject.get, MAP_ITERATION_KIND_ID])
    (by simp [JSObject.set]) (by simp [JSObject.set, logHost])
  have hlive : Log.liveAfter (Log.ofEntries [(a, va)]) (-1) =
      [{ key := a, value := va, live := true }] := by
    simp [Log.liveAfter, Log.ofEntries, Log.insert]
  rw [hlive] at h
  rw [h]
  simp [slotResult, terminalResult]

/-- C13 at a concrete input: the map `{1 -> 10}`, with `2 -> 20` inserted before
the first step. -/
theorem late_insertion_visibility_witness :
    (stepsWith MapIteratorNext
        (List.replicate 3 (logHost (.object 0)
          (Log.insert (Log.ofEntries [(.number 1, .number 10)]) (.number 2) (.number 20)) false))
        (CreateMapIterator (logHost (.object 0) (Log.ofEntries [(.number 1, .number 10)]) false)
          [JSObject.empty] (.object 0) (.number ITERATION_KIND_KEY)).1
        (.object [JSObject.empty].length)).2 =
      [.ok (CreateIterResultObject (.number 1) false),
        .ok (CreateIterResultObject (.number 2) false),
        .ok (CreateIterResultObject .undefined true)] :=
  late_insertion_visibility.1 [JSObject.empty] (.object 0) (.number 1) (.number 10) (.number 2)
    (.number 20) (by rfl)

/-- C21. Set keys() is values(), and the kind assertions are unreachable.  On
`Set.prototype` the methods `keys`, `values` and the default entry point are the
one function `setValues`, and `entries` is `setEntries`; an iterator created by
any of them is a genuine set iterator whose kind is `VALUE` (for `keys`,
`values`, default) or `KEY_PLUS_VALUE` (for `entries`), never `KEY`.  An iterator
created through an entry point of `Array.prototype`, `TypedArray.prototype`,
`Set.prototype` or `Map.prototype`, on any heap, never fails an assertion in a
step, whether fresh or after any number of its steps in any worlds.  And in
every heap reachable when iterators are created through the public entry points
only, every kind slot holds a kind handled by its step operation and no call of
a step operation, on any receiver and in any world, fails an assertion. -/
theorem kind_assertions_unreachable :
    (SetPrototype .keys = setValues ∧ SetPrototype .values = setValues ∧
      SetPrototype .symbolIterator = setValues ∧ SetPrototype .entries = setEntries) ∧
    (∀ (m : MethodName) (host : Host) (heap heap1 : Heap) (this it : Value),
      SetPrototype m host heap this = (heap1, .ok it) →
        IsSetIterator heap1 it = .ok true ∧
        heap1.read it SET_ITERATION_KIND_ID = .number (setKindOf m) ∧
        (heap1.read it SET_ITERATION_KIND_ID = .number ITERATION_KIND_VALUE ∨
          heap1.read it SET_ITERATION_KIND_ID = .number ITERATION_KIND_KEY_PLUS_VALUE) ∧
        heap1.read it SET_ITERATION_KIND_ID ≠ .number ITERATION_KIND_KEY) ∧
    (∀ (m : MethodName) (host : Host) (heap heap1 : Heap) (this it : Value)
      (hosts : List Host) (host2 : Host),
      (ArrayPrototype m host heap this = (heap1, .ok it) ∨
        TypedArrayPrototype m host heap this = (heap1, .ok it) →
          (ArrayIteratorNext host2 (stepsWith ArrayIteratorNext hosts heap1 it).1 it).2 ≠
            .error .AssertionFailed) ∧
      (SetPrototype m host heap this = (heap1, .ok it) →
          (SetIteratorNext host2 (stepsWith SetIteratorNext hosts heap1 it).1 it).2 ≠
            .error .AssertionFailed) ∧
      (MapPrototype m host heap this = (heap1, .ok it) →
          (MapIteratorNext host2 (stepsWith MapIteratorNext hosts heap1 it).1 it).2 ≠
            .error .AssertionFailed)) ∧
    (∀ heap : Heap, PublicReachable heap →
      heap.KindsValid ∧
      ∀ (host : Host) (this : Value),
        (ArrayIteratorNext host heap this).2 ≠ .error .AssertionFailed ∧
        (SetIteratorNext host heap this).2 ≠ .error .AssertionFailed ∧
        (MapIteratorNext host heap this).2 ≠ .error .AssertionFailed ∧
        (StringIteratorNext heap this).2 ≠ .error .AssertionFailed) := by
  refine ⟨⟨rfl, rfl, rfl, rfl⟩, ?_, ?_, ?_⟩
  · intro m host heap heap1 this it hc
    rw [SetPrototype_eq] at hc
    obtain ⟨ho, hs⟩ := CreateSetIterator_ok_inv hc
    rw [CreateSetIterator_eq host heap this _ ho hs] at hc
    simp only [Prod.mk.injEq, Except.ok.injEq] at hc
    obtain ⟨rfl, rfl⟩ := hc
    have hread : Heap.read (heap ++ [((JSObject.empty.set .IteratedObject this).set
        .IteratorNextIndex (host.GetMapCursor this)).set .SetIterationKind
        (.number (setKindOf m))]) (.object heap.length) SET_ITERATION_KIND_ID =
        .number (setKindOf m) := by
      simp [Heap.read_fresh, JSObject.get, JSObject.set, SET_ITERATION_KIND_ID]
    rw [hread]
    refine ⟨?_, rfl, isSetIterationKind_setKindOf m, ?_⟩
    · simp [IsSetIterator, Heap.HasHiddenKey_fresh, JSObject.get, JSObject.set,
        SET_ITERATION_KIND_ID, ITERATED_OBJECT_ID, ITERATOR_NEXT_INDEX_ID]
    · cases m <;> simp [setKindOf, ITERATION_KIND_KEY_eq, ITERATION_KIND_VALUE_eq,
        ITERATION_KIND_KEY_PLUS_VALUE_eq]
  · intro m host heap heap1 this it hosts host2
    refine ⟨?_, ?_, ?_⟩
    · intro hc
      have hcreated : ∃ array, (heap1, (Except.ok it : Except JSError Value)) =
          (heap ++ [((JSObject.empty.set .IteratedObject array).set .IteratorNextIndex
            (.number 0)).set .ArrayIterationKind (.number (sequenceKindOf m))],
            .ok (.object heap.length)) := by
        rcases hc with hc | hc
        · rw [ArrayPrototype_eq] at hc
          rcases arrayIteratorOf_cases (.number (sequenceKindOf m)) host heap this with
            ⟨e, h⟩ | ⟨array, h⟩
          · rw [h] at hc
            simp at hc
          · exact ⟨array, by rw [← hc, h]⟩
        · rw [TypedArrayPrototype_eq] at hc
          rcases typedArrayIteratorOf_cases (.number (sequenceKindOf m)) host heap this with
            ⟨e, h⟩ | ⟨array, h⟩
          · rw [h] at hc
            simp at hc
          · exact ⟨array, by rw [← hc, h]⟩
      obtain ⟨array, hcr⟩ := hcreated
      simp only [Prod.mk.injEq, Except.ok.injEq] at hcr
      obtain ⟨rfl, rfl⟩ := hcr
      have hov := stepsWith_overwrites ArrayIteratorNext_overwrites hosts
        (heap ++ [((JSObject.empty.set .IteratedObject array).set .IteratorNextIndex
          (.number 0)).set .ArrayIterationKind (.number (sequenceKindOf m))])
        (.object heap.length)
      apply ArrayIteratorNext_no_assert
      · rw [IsArrayIterator_of_overwrites hov]
        simp [IsArrayIterator, Heap.HasHiddenKey_fresh, JSObject.get, JSObject.set,
          ARRAY_ITERATION_KIND_ID, ITERATED_OBJECT_ID, ITERATOR_NEXT_INDEX_ID]
      · rw [hov.read_of_not_mem _ (by decide)]
        have hread : Heap.read (heap ++ [((JSObject.empty.set .IteratedObject array).set
            .IteratorNextIndex (.number 0)).set .ArrayIterationKind
            (.number (sequenceKindOf m))]) (.object heap.length) ARRAY_ITERATION_KIND_ID =
            .number (sequenceKindOf m) := by
          simp [Heap.read_fresh, JSObject.get, JSObject.set, ARRAY_ITERATION_KIND_ID]
        rw [hread]
        exact isIterationKind_sequenceKindOf m
    · intro hc
      rw [SetPrototype_eq] at hc
      obtain ⟨ho, hs⟩ := CreateSetIterator_ok_inv hc
      rw [CreateSetIterator_eq host heap this _ ho hs] at hc
      simp only [Prod.mk.injEq, Except.ok.injEq] at hc
      obtain ⟨rfl, rfl⟩ := hc
      have hov := stepsWith_overwrites SetIteratorNext_overwrites hosts
        (heap ++ [((JSObject.empty.set .IteratedObject this).set .IteratorNextIndex
          (host.GetMapCursor this)).set .SetIterationKind (.number (setKindOf m))])
        (.object heap.length)
      apply SetIteratorNext_no_assert
      · unfold IsSetIterator
        simp only [hov.hasKey]
        simp [Heap.HasHiddenKey_fresh, JSObject.get, JSObject.set,
          SET_ITERATION_KIND_ID, ITERATED_OBJECT_ID, ITERATOR_NEXT_INDEX_ID]
      · rw [hov.read_of_not_mem _ (by decide)]
        have hread : Heap.read (heap ++ [((JSObject.empty.set .IteratedObject this).set
            .IteratorNextIndex (host.GetMapCursor this)).set .SetIterationKind
            (.number (setKindOf m))]) (.object heap.length) SET_ITERATION_KIND_ID =
            .number (setKindOf m) := by
          simp [Heap.read_fresh, JSObject.get, JSObject.set, SET_ITERATION_KIND_ID]
        rw [hread]
        exact isSetIterationKind_setKindOf m
    · intro hc
      rw [MapPrototype_eq] at hc
      obtain ⟨ho, hs⟩ := CreateMapIterator_ok_inv hc
      rw [CreateMapIterator_eq host heap this _ ho hs] at hc
      simp only [Prod.mk.injEq, Except.ok.injEq] at hc
      obtain ⟨rfl, rfl⟩ := hc
      have hov := stepsWith_overwrites MapIteratorNext_overwrites hosts
        (heap ++ [((JSObject.empty.set .IteratedObject this).set .IteratorNextIndex
          (host.GetMapCursor this)).set .MapIterationKind (.number (mapKindOf m))])
        (.object heap.length)
      apply MapIteratorNext_no_assert
      · unfold IsMapIterator
        simp only [hov.hasKey]
        simp [Heap.HasHiddenKey_fresh, JSObject.get, JSObject.set,
          MAP_ITERATION_KIND_ID, ITERATED_OBJECT_ID, ITERATOR_NEXT_INDEX_ID]
      · rw [hov.read_of_not_mem _ (by decide)]
        have hread : Heap.read (heap ++ [((JSObject.empty.set .IteratedObject this).set
            .IteratorNextIndex (host.GetMapCursor this)).set .MapIterationKind
            (.number (mapKindOf m))]) (.object heap.length) MAP_ITERATION_KIND_ID =
            .number (mapKindOf m) := by
          simp [Heap.read_fresh, JSObject.get, JSObject.set, MAP_ITERATION_KIND_ID]
        rw [hread]
        exact isIterationKind_mapKindOf m
  · intro heap hreach
    exact ⟨hreach.kindsValid, fun host this =>
      no_assert_of_valid hreach.reachable.complete hreach.kindsValid host this⟩

/-- C21 at a concrete input: `entries()` of `Set.prototype` on the set `{5}` at
reference 0 creates an iterator of kind `KEY_PLUS_VALUE`; its first step reaches
the assertion of line 186, passes it and returns `[5, 5]`. -/
theorem kind_assertions_unreachable_witness :
    SetPrototype .entries (mapHost (.object 0) [(.number 5, .number 5)]) [JSObject.empty]
        (.object 0) =
      ([JSObject.empty,
        { JSObject.empty with
          IteratedObject := some (.object 0)
          IteratorNextIndex := some (.number (-1))
          SetIterationKind := some (.number ITERATION_KIND_KEY_PLUS_VALUE) }],
        .ok (.object 1)) ∧
    (SetIteratorNext (mapHost (.object 0) [(.number 5, .number 5)])
        [JSObject.empty,
          { JSObject.empty with
            IteratedObject := some (.object 0)
            IteratorNextIndex := some (.number (-1))
            SetIterationKind := some (.number ITERATION_KIND_KEY_PLUS_VALUE) }]
        (.object 1)).2 =
      .ok (CreateIterResultObject (.array2 (.number 5) (.number 5)) false) ∧
    (SetIteratorNext (mapHost (.object 0) [(.number 5, .number 5)])
        (stepsWith SetIteratorNext []
          [JSObject.empty,
            { JSObject.empty with
              IteratedObject := some (.object 0)
              IteratorNextIndex := some (.number (-1))
              SetIterationKind := some (.number ITERATION_KIND_KEY_PLUS_VALUE) }]
          (.object 1)).1
        (.object 1)).2 ≠ .error .AssertionFailed :=
  ⟨by rfl, by rfl,
   (kind_assertions_unreachable.2.2.1 .entries (mapHost (.object 0) [(.number 5, .number 5)])
      [JSObject.empty] _ (.object 0) (.object 1) []
      (mapHost (.object 0) [(.number 5, .number 5)])).2.1 (by rfl)⟩

/-- C22. String iteration round trip: for a string `s` of 16-bit code units,
`n + 1` steps (`n ≥ length(s)`) of a fresh iterator from
`CreateStringIterator(s)` return the chunks `codePoints s` as non-terminal
results, in order, and then only the terminal result, at least once.  The
concatenation of the values of the non-terminal results is exactly `s`; every
such value has length 1 or 2; and their number is at most `length(s)` and at
least `ceil(length(s) / 2)`. -/
theorem string_round_trip (host : Host) (heap heap1 : Heap) (it : Value) (s : List Nat)
    (n : Nat) (hs : IsCodeUnits s)
    (hc : CreateStringIterator heap (.string s) = (heap1, .ok it)) (hn : s.length ≤ n) :
    (stepsWith StringIteratorNextIn (List.replicate (n + 1) host) heap1 it).2 =
        (codePoints s).map (fun c => .ok (CreateIterResultObject (.string c) false))
          ++ List.replicate (n + 1 - (codePoints s).length) (.ok terminalResult) ∧
    0 < n + 1 - (codePoints s).length ∧
    concatValues (nonTerminalValues
        (stepsWith StringIteratorNextIn (List.replicate (n + 1) host) heap1 it).2) =
      .string s ∧
    (∀ v ∈ nonTerminalValues
        (stepsWith StringIteratorNextIn (List.replicate (n + 1) host) heap1 it).2,
      v.length = .number 1 ∨ v.length = .number 2) ∧
    (nonTerminalValues
        (stepsWith StringIteratorNextIn (List.replicate (n + 1) host) heap1 it).2).length ≤
      s.length ∧
    (s.length + 1) / 2 ≤ (nonTerminalValues
        (stepsWith StringIteratorNextIn (List.replicate (n + 1) host) heap1 it).2).length := by
  rw [CreateStringIterator_eq] at hc
  simp only [Prod.mk.injEq, Except.ok.injEq] at hc
  obtain ⟨rfl, rfl⟩ := hc
  have hr : (heap ++ [(JSObject.empty.set .IteratedString (.string s)).set
      .StringIteratorNextIndex (.number 0)])[heap.length]? =
      some ((JSObject.empty.set .IteratedString (.string s)).set
        .StringIteratorNextIndex (.number 0)) := by simp
  have hrun := string_run host heap.length s hs n s [] _ _ (by simp) hn hr
    (by simp [JSObject.set]) (by simp [JSObject.set])
  have hle := codePoints_length_le s.length s (le_refl _)
  have hge := codePoints_length_ge s.length s (le_refl _)
  rw [hrun, nonTerminalValues_run, concatValues_strings,
    codePoints_flatten s.length s (le_refl _)]
  refine ⟨rfl, by omega, rfl, ?_, ?_, ?_⟩
  · intro v hv
    obtain ⟨c, hcmem, rfl⟩ := List.mem_map.mp hv
    rcases codePoints_chunk_length s.length s (le_refl _) c hcmem with h | h
    · left
      simp [Value.length, h]
    · right
      simp [Value.length, h]
  · simpa using hle
  · simp only [List.length_map]
    omega

/-- C22 at the string `[0xDE00, 0xD83D, 0x41]`, a trail surrogate followed by a
lead surrogate (a reversed pair) and a letter: three one-unit values, then the
terminal result; their concatenation is the string. -/
theorem string_round_trip_witness :
    (stepsWith StringIteratorNextIn (List.replicate 4 (arrayHost .undefined []))
        [{ JSObject.empty with IteratedString := some (.string [0xDE00, 0xD83D, 0x41]),
                               StringIteratorNextIndex := some (.number 0) }]
        (.object 0)).2 =
      [.ok (CreateIterResultObject (.string [0xDE00]) false),
       .ok (CreateIterResultObject (.string [0xD83D]) false),
       .ok (CreateIterResultObject (.string [0x41]) false),
       .ok terminalResult] ∧
    concatValues (nonTerminalValues
        (stepsWith StringIteratorNextIn (List.replicate 4 (arrayHost .undefined []))
          [{ JSObject.empty with IteratedString := some (.string [0xDE00, 0xD83D, 0x41]),
                                 StringIteratorNextIndex := some (.number 0) }]
          (.object 0)).2) =
      .string [0xDE00, 0xD83D, 0x41] :=
  ⟨(string_round_trip (arrayHost .undefined []) [] _ (.object 0) [0xDE00, 0xD83D, 0x41] 3
      (by unfold IsCodeUnits; decide) (by rfl) (by decide)).1,
   (string_round_trip (arrayHost .undefined []) [] _ (.object 0) [0xDE00, 0xD83D, 0x41] 3
      (by unfold IsCodeUnits; decide) (by rfl) (by decide)).2.2.1⟩

/-- C23. String cursor stays in bounds: after `CreateStringIterator(s)` and any
number of steps, the iterator's target is `s` or absent and its cursor `p`
satisfies `0 ≤ p ≤ length(s)`, and a further step calls `charCodeAt` only at
positions below `length(s)`, where the call yields the code unit there, not NaN.
In a step of a string iterator over `s` with present target and cursor
`0 ≤ p < length(s)` (a step past line 326), every position at which `charCodeAt`
is called is below `length(s)`; the step produces a value of 1 or 2 units and
stores the cursor `p` plus that number, which is at most `length(s)`: a two-unit
advance is taken only when `p + 2 ≤ length(s)`. -/
theorem string_cursor_in_bounds (s : List Nat) :
    (∀ (heap heap1 : Heap) (it : Value),
      CreateStringIterator heap (.string s) = (heap1, .ok it) →
      ∀ hosts : List Host,
        (∃ o, (stepsWith StringIteratorNextIn hosts heap1 it).1.deref it = some o ∧
          StringInBounds s o) ∧
        ∀ q ∈ StringIteratorNextCalls (stepsWith StringIteratorNextIn hosts heap1 it).1 it,
          charCodeAt (.string s) q ≠ .nan ∧
          ∃ (i u : Nat), q = .number i ∧ i < s.length ∧ s[i]? = some u ∧
            charCodeAt (.string s) q = .number u) ∧
    (∀ (heap : Heap) (r : Nat) (o : JSObject) (p : Int),
      heap[r]? = some o → o.IteratedString = some (.string s) →
      o.StringIteratorNextIndex = some (.number p) → 0 ≤ p → p < s.length →
        (∀ q ∈ charCodeAtCalls (.string s) (.number p) (.number s.length),
          charCodeAt (.string s) q ≠ .nan ∧
          ∃ (i u : Nat), q = .number i ∧ i < s.length ∧ s[i]? = some u ∧
            charCodeAt (.string s) q = .number u) ∧
        ∃ l : List Nat,
          StringIteratorNext heap (.object r) =
            (heap.set r (o.set .StringIteratorNextIndex (.number (p + (l.length : Nat)))),
              .ok (CreateIterResultObject (.string l) false)) ∧
          stringIteratorResult (.string s) (.number p) (.number s.length) = .string l ∧
          (l.length = 1 ∨ l.length = 2) ∧ p + (l.length : Nat) ≤ s.length) := by
  constructor
  · intro heap heap1 it hc hosts
    rw [CreateStringIterator_eq] at hc
    simp only [Prod.mk.injEq, Except.ok.injEq] at hc
    obtain ⟨rfl, rfl⟩ := hc
    simp only [Heap.deref]
    have hr : (heap ++ [(JSObject.empty.set .IteratedString (.string s)).set
        .StringIteratorNextIndex (.number 0)])[heap.length]? =
        some ((JSObject.empty.set .IteratedString (.string s)).set
          .StringIteratorNextIndex (.number 0)) := by simp
    have hinv := string_steps_inBounds hosts _ _ hr
      ⟨Or.inl (by simp [JSObject.set]), 0, by simp [JSObject.set], le_refl _,
        (by exact_mod_cast Nat.zero_le s.length : (0 : Int) ≤ s.length)⟩
    refine ⟨hinv, ?_⟩
    obtain ⟨o1, hr1, hb1⟩ := hinv
    intro q hq
    obtain ⟨i, u, hqi, hi2, hu, hcall⟩ := StringIteratorNextCalls_bound hr1 hb1 q hq
    refine ⟨?_, i, u, hqi, hi2, hu, hcall⟩
    rw [hcall]
    simp
  · intro heap r o p hr ht hi hp0 hpl
    obtain ⟨n, rfl⟩ := Int.eq_ofNat_of_zero_le hp0
    have hnl : n < s.length := by exact_mod_cast hpl
    refine ⟨?_, ?_⟩
    · intro q hq
      obtain ⟨i, u, hqi, hi2, hu, hcall⟩ := charCodeAtCalls_bound hnl q hq
      refine ⟨?_, i, u, hqi, hi2, hu, hcall⟩
      rw [hcall]
      simp
    obtain ⟨l, hl, hlen⟩ := stringIteratorResult_bound hnl
    obtain ⟨l2, hstep, hlen2, hbound⟩ := StringIteratorNext_live hr ht hi hnl
    have hge : (Value.number (n : Int)).ge (Value.string s).length = false := by
      simp [Value.ge, Value.length, hnl]
    have hsl : (Value.string s).length = .number s.length := rfl
    have hstep2 := StringIteratorNext_object hr ht hi
    rw [if_neg (by simp), hge] at hstep2
    simp only [Bool.false_eq_true, if_false] at hstep2
    rw [hsl, hl] at hstep2
    refine ⟨l, ?_, hl, ?_, ?_⟩
    · rw [hstep2]
      simp [Value.length, Value.add]
    · rcases hlen with h | ⟨h, -⟩
      · exact Or.inl h
      · exact Or.inr h
    · rcases hlen with h | ⟨h, hb⟩
      · rw [h]
        exact_mod_cast hnl
      · rw [h]
        exact_mod_cast hb

/-- C23 at the string `[0x41, 0xD83D, 0xDE00]` with the cursor at 1: the step
calls `charCodeAt` at the positions 1 and 2, and the call at 2 does not yield
NaN. -/
theorem string_cursor_in_bounds_witness :
    charCodeAtCalls (.string [0x41, 0xD83D, 0xDE00]) (.number 1)
        (.number ([0x41, 0xD83D, 0xDE00] : List Nat).length) = [.number 1, .number 2] ∧
    charCodeAt (.string [0x41, 0xD83D, 0xDE00]) (.number 2) ≠ .nan :=
  ⟨by rfl,
   (((string_cursor_in_bounds [0x41, 0xD83D, 0xDE00]).2
    [{ JSObject.empty with IteratedString := some (.string [0x41, 0xD83D, 0xDE00]),
                           StringIteratorNextIndex := some (.number 1) }]
    0
    { JSObject.empty with IteratedString := some (.string [0x41, 0xD83D, 0xDE00]),
                          StringIteratorNextIndex := some (.number 1) }
    1 (by rfl) (by rfl) (by rfl) (by decide) (by decide)).1 (.number 2) (by decide)).1⟩

/-- C24. Cursor advances before the element is read: for a sequence iterator
with present target, cursor `c` and `c` below the length read by the step,
(1) for kind `KEY` the step stores `c + 1` and returns `{value: c, done: false}`
in every world, whatever an indexed read of the target would do, and the whole
call is the same when the world's indexed read is replaced by any other one: the
element is not read; (2) for every other kind, when the indexed read at `c`
raises `v`, the step completes with that exception and without a result, and the
heap it leaves has the cursor at `c + 1`; (3) for kind `VALUE` or
`KEY_PLUS_VALUE` the step after such a failure reads the element at `c + 1` and
produces it (paired with `c + 1` for `KEY_PLUS_VALUE`), whatever the element at
`c` is by then, or is terminal when `c + 1` has reached the length. -/
theorem cursor_advances_before_read :
    (∀ (host : Host) (heap : Heap) (r : Nat) (o : JSObject) (target : Value) (c L : Int),
      heap[r]? = some o → o.ArrayIterationKind = some (.number ITERATION_KIND_KEY) →
      o.IteratedObject = some target → target ≠ .undefined →
      o.IteratorNextIndex = some (.number c) →
      arrayLength host target = .ok (.number L) → c < L →
        ArrayIteratorNext host heap (.object r) =
          (heap.set r (o.set .IteratorNextIndex (.number (c + 1))),
            .ok (CreateIterResultObject (.number c) false)) ∧
        ∀ g : Value → Value → Except Value Value,
          ArrayIteratorNext { host with GetIndex := g } heap (.object r) =
            ArrayIteratorNext host heap (.object r)) ∧
    (∀ (host : Host) (heap : Heap) (r : Nat) (o : JSObject) (kind target v : Value) (c L : Int),
      heap[r]? = some o → o.ArrayIterationKind = some kind →
      kind ≠ .number ITERATION_KIND_KEY →
      o.IteratedObject = some target → target ≠ .undefined →
      o.IteratorNextIndex = some (.number c) →
      arrayLength host target = .ok (.number L) → c < L →
      host.GetIndex target (.number c) = .error v →
        ArrayIteratorNext host heap (.object r) =
          (heap.set r (o.set .IteratorNextIndex (.number (c + 1))),
            .error (.hostThrow v)) ∧
        (ArrayIteratorNext host heap (.object r)).1.read (.object r) ITERATOR_NEXT_INDEX_ID =
          .number (c + 1) ∧
        (ArrayIteratorNext host heap (.object r)).1.read (.object r) ITERATED_OBJECT_ID =
          target) ∧
    (∀ (host host2 : Host) (heap : Heap) (r : Nat) (o : JSObject) (kind target v x : Value)
      (c L L2 : Int),
      heap[r]? = some o → o.ArrayIterationKind = some kind →
      kind = .number ITERATION_KIND_VALUE ∨ kind = .number ITERATION_KIND_KEY_PLUS_VALUE →
      o.IteratedObject = some target → target ≠ .undefined →
      o.IteratorNextIndex = some (.number c) →
      arrayLength host target = .ok (.number L) → c < L →
      host.GetIndex target (.number c) = .error v →
      arrayLength host2 target = .ok (.number L2) →
        (c + 1 < L2 → host2.GetIndex target (.number (c + 1)) = .ok x →
          (ArrayIteratorNext host2 (ArrayIteratorNext host heap (.object r)).1 (.object r)).2 =
            .ok (CreateIterResultObject
              (if kind = .number ITERATION_KIND_VALUE then x else .array2 (.number (c + 1)) x)
              false)) ∧
        (L2 ≤ c + 1 →
          (ArrayIteratorNext host2 (ArrayIteratorNext host heap (.object r)).1 (.object r)).2 =
            .ok terminalResult)) := by
  refine ⟨?_, ?_, ?_⟩
  · intro host heap r o target c L hr hk ht hne hi hlen hlt
    have hge : (Value.number c).ge (.number L) = false := by
      simp [Value.ge, hlt]
    have h1 : ArrayIteratorNext host heap (.object r) =
        (heap.set r (o.set .IteratorNextIndex (.number (c + 1))),
          .ok (CreateIterResultObject (.number c) false)) := by
      rw [ArrayIteratorNext_object host hr hk ht hi, if_neg hne, hlen]
      simp [hge, Value.add]
    refine ⟨h1, ?_⟩
    intro g
    have hlen2 : arrayLength { host with GetIndex := g } target = .ok (.number L) := by
      rw [← hlen]
      rfl
    rw [h1, ArrayIteratorNext_object { host with GetIndex := g } hr hk ht hi, if_neg hne, hlen2]
    simp [hge, Value.add]
  · intro host heap r o kind target v c L hr hk hkind ht hne hi hlen hlt hread
    have hge : (Value.number c).ge (.number L) = false := by
      simp [Value.ge, hlt]
    have h1 : ArrayIteratorNext host heap (.object r) =
        (heap.set r (o.set .IteratorNextIndex (.number (c + 1))),
          .error (.hostThrow v)) := by
      rw [ArrayIteratorNext_object host hr hk ht hi, if_neg hne, hlen]
      simp [hge, Value.add, hkind, hread]
    refine ⟨h1, ?_, ?_⟩
    · rw [h1]
      simp [Heap.read_object _ (Heap.getElem?_set_same heap r o _ hr), JSObject.get_set,
        ITERATOR_NEXT_INDEX_ID]
    · rw [h1]
      simp [Heap.read_object _ (Heap.getElem?_set_same heap r o _ hr), JSObject.set,
        ITERATED_OBJECT_ID, JSObject.get, ht]
  · intro host host2 heap r o kind target v x c L L2 hr hk hkind ht hne hi hlen hlt hread hlen2
    have hge : (Value.number c).ge (.number L) = false := by
      simp [Value.ge, hlt]
    have hnk : kind ≠ .number ITERATION_KIND_KEY := by
      rcases hkind with rfl | rfl <;>
        simp [ITERATION_KIND_KEY_eq, ITERATION_KIND_VALUE_eq, ITERATION_KIND_KEY_PLUS_VALUE_eq]
    have h1 : ArrayIteratorNext host heap (.object r) =
        (heap.set r (o.set .IteratorNextIndex (.number (c + 1))),
          .error (.hostThrow v)) := by
      rw [ArrayIteratorNext_object host hr hk ht hi, if_neg hne, hlen]
      simp [hge, Value.add, hnk, hread]
    have hr1 := Heap.getElem?_set_same heap r o (o.set .IteratorNextIndex (.number (c + 1))) hr
    have hk1 : (o.set .IteratorNextIndex (.number (c + 1))).ArrayIterationKind = some kind := by
      simpa [JSObject.set] using hk
    have ht1 : (o.set .IteratorNextIndex (.number (c + 1))).IteratedObject = some target := by
      simpa [JSObject.set] using ht
    have hi1 : (o.set .IteratorNextIndex (.number (c + 1))).IteratorNextIndex =
        some (.number (c + 1)) := by
      simp [JSObject.set]
    rw [h1]
    simp only []
    rw [ArrayIteratorNext_object host2 hr1 hk1 ht1 hi1, if_neg hne, hlen2]
    constructor
    · intro hlt2 hread2
      have hge2 : (Value.number (c + 1)).ge (.number L2) = false := by
        simp [Value.ge, hlt2]
      rcases hkind with rfl | rfl
      · simp [hge2, hnk, hread2]
      · simp [hge2, hread2, ITERATION_KIND_KEY_eq, ITERATION_KIND_VALUE_eq,
          ITERATION_KIND_KEY_PLUS_VALUE_eq]
    · intro hle
      have hge2 : (Value.number (c + 1)).ge (.number L2) = true := by
        simp [Value.ge, hle]
      simp [hge2, terminalResult]

/-- C24 at a concrete input: an array of length 2 whose indexed reads throw 99.
The first step of a fresh `VALUE` iterator completes with that exception and
leaves the cursor at 1; the first step of a fresh `KEY` iterator returns
`{value: 0, done: false}`. -/
theorem cursor_advances_before_read_witness :
    ((ArrayIteratorNext (throwingHost (.object 0) 2 (.number 99))
        (CreateArrayIterator [JSObject.empty] (.object 0) (.number ITERATION_KIND_VALUE)).1
        (.object 1)).2 = .error (.hostThrow (.number 99)) ∧
      (ArrayIteratorNext (throwingHost (.object 0) 2 (.number 99))
        (CreateArrayIterator [JSObject.empty] (.object 0) (.number ITERATION_KIND_VALUE)).1
        (.object 1)).1.read (.object 1) ITERATOR_NEXT_INDEX_ID = .number (0 + 1)) ∧
    (ArrayIteratorNext (throwingHost (.object 0) 2 (.number 99))
        (CreateArrayIterator [JSObject.empty] (.object 0) (.number ITERATION_KIND_KEY)).1
        (.object 1)).2 = .ok (CreateIterResultObject (.number 0) false) :=
  ⟨⟨congrArg Prod.snd (cursor_advances_before_read.2.1
      (throwingHost (.object 0) 2 (.number 99))
      (CreateArrayIterator [JSObject.empty] (.object 0) (.number ITERATION_KIND_VALUE)).1 1
      { JSObject.empty with
        IteratedObject := some (.object 0)
        IteratorNextIndex := some (.number 0)
        ArrayIterationKind := some (.number ITERATION_KIND_VALUE) }
      (.number ITERATION_KIND_VALUE) (.object 0) (.number 99) 0 2
      (by rfl) (by rfl) (by decide) (by rfl) (by decide) (by rfl) (by rfl) (by decide)
      (by rfl)).1,
    (cursor_advances_before_read.2.1
      (throwingHost (.object 0) 2 (.number 99))
      (CreateArrayIterator [JSObject.empty] (.object 0) (.number ITERATION_KIND_VALUE)).1 1
      { JSObject.empty with
        IteratedObject := some (.object 0)
        IteratorNextIndex := some (.number 0)
        ArrayIterationKind := some (.number ITERATION_KIND_VALUE) }
      (.number ITERATION_KIND_VALUE) (.object 0) (.number 99) 0 2
      (by rfl) (by rfl) (by decide) (by rfl) (by decide) (by rfl) (by rfl) (by decide)
      (by rfl)).2.1⟩,
   congrArg Prod.snd (cursor_advances_before_read.1
      (throwingHost (.object 0) 2 (.number 99))
      (CreateArrayIterator [JSObject.empty] (.object 0) (.number ITERATION_KIND_KEY)).1 1
      { JSObject.empty with
        IteratedObject := some (.object 0)
        IteratorNextIndex := some (.number 0)
        ArrayIterationKind := some (.number ITERATION_KIND_KEY) }
      (.object 0) 0 2
      (by rfl) (by rfl) (by rfl) (by decide) (by rfl) (by rfl) (by decide)).1⟩

/-- C25. Set and map iterators are separate brands although they share the
target and cursor slots: an iterator created by `CreateMapIterator` carries the
`IteratedObject` and `IteratorNextIndex` slots (holding the map and its head
cursor), and in its fresh state as well as after any number of its own steps a
call of `SetIteratorNext` on it raises the TypeError "not a Set Iterator" and a
call of `ArrayIteratorNext` on it raises the TypeError "not an Array Iterator",
each leaving the whole heap, and so the receiver's cursor and target, as it was;
the same holds for an iterator created by `CreateSetIterator` with
`MapIteratorNext` ("not a Map Iterator") and `ArrayIteratorNext`. -/
theorem set_and_map_iterators_are_separate_brands :
    (∀ (host : Host) (heap heap1 : Heap) (map kind it : Value),
      CreateMapIterator host heap map kind = (heap1, .ok it) →
        heap1.HasHiddenKey it ITERATED_OBJECT_ID = true ∧
        heap1.HasHiddenKey it ITERATOR_NEXT_INDEX_ID = true ∧
        heap1.read it ITERATED_OBJECT_ID = map ∧
        heap1.read it ITERATOR_NEXT_INDEX_ID = host.GetMapCursor map ∧
        ∀ (hosts : List Host) (host2 : Host),
          SetIteratorNext host2 (stepsWith MapIteratorNext hosts heap1 it).1 it =
            ((stepsWith MapIteratorNext hosts heap1 it).1,
              .error (.TypeError "not a Set Iterator")) ∧
          ArrayIteratorNext host2 (stepsWith MapIteratorNext hosts heap1 it).1 it =
            ((stepsWith MapIteratorNext hosts heap1 it).1,
              .error (.TypeError "not an Array Iterator"))) ∧
    (∀ (host : Host) (heap heap1 : Heap) (set kind it : Value),
      CreateSetIterator host heap set kind = (heap1, .ok it) →
        heap1.HasHiddenKey it ITERATED_OBJECT_ID = true ∧
        heap1.HasHiddenKey it ITERATOR_NEXT_INDEX_ID = true ∧
        heap1.read it ITERATED_OBJECT_ID = set ∧
        heap1.read it ITERATOR_NEXT_INDEX_ID = host.GetMapCursor set ∧
        ∀ (hosts : List Host) (host2 : Host),
          MapIteratorNext host2 (stepsWith SetIteratorNext hosts heap1 it).1 it =
            ((stepsWith SetIteratorNext hosts heap1 it).1,
              .error (.TypeError "not a Map Iterator")) ∧
          ArrayIteratorNext host2 (stepsWith SetIteratorNext hosts heap1 it).1 it =
            ((stepsWith SetIteratorNext hosts heap1 it).1,
              .error (.TypeError "not an Array Iterator"))) := by
  constructor
  · intro host heap heap1 map kind it hc
    obtain ⟨ho, hm⟩ := CreateMapIterator_ok_inv hc
    rw [CreateMapIterator_eq host heap map kind ho hm] at hc
    simp only [Prod.mk.injEq, Except.ok.injEq] at hc
    obtain ⟨rfl, rfl⟩ := hc
    refine ⟨?_, ?_, ?_, ?_, ?_⟩
    · simp [Heap.HasHiddenKey_fresh, JSObject.get, JSObject.set, ITERATED_OBJECT_ID]
    · simp [Heap.HasHiddenKey_fresh, JSObject.get, JSObject.set, ITERATOR_NEXT_INDEX_ID]
    · simp [Heap.read_fresh, JSObject.get, JSObject.set, ITERATED_OBJECT_ID]
    · simp [Heap.read_fresh, JSObject.get, JSObject.set, ITERATOR_NEXT_INDEX_ID]
    · intro hosts host2
      have hov := stepsWith_overwrites MapIteratorNext_overwrites hosts
        (heap ++ [((JSObject.empty.set .IteratedObject map).set .IteratorNextIndex
          (host.GetMapCursor map)).set .MapIterationKind kind]) (.object heap.length)
      constructor
      · apply SetIteratorNext_reject
        rw [hov.hasKey]
        simp [Heap.HasHiddenKey_fresh, JSObject.get, JSObject.set, JSObject.empty,
          SET_ITERATION_KIND_ID]
      · apply ArrayIteratorNext_reject
        rw [hov.hasKey]
        simp [Heap.HasHiddenKey_fresh, JSObject.get, JSObject.set, JSObject.empty,
          ARRAY_ITERATION_KIND_ID]
  · intro host heap heap1 set kind it hc
    obtain ⟨ho, hm⟩ := CreateSetIterator_ok_inv hc
    rw [CreateSetIterator_eq host heap set kind ho hm] at hc
    simp only [Prod.mk.injEq, Except.ok.injEq] at hc
    obtain ⟨rfl, rfl⟩ := hc
    refine ⟨?_, ?_, ?_, ?_, ?_⟩
    · simp [Heap.HasHiddenKey_fresh, JSObject.get, JSObject.set, ITERATED_OBJECT_ID]
    · simp [Heap.HasHiddenKey_fresh, JSObject.get, JSObject.set, ITERATOR_NEXT_INDEX_ID]
    · simp [Heap.read_fresh, JSObject.get, JSObject.set, ITERATED_OBJECT_ID]
    · simp [Heap.read_fresh, JSObject.get, JSObject.set, ITERATOR_NEXT_INDEX_ID]
    · intro hosts host2
      have hov := stepsWith_overwrites SetIteratorNext_overwrites hosts
        (heap ++ [((JSObject.empty.set .IteratedObject set).set .IteratorNextIndex
          (host.GetMapCursor set)).set .SetIterationKind kind]) (.object heap.length)
      constructor
      · apply MapIteratorNext_reject
        rw [hov.hasKey]
        simp [Heap.HasHiddenKey_fresh, JSObject.get, JSObject.set, JSObject.empty,
          MAP_ITERATION_KIND_ID]
      · apply ArrayIteratorNext_reject
        rw [hov.hasKey]
        simp [Heap.HasHiddenKey_fresh, JSObject.get, JSObject.set, JSObject.empty,
          ARRAY_ITERATION_KIND_ID]

/-- C25 at a concrete input: an entries iterator over the map `{1 → 2}` at
reference 0, stepped once by `MapIteratorNext` (its cursor is then 0);
`SetIteratorNext` on it raises "not a Set Iterator" and the heap, with the
cursor at 0 and the map as target, is as before the call. -/
theorem set_and_map_iterators_are_separate_brands_witness :
    CreateMapIterator (mapHost (.object 0) [(.number 1, .number 2)]) [JSObject.empty]
        (.object 0) (.number 3) =
      ([JSObject.empty,
        { JSObject.empty with
          IteratedObject := some (.object 0)
          IteratorNextIndex := some (.number (-1))
          MapIterationKind := some (.number 3) }], .ok (.object 1)) ∧
    SetIteratorNext (mapHost (.object 0) [(.number 1, .number 2)])
        (stepsWith MapIteratorNext [mapHost (.object 0) [(.number 1, .number 2)]]
          [JSObject.empty,
            { JSObject.empty with
              IteratedObject := some (.object 0)
              IteratorNextIndex := some (.number (-1))
              MapIterationKind := some (.number 3) }] (.object 1)).1 (.object 1) =
      ((stepsWith MapIteratorNext [mapHost (.object 0) [(.number 1, .number 2)]]
          [JSObject.empty,
            { JSObject.empty with
              IteratedObject := some (.object 0)
              IteratorNextIndex := some (.number (-1))
              MapIterationKind := some (.number 3) }] (.object 1)).1,
        .error (.TypeError "not a Set Iterator")) ∧
    (stepsWith MapIteratorNext [mapHost (.object 0) [(.number 1, .number 2)]]
        [JSObject.empty,
          { JSObject.empty with
            IteratedObject := some (.object 0)
            IteratorNextIndex := some (.number (-1))
            MapIterationKind := some (.number 3) }] (.object 1)).1 =
      [JSObject.empty,
        { JSObject.empty with
          IteratedObject := some (.object 0)
          IteratorNextIndex := some (.number 0)
          MapIterationKind := some (.number 3) }] :=
  ⟨by rfl,
   ((set_and_map_iterators_are_separate_brands.1
      (mapHost (.object 0) [(.number 1, .number 2)]) [JSObject.empty] _ (.object 0) (.number 3)
      (.object 1) (by rfl)).2.2.2.2 [mapHost (.object 0) [(.number 1, .number 2)]]
      (mapHost (.object 0) [(.number 1, .number 2)])).1,
   by rfl⟩

/-- C26. Iteration kinds form a disjoint bit pair: `ITERATION_KIND_KEY` is 1 and
`ITERATION_KIND_VALUE` is 2, two different powers of two whose bitwise "and" is
0; `ITERATION_KIND_KEY_PLUS_VALUE` is their bitwise "or", 3, and differs from
both, so the three kinds are pairwise distinct.  The tests "key requested"
(`kind & KEY` non-zero) and "value requested" (`kind & VALUE` non-zero) give
(true, false) on `KEY`, (false, true) on `VALUE` and (true, true) on
`KEY_PLUS_VALUE`, so each of the three kinds is recognised by the two tests. -/
theorem iteration_kinds_disjoint_bits :
    (ITERATION_KIND_KEY = 1 ∧ ITERATION_KIND_VALUE = 2 ∧
      ITERATION_KIND_KEY = 2 ^ 0 ∧ ITERATION_KIND_VALUE = 2 ^ 1) ∧
    ITERATION_KIND_KEY &&& ITERATION_KIND_VALUE = 0 ∧
    (ITERATION_KIND_KEY_PLUS_VALUE = ITERATION_KIND_KEY ||| ITERATION_KIND_VALUE ∧
      ITERATION_KIND_KEY_PLUS_VALUE = 3) ∧
    (ITERATION_KIND_KEY ≠ ITERATION_KIND_VALUE ∧
      ITERATION_KIND_KEY ≠ ITERATION_KIND_KEY_PLUS_VALUE ∧
      ITERATION_KIND_VALUE ≠ ITERATION_KIND_KEY_PLUS_VALUE) ∧
    (keyRequested ITERATION_KIND_KEY = true ∧ valueRequested ITERATION_KIND_KEY = false) ∧
    (keyRequested ITERATION_KIND_VALUE = false ∧ valueRequested ITERATION_KIND_VALUE = true) ∧
    (keyRequested ITERATION_KIND_KEY_PLUS_VALUE = true ∧
      valueRequested ITERATION_KIND_KEY_PLUS_VALUE = true) ∧
    (∀ kind : Nat,
      kind = ITERATION_KIND_KEY ∨ kind = ITERATION_KIND_VALUE ∨
        kind = ITERATION_KIND_KEY_PLUS_VALUE →
      (kind = ITERATION_KIND_KEY ↔ keyRequested kind = true ∧ valueRequested kind = false) ∧
      (kind = ITERATION_KIND_VALUE ↔ keyRequested kind = false ∧ valueRequested kind = true) ∧
      (kind = ITERATION_KIND_KEY_PLUS_VALUE ↔
        keyRequested kind = true ∧ valueRequested kind = true)) := by
  refine ⟨by decide, by decide, by decide, by decide, by decide, by decide, by decide, ?_⟩
  intro kind hkind
  rcases hkind with rfl | rfl | rfl <;> decide

/-- C26 at the kind `KEY_PLUS_VALUE`: both the key and the value are
requested. -/
theorem iteration_kinds_disjoint_bits_witness :
    keyRequested ITERATION_KIND_KEY_PLUS_VALUE = true ∧
      valueRequested ITERATION_KIND_KEY_PLUS_VALUE = true :=
  (iteration_kinds_disjoint_bits.2.2.2.2.2.2.2 ITERATION_KIND_KEY_PLUS_VALUE
    (Or.inr (Or.inr rfl))).2.2.mp rfl

end IteratorJS
